import Mathlib

/-!
Verification of `suitesparse_graphblas/create_headers.py`.

The script ingests a preprocessed C header, classifies every declaration
line into named groups (`get_groups`), filters deprecated and complex-number
declarations (`get_group_info`), and emits generated header/source text
(`create_header_text`, `create_source_text`); `main` orchestrates the steps
and cross-checks the `#define` names found in the header.

This file shallowly embeds the script.  Python strings become Lean `String`
(compared by code points, as Python does); Python string methods (`split`,
`splitlines`, `strip`, `replace`, `in`, `startswith`, `endswith`) are
modelled by executable structural recursions below; Python's `sorted`
(a stable sort) is modelled by a stable insertion sort; Python sets built
from string comprehensions are modelled by first-occurrence deduplicated
lists (only their membership and the subsequent key-sorted output are
observable, and the determinism theorem treats the enumeration order of a
set as an explicit parameter).  Fallible code (assertions, unpacking errors,
dict lookups, raises) returns `Option`/error values.
-/

namespace CreateHeaders

/-- `startsWithL p l` : `l` starts with `p` (Python `startswith`, on chars). -/
def startsWithL (p : List Char) (l : List Char) : Bool :=
  match p, l with
  | [], _ => true
  | _ :: _, [] => false
  | a :: as, b :: bs => a == b && startsWithL as bs

/-- `containsL hay needle` : `needle` occurs as a contiguous run in `hay`
    (Python `needle in hay`). -/
def containsL (hay needle : List Char) : Bool :=
  match hay with
  | [] => needle.isEmpty
  | _ :: t => startsWithL needle hay || containsL t needle

/-- Python `needle in hay` on strings. -/
def pyIn (needle hay : String) : Bool := containsL hay.data needle.data

/-- Python `s.startswith(p)`. -/
def pyStartsWith (p s : String) : Bool := startsWithL p.data s.data

/-- Python `s.endswith(p)`. -/
def pyEndsWith (p s : String) : Bool := startsWithL p.data.reverse s.data.reverse

/-- Python whitespace test for `str.strip()` (ASCII whitespace suffices here). -/
def isSpaceChar (c : Char) : Bool :=
  c = ' ' || c = '\t' || c = '\n' || c = '\r' || c = '\x0b' || c = '\x0c'

/-- Python `s.strip()`. -/
def pyStrip (s : String) : String :=
  String.mk (((s.data.dropWhile isSpaceChar).reverse.dropWhile isSpaceChar).reverse)

/-- Python `s[:-1]`. -/
def dropLastStr (s : String) : String := String.mk s.data.dropLast

/-- Python `s[1:-1]`. -/
def dropEndsStr (s : String) : String := String.mk (s.data.drop 1).dropLast

/-- Worker for `splitlines`: `acc` holds the current line reversed. -/
def splitlinesGo : List Char → List Char → List String
  | [], acc => if acc.isEmpty then [] else [String.mk acc.reverse]
  | c :: cs, acc =>
    if c = '\n' then String.mk acc.reverse :: splitlinesGo cs []
    else splitlinesGo cs (c :: acc)

/-- Python `s.splitlines()` (the headers only contain `\n` line breaks). -/
def splitlines (s : String) : List String := splitlinesGo s.data []

/-- Worker for `pySplitChar`. -/
def splitCharGo (sep : Char) : List Char → List Char → List String
  | [], acc => [String.mk acc.reverse]
  | c :: cs, acc =>
    if c = sep then String.mk acc.reverse :: splitCharGo sep cs []
    else splitCharGo sep cs (c :: acc)

/-- Python `s.split(sep)` for a one-character separator (keeps empty parts). -/
def pySplitChar (sep : Char) (s : String) : List String := splitCharGo sep s.data []

/-- Worker for `pySplitCharMax`; `n` is the number of splits still allowed. -/
def splitCharMaxGo (sep : Char) : List Char → Nat → List Char → List String
  | [], _, acc => [String.mk acc.reverse]
  | c :: cs, n, acc =>
    if c = sep then
      match n with
      | 0 => splitCharMaxGo sep cs 0 (c :: acc)
      | m + 1 => String.mk acc.reverse :: splitCharMaxGo sep cs m []
    else splitCharMaxGo sep cs n (c :: acc)

/-- Python `s.split(sep, maxsplit)` for a one-character separator. -/
def pySplitCharMax (sep : Char) (n : Nat) (s : String) : List String :=
  splitCharMaxGo sep s.data n []

/-- Worker for `pyReplace`, fuelled so the recursion is structural. -/
def pyReplaceGo (old new : List Char) : Nat → List Char → List Char
  | _, [] => []
  | 0, l => l
  | fuel + 1, c :: cs =>
    match old with
    | [] => c :: cs
    | o :: os =>
      if startsWithL (o :: os) (c :: cs) then
        new ++ pyReplaceGo (o :: os) new fuel (cs.drop os.length)
      else
        c :: pyReplaceGo (o :: os) new fuel cs

/-- Python `s.replace(old, new)` for non-empty `old` (all uses here are
    non-empty): left-to-right, non-overlapping. -/
def pyReplace (old new s : String) : String :=
  String.mk (pyReplaceGo old.data new.data s.data.length s.data)

/-- Membership of a string in a list (Python `in` on a set, observably). -/
def memS (x : String) (l : List String) : Bool := l.any fun y => decide (y = x)

/-- Python set difference `a - b`, on canonical enumerations. -/
def sdiff (a b : List String) : List String := a.filter fun x => !memS x b

/-- Worker for `pySet`: drop elements already seen, keep first occurrences. -/
def dedupGo : List String → List String → List String
  | [], _ => []
  | x :: xs, seen =>
    if memS x seen then dedupGo xs seen else x :: dedupGo xs (x :: seen)

/-- Canonical enumeration of the Python set of the elements of `l`
    (first occurrences, in order). -/
def pySet (l : List String) : List String := dedupGo l []

/-- Lexicographic (code-point) order on char lists: Python string `<=`. -/
def charListLe : List Char → List Char → Bool
  | [], _ => true
  | _ :: _, [] => false
  | a :: as, b :: bs =>
    if a < b then true else if b < a then false else charListLe as bs

/-- Python string `<=` (code-point lexicographic). -/
def strLe (a b : String) : Bool := charListLe a.data b.data

/-- Stable insertion into a sorted list: `x` goes before the first `y`
    with `le x y`; on ties the inserted (originally earlier) element wins. -/
def insertLe {α : Type} (le : α → α → Bool) (x : α) : List α → List α
  | [] => [x]
  | y :: ys => if le x y then x :: y :: ys else y :: insertLe le x ys

/-- Stable insertion sort; models Python's stable `sorted`. -/
def sortLe {α : Type} (le : α → α → Bool) : List α → List α
  | [] => []
  | x :: xs => insertLe le x (sortLe le xs)

/-- Python `sorted(l, key=key)` for string keys. -/
def pySortedBy {α : Type} (key : α → String) (l : List α) : List α :=
  sortLe (fun a b => strLe (key a) (key b)) l

/-- `sep.join(parts)` on char lists. -/
def joinSep (sep : List Char) : List (List Char) → List Char
  | [] => []
  | [l] => l
  | l :: l₂ :: ls => l ++ sep ++ joinSep sep (l₂ :: ls)

/-- Python `sep.join(parts)`. -/
def pyJoin (sep : String) (parts : List String) : String :=
  String.mk (joinSep sep.data (parts.map String.data))

/-- Text after the last `}` of `s`, i.e. Python `s.rsplit("}", 1)[-1]`. -/
def afterLastBrace (s : String) : String :=
  String.mk ((s.data.reverse.takeWhile (fun c => c ≠ '}')).reverse)

/-! ### Constants and small helpers of the script -/

/-- `sort_key` of the script: e.g. sort `INT8` before `INT16`. -/
def sort_key (s : String) : String := pyReplace "8" "08" s

/-- `has_complex` of the script. -/
def has_complex (s : String) : Bool := pyIn "FC32" s || pyIn "FC64" s

/-- The `AUTO` marker line of the script. -/
def AUTO : String := "/* This file is automatically generated */"

/-- The `DEPRECATED` table of the script (source order). -/
def DEPRECATED : List String := [
  "GxB_IS_HYPER",
  "GrB_SCMP",
  "GxB_kron",
  "GxB_Matrix_resize",
  "GxB_Vector_resize",
  "GxB_ABS_BOOL",
  "GxB_ABS_INT8",
  "GxB_ABS_INT16",
  "GxB_ABS_INT32",
  "GxB_ABS_INT64",
  "GxB_ABS_UINT8",
  "GxB_ABS_UINT16",
  "GxB_ABS_UINT32",
  "GxB_ABS_UINT64",
  "GxB_ABS_FP32",
  "GxB_ABS_FP64",
  "GxB_MIN_INT8_MONOID",
  "GxB_MIN_INT16_MONOID",
  "GxB_MIN_INT32_MONOID",
  "GxB_MIN_INT64_MONOID",
  "GxB_MIN_UINT8_MONOID",
  "GxB_MIN_UINT16_MONOID",
  "GxB_MIN_UINT32_MONOID",
  "GxB_MIN_UINT64_MONOID",
  "GxB_MIN_FP32_MONOID",
  "GxB_MIN_FP64_MONOID",
  "GxB_MAX_INT8_MONOID",
  "GxB_MAX_INT16_MONOID",
  "GxB_MAX_INT32_MONOID",
  "GxB_MAX_INT64_MONOID",
  "GxB_MAX_UINT8_MONOID",
  "GxB_MAX_UINT16_MONOID",
  "GxB_MAX_UINT32_MONOID",
  "GxB_MAX_UINT64_MONOID",
  "GxB_MAX_FP32_MONOID",
  "GxB_MAX_FP64_MONOID",
  "GxB_PLUS_INT8_MONOID",
  "GxB_PLUS_INT16_MONOID",
  "GxB_PLUS_INT32_MONOID",
  "GxB_PLUS_INT64_MONOID",
  "GxB_PLUS_UINT8_MONOID",
  "GxB_PLUS_UINT16_MONOID",
  "GxB_PLUS_UINT32_MONOID",
  "GxB_PLUS_UINT64_MONOID",
  "GxB_PLUS_FP32_MONOID",
  "GxB_PLUS_FP64_MONOID",
  "GxB_TIMES_INT8_MONOID",
  "GxB_TIMES_INT16_MONOID",
  "GxB_TIMES_INT32_MONOID",
  "GxB_TIMES_INT64_MONOID",
  "GxB_TIMES_UINT8_MONOID",
  "GxB_TIMES_UINT16_MONOID",
  "GxB_TIMES_UINT32_MONOID",
  "GxB_TIMES_UINT64_MONOID",
  "GxB_TIMES_FP32_MONOID",
  "GxB_TIMES_FP64_MONOID",
  "GxB_LOR_BOOL_MONOID",
  "GxB_LAND_BOOL_MONOID",
  "GxB_LXOR_BOOL_MONOID",
  "GxB_LXNOR_BOOL_MONOID",
  "GxB_PLUS_TIMES_INT8",
  "GxB_PLUS_TIMES_INT16",
  "GxB_PLUS_TIMES_INT32",
  "GxB_PLUS_TIMES_INT64",
  "GxB_PLUS_TIMES_UINT8",
  "GxB_PLUS_TIMES_UINT16",
  "GxB_PLUS_TIMES_UINT32",
  "GxB_PLUS_TIMES_UINT64",
  "GxB_PLUS_TIMES_FP32",
  "GxB_PLUS_TIMES_FP64",
  "GxB_PLUS_MIN_INT8",
  "GxB_PLUS_MIN_INT16",
  "GxB_PLUS_MIN_INT32",
  "GxB_PLUS_MIN_INT64",
  "GxB_PLUS_MIN_UINT8",
  "GxB_PLUS_MIN_UINT16",
  "GxB_PLUS_MIN_UINT32",
  "GxB_PLUS_MIN_UINT64",
  "GxB_PLUS_MIN_FP32",
  "GxB_PLUS_MIN_FP64",
  "GxB_MIN_PLUS_INT8",
  "GxB_MIN_PLUS_INT16",
  "GxB_MIN_PLUS_INT32",
  "GxB_MIN_PLUS_INT64",
  "GxB_MIN_PLUS_UINT8",
  "GxB_MIN_PLUS_UINT16",
  "GxB_MIN_PLUS_UINT32",
  "GxB_MIN_PLUS_UINT64",
  "GxB_MIN_PLUS_FP32",
  "GxB_MIN_PLUS_FP64",
  "GxB_MIN_TIMES_INT8",
  "GxB_MIN_TIMES_INT16",
  "GxB_MIN_TIMES_INT32",
  "GxB_MIN_TIMES_INT64",
  "GxB_MIN_TIMES_UINT8",
  "GxB_MIN_TIMES_UINT16",
  "GxB_MIN_TIMES_UINT32",
  "GxB_MIN_TIMES_UINT64",
  "GxB_MIN_TIMES_FP32",
  "GxB_MIN_TIMES_FP64",
  "GxB_MIN_FIRST_INT8",
  "GxB_MIN_FIRST_INT16",
  "GxB_MIN_FIRST_INT32",
  "GxB_MIN_FIRST_INT64",
  "GxB_MIN_FIRST_UINT8",
  "GxB_MIN_FIRST_UINT16",
  "GxB_MIN_FIRST_UINT32",
  "GxB_MIN_FIRST_UINT64",
  "GxB_MIN_FIRST_FP32",
  "GxB_MIN_FIRST_FP64",
  "GxB_MIN_SECOND_INT8",
  "GxB_MIN_SECOND_INT16",
  "GxB_MIN_SECOND_INT32",
  "GxB_MIN_SECOND_INT64",
  "GxB_MIN_SECOND_UINT8",
  "GxB_MIN_SECOND_UINT16",
  "GxB_MIN_SECOND_UINT32",
  "GxB_MIN_SECOND_UINT64",
  "GxB_MIN_SECOND_FP32",
  "GxB_MIN_SECOND_FP64",
  "GxB_MIN_MAX_INT8",
  "GxB_MIN_MAX_INT16",
  "GxB_MIN_MAX_INT32",
  "GxB_MIN_MAX_INT64",
  "GxB_MIN_MAX_UINT8",
  "GxB_MIN_MAX_UINT16",
  "GxB_MIN_MAX_UINT32",
  "GxB_MIN_MAX_UINT64",
  "GxB_MIN_MAX_FP32",
  "GxB_MIN_MAX_FP64",
  "GxB_MAX_PLUS_INT8",
  "GxB_MAX_PLUS_INT16",
  "GxB_MAX_PLUS_INT32",
  "GxB_MAX_PLUS_INT64",
  "GxB_MAX_PLUS_UINT8",
  "GxB_MAX_PLUS_UINT16",
  "GxB_MAX_PLUS_UINT32",
  "GxB_MAX_PLUS_UINT64",
  "GxB_MAX_PLUS_FP32",
  "GxB_MAX_PLUS_FP64",
  "GxB_MAX_TIMES_INT8",
  "GxB_MAX_TIMES_INT16",
  "GxB_MAX_TIMES_INT32",
  "GxB_MAX_TIMES_INT64",
  "GxB_MAX_TIMES_UINT8",
  "GxB_MAX_TIMES_UINT16",
  "GxB_MAX_TIMES_UINT32",
  "GxB_MAX_TIMES_UINT64",
  "GxB_MAX_TIMES_FP32",
  "GxB_MAX_TIMES_FP64",
  "GxB_MAX_FIRST_INT8",
  "GxB_MAX_FIRST_INT16",
  "GxB_MAX_FIRST_INT32",
  "GxB_MAX_FIRST_INT64",
  "GxB_MAX_FIRST_UINT8",
  "GxB_MAX_FIRST_UINT16",
  "GxB_MAX_FIRST_UINT32",
  "GxB_MAX_FIRST_UINT64",
  "GxB_MAX_FIRST_FP32",
  "GxB_MAX_FIRST_FP64",
  "GxB_MAX_SECOND_INT8",
  "GxB_MAX_SECOND_INT16",
  "GxB_MAX_SECOND_INT32",
  "GxB_MAX_SECOND_INT64",
  "GxB_MAX_SECOND_UINT8",
  "GxB_MAX_SECOND_UINT16",
  "GxB_MAX_SECOND_UINT32",
  "GxB_MAX_SECOND_UINT64",
  "GxB_MAX_SECOND_FP32",
  "GxB_MAX_SECOND_FP64",
  "GxB_MAX_MIN_INT8",
  "GxB_MAX_MIN_INT16",
  "GxB_MAX_MIN_INT32",
  "GxB_MAX_MIN_INT64",
  "GxB_MAX_MIN_UINT8",
  "GxB_MAX_MIN_UINT16",
  "GxB_MAX_MIN_UINT32",
  "GxB_MAX_MIN_UINT64",
  "GxB_MAX_MIN_FP32",
  "GxB_MAX_MIN_FP64",
  "GxB_LOR_LAND_BOOL",
  "GxB_LAND_LOR_BOOL",
  "GxB_LXOR_LAND_BOOL",
  "GrB_eWiseMult_Vector_Semiring",
  "GrB_eWiseMult_Vector_Monoid",
  "GrB_eWiseMult_Vector_BinaryOp",
  "GrB_eWiseMult_Matrix_Semiring",
  "GrB_eWiseMult_Matrix_Monoid",
  "GrB_eWiseMult_Matrix_BinaryOp",
  "GrB_eWiseAdd_Vector_Semiring",
  "GrB_eWiseAdd_Vector_Monoid",
  "GrB_eWiseAdd_Vector_BinaryOp",
  "GrB_eWiseAdd_Matrix_Semiring",
  "GrB_eWiseAdd_Matrix_Monoid",
  "GrB_eWiseAdd_Matrix_BinaryOp"
]

/-- The `DEFINES` table of the script (source order). -/
def DEFINES : List String := [
  "GxB_STDC_VERSION",
  "GxB_IMPLEMENTATION_MAJOR",
  "GxB_IMPLEMENTATION_MINOR",
  "GxB_IMPLEMENTATION_SUB",
  "GxB_SPEC_MAJOR",
  "GxB_SPEC_MINOR",
  "GxB_SPEC_SUB",
  "GxB_IMPLEMENTATION",
  "GxB_SPEC_VERSION",
  "GxB_INDEX_MAX",
  "GRB_VERSION",
  "GRB_SUBVERSION",
  "GxB_NTHREADS",
  "GxB_CHUNK",
  "GxB_GPU_CONTROL",
  "GxB_GPU_CHUNK",
  "GxB_HYPERSPARSE",
  "GxB_SPARSE",
  "GxB_BITMAP",
  "GxB_FULL",
  "GxB_NBITMAP_SWITCH",
  "GxB_ANY_SPARSITY",
  "GxB_AUTO_SPARSITY",
  "GxB_RANGE",
  "GxB_STRIDE",
  "GxB_BACKWARDS",
  "GxB_BEGIN",
  "GxB_END",
  "GxB_INC"
]

/-- The `CHAR_DEFINES` table of the script (source order). -/
def CHAR_DEFINES : List String := [
  "GxB_IMPLEMENTATION_NAME",
  "GxB_IMPLEMENTATION_DATE",
  "GxB_SPEC_DATE",
  "GxB_IMPLEMENTATION_ABOUT",
  "GxB_IMPLEMENTATION_LICENSE",
  "GxB_SPEC_ABOUT"
]

/-- The `IGNORE_DEFINES` table of the script (source order). -/
def IGNORE_DEFINES : List String := [
  "CMPLX",
  "CMPLXF",
  "GB_PUBLIC",
  "GRAPHBLAS_H",
  "GrB_INVALID_HANDLE",
  "GrB_NULL",
  "GxB_SUITESPARSE_GRAPHBLAS",
  "NMACRO",
  "GxB_HYPER"
]

/-! ### `get_groups` -/

/-- The named groups returned by `get_groups` (dict keys of the script, as
    structure fields: e.g. `gxbMethods` is `groups["GxB methods"]`). -/
structure Groups where
  gxbMethods : List String
  grbMethods : List String
  gbMethods : List String
  grbObjects : List String
  gxbObjects : List String
  gxbConst : List String
  grbConst : List String
  gxbTypedef : List String
  grbTypedef : List String
  grbTypedefEnums : List String
  gxbTypedefEnums : List String
  gxbTypedefFuncs : List String
  notSeen : List String
deriving Repr, DecidableEq

/-- Stage 1 of `get_groups`: lines with `extern GrB_Info GxB`. -/
def ggV₁ (lines : List String) : List String :=
  pySet (lines.filter fun x => pyIn "extern GrB_Info GxB" x)

/-- `seen` after stage 1. -/
def ggS₁ (lines : List String) : List String := ggV₁ lines

/-- Stage 2: lines with `extern GrB_Info GrB`, minus `seen`. -/
def ggV₂ (lines : List String) : List String :=
  sdiff (pySet (lines.filter fun x => pyIn "extern GrB_Info GrB" x)) (ggS₁ lines)

/-- `seen` after stage 2. -/
def ggS₂ (lines : List String) : List String := ggS₁ lines ++ ggV₂ lines

/-- Stage 3: lines with `extern GrB_Info GB`, minus `seen`. -/
def ggV₃ (lines : List String) : List String :=
  sdiff (pySet (lines.filter fun x => pyIn "extern GrB_Info GB" x)) (ggS₂ lines)

/-- `seen` after stage 3. -/
def ggS₃ (lines : List String) : List String := ggS₂ lines ++ ggV₃ lines

/-- Stage 4: lines with `extern GrB`, minus `seen`. -/
def ggV₄ (lines : List String) : List String :=
  sdiff (pySet (lines.filter fun x => pyIn "extern GrB" x)) (ggS₃ lines)

/-- `seen` after stage 4. -/
def ggS₄ (lines : List String) : List String := ggS₃ lines ++ ggV₄ lines

/-- Stage 5: lines with `extern GxB`, minus `seen`. -/
def ggV₅ (lines : List String) : List String :=
  sdiff (pySet (lines.filter fun x => pyIn "extern GxB" x)) (ggS₄ lines)

/-- `seen` after stage 5. -/
def ggS₅ (lines : List String) : List String := ggS₄ lines ++ ggV₅ lines

/-- Stage 6: lines with `extern const` and `GxB`, minus `seen`. -/
def ggV₆ (lines : List String) : List String :=
  sdiff (pySet (lines.filter fun x => pyIn "extern const" x && pyIn "GxB" x)) (ggS₅ lines)

/-- `seen` after stage 6. -/
def ggS₆ (lines : List String) : List String := ggS₅ lines ++ ggV₆ lines

/-- Stage 7: lines with `extern const` and `GrB`, minus `seen`. -/
def ggV₇ (lines : List String) : List String :=
  sdiff (pySet (lines.filter fun x => pyIn "extern const" x && pyIn "GrB" x)) (ggS₆ lines)

/-- `seen` after stage 7. -/
def ggS₇ (lines : List String) : List String := ggS₆ lines ++ ggV₇ lines

/-- Stage 8: non-function typedef lines with `GxB`, minus `seen`. -/
def ggV₈ (lines : List String) : List String :=
  sdiff (pySet (lines.filter fun x =>
    pyIn "typedef" x && pyIn "GxB" x && !pyIn "(" x)) (ggS₇ lines)

/-- `seen` after stage 8. -/
def ggS₈ (lines : List String) : List String := ggS₇ lines ++ ggV₈ lines

/-- Stage 9: non-function typedef lines with `GrB`, minus `seen`. -/
def ggV₉ (lines : List String) : List String :=
  sdiff (pySet (lines.filter fun x =>
    pyIn "typedef" x && pyIn "GrB" x && !pyIn "(" x)) (ggS₈ lines)

/-- `seen` after stage 9. -/
def ggS₉ (lines : List String) : List String := ggS₈ lines ++ ggV₉ lines

/-- The enum texts closed by `} GrB`. -/
def ggVE₁ (enums : List String) : List String :=
  pySet (enums.filter fun x => pyIn "\x7d GrB" x)

/-- The enum texts closed by `} GxB`. -/
def ggVE₂ (enums : List String) : List String :=
  pySet (enums.filter fun x => pyIn "\x7d GxB" x)

/-- `seen` after the `} GrB` enums (their constituent lines are added). -/
def ggS₁₀ (lines enums : List String) : List String :=
  ggS₉ lines ++ (ggVE₁ enums).flatMap splitlines

/-- `seen` after the `} GxB` enums. -/
def ggS₁₁ (lines enums : List String) : List String :=
  ggS₁₀ lines enums ++ (ggVE₂ enums).flatMap splitlines

/-- Stage 10: remaining typedef lines with `GxB` (function-pointer
    typedefs), minus `seen`. -/
def ggV₁₀ (lines enums : List String) : List String :=
  sdiff (pySet (lines.filter fun x => pyIn "typedef" x && pyIn "GxB" x))
    (ggS₁₁ lines enums)

/-- `seen` after stage 10. -/
def ggS₁₂ (lines enums : List String) : List String :=
  ggS₁₁ lines enums ++ ggV₁₀ lines enums

/-- The lines not classified by any stage (`not seen`). -/
def ggNotSeen (lines enums : List String) : List String :=
  sdiff (pySet lines) (ggS₁₂ lines enums)

/-- `get_groups` of the script.  Inputs: `tuText` is the translation-unit
    text produced by `c_generator.CGenerator` on the parsed header; `enums`
    is the list of typedef-enum texts collected by `VisitEnumTypedef`.
    The parameter `e` is the enumeration order a Python set presents to
    `sorted` (passing `id` gives the canonical run; the determinism theorem
    quantifies over it).  Failing any `assert` yields `none`; since the
    computation is pure and the asserts only gate, they are checked
    together at the end. -/
def get_groupsWith (e : List String → List String) (tuText : String)
    (enums : List String) : Option Groups :=
  let lines := splitlines tuText
  let guardA := sdiff (pySet (lines.filter fun x => pyIn "extern GrB_Info " x))
    (ggS₃ lines) = []
  let guardB := sdiff (pySet (lines.filter fun x => pyIn "extern const" x))
    (ggS₇ lines) = []
  let guardC := sdiff (pySet (lines.filter fun x =>
    pyIn "typedef" x && pyIn "GB" x && !pyIn "(" x)) (ggS₉ lines) = []
  let guardD := ∀ x ∈ ggS₉ lines, pyEndsWith ";" x = true
  let guardE := sdiff (sdiff (pySet enums) (ggVE₁ enums)) (ggVE₂ enums) = []
  let guardF := sdiff (pySet (lines.filter fun x => pyIn "typedef" x && pyIn "GrB" x))
    (ggS₁₂ lines enums) = []
  let guardG := ∀ x ∈ ggNotSeen lines enums, pyIn "extern" x = false
  if guardA ∧ guardB ∧ guardC ∧ guardD ∧ guardE ∧ guardF ∧ guardG then
    some
      { gxbMethods := pySortedBy sort_key (e (ggV₁ lines))
        grbMethods := pySortedBy sort_key (e (ggV₂ lines))
        gbMethods := pySortedBy sort_key (e (ggV₃ lines))
        grbObjects := pySortedBy sort_key (e (ggV₄ lines))
        gxbObjects := pySortedBy sort_key (e (ggV₅ lines))
        gxbConst := pySortedBy sort_key (e (ggV₆ lines))
        grbConst := pySortedBy sort_key (e (ggV₇ lines))
        gxbTypedef := pySortedBy sort_key (e (ggV₈ lines))
        grbTypedef := pySortedBy sort_key (e (ggV₉ lines))
        grbTypedefEnums := pySortedBy (fun x => sort_key (afterLastBrace x)) (e (ggVE₁ enums))
        gxbTypedefEnums := pySortedBy (fun x => sort_key (afterLastBrace x)) (e (ggVE₂ enums))
        gxbTypedefFuncs := pySortedBy sort_key (e (ggV₁₀ lines enums))
        notSeen := pySortedBy sort_key (e (ggNotSeen lines enums)) }
  else none

/-- `get_groups` with the canonical set-enumeration order. -/
def get_groups (tuText : String) (enums : List String) : Option Groups :=
  get_groupsWith id tuText enums

/-! ### `get_group_info` -/

/-- A `{"text": ...}` record yielded by the constant/object/typedef handlers. -/
structure Info where
  text : String
deriving Repr, DecidableEq

/-- A `{"orig_text": ..., "text": ...}` record yielded by `handle_enums`. -/
structure EnumInfo where
  orig_text : String
  text : String
deriving Repr, DecidableEq

/-- A function record yielded by `handle_function_node` (the `node` field of
    the Python dict is dropped; it is not used downstream). -/
structure FuncInfo where
  name : String
  group : String
  text : String
deriving Repr, DecidableEq

/-- A function declaration collected by `FuncDeclVisitor`: its `node.name`,
    the generated return type `generator.visit(node.type.type)`, and the
    generated declaration text `generator.visit(node)`. -/
structure FuncNode where
  name : String
  retType : String
  body : String
deriving Repr, DecidableEq

/-- Run a per-item handler over a group, as the Python loops do: a raise
    anywhere (`none`) fails the whole run, a `continue` (`some none`) is
    dropped, a yield (`some (some b)`) is collected in order. -/
def runHandlerGo {α β : Type} (h : α → Option (Option β)) : List α → Option (List β)
  | [] => some []
  | a :: rest =>
    match h a with
    | none => none
    | some none => runHandlerGo h rest
    | some (some b) => (runHandlerGo h rest).map (b :: ·)

/-- One iteration of `handle_constants`: `none` is a raise
    (failed unpacking or assert), `some none` a `continue`. -/
def handle_constants_line (skip_complex : Bool) (line : String) : Option (Option Info) :=
  match pySplitChar ' ' line with
  | [ext, cst, _ctype, name₀] =>
    if pyEndsWith ";" name₀ = true ∧ ext = "extern" ∧ cst = "const" then
      let name := pyReplace "(void)" "()" (dropLastStr name₀)
      if memS name DEPRECATED then some none
      else if skip_complex && has_complex line then some none
      else some (some { text := line })
    else none
  | _ => none

/-- One iteration of `handle_objects`. -/
def handle_objects_line (skip_complex : Bool) (line : String) : Option (Option Info) :=
  match pySplitChar ' ' line with
  | [ext, _ctype, name₀] =>
    if pyEndsWith ";" name₀ = true ∧ ext = "extern" then
      let name := dropLastStr name₀
      if memS name DEPRECATED then some none
      else if skip_complex && has_complex line then some none
      else some (some { text := line })
    else none
  | _ => none

/-- The processed form of an enum field line: a trailing comma and
    surrounding blanks stripped. -/
def processEnumField (field₀ : String) : String :=
  pyStrip (if pyEndsWith "," field₀ then dropLastStr field₀ else field₀)

/-- The per-field step of `handle_enums`: strip a trailing comma and blanks,
    split into `cfieldname = val`, and drop deprecated/complex field names;
    yields the processed field text when kept. -/
def handle_enum_field (skip_complex : Bool) (field₀ : String) : Option (Option String) :=
  let f := processEnumField field₀
  match pySplitChar ' ' f with
  | [cfieldname, eqTok, _val] =>
    if eqTok = "=" then
      if memS cfieldname DEPRECATED then some none
      else if skip_complex && has_complex cfieldname then some none
      else some (some f)
    else none
  | _ => none

/-- The name a constants line declares (4th blank-separated token, minus the
    trailing `;`, with `(void)` rewritten to `()`), as `handle_constants`
    computes it. -/
def constName (line : String) : String :=
  pyReplace "(void)" "()" (dropLastStr ((pySplitChar ' ' line).getLastD ""))

/-- The name an object/typedef line declares (last blank-separated token
    minus the trailing `;`), as `handle_objects`/`handle_typedefs` compute
    it. -/
def declNameLast (line : String) : String :=
  dropLastStr ((pySplitChar ' ' line).getLastD "")

/-- The enum text after the `enum \n` normalization `handle_enums` applies
    first. -/
def enumNormText (t : String) : String := pyReplace "enum \n" "enum\n" t

/-- The typedef name of an enum text (from its last line `} Name;`), as
    `handle_enums` computes it. -/
def enumNameOf (t : String) : String :=
  pyStrip (dropEndsStr ((splitlines (enumNormText t)).getLastD ""))

/-- The field lines of an enum text (everything between the `\x7b` line and
    the closing `} Name;` line). -/
def enumFieldsOf (t : String) : List String :=
  ((splitlines (enumNormText t)).drop 2).dropLast

/-- The fields of an enum text surviving the deprecated/complex field
    filter, in order, in their processed (comma-stripped, blank-stripped)
    form. -/
def survivingEnumFields (sc : Bool) (t : String) : List String :=
  (enumFieldsOf t).filterMap fun f => (handle_enum_field sc f).bind id

/-- Python `lines[-1] = lines[-1][:-1]` on a list of lines. -/
def stripLastChar (ls : List String) : List String :=
  match ls.getLast? with
  | none => ls
  | some l => ls.dropLast ++ [dropLastStr l]

/-- One iteration of `handle_enums`: `none` is a raise, `some none` a
    `continue` (deprecated/complex name, or no surviving field). -/
def handle_enums_text (skip_complex : Bool) (text₀ : String) : Option (Option EnumInfo) :=
  let text := enumNormText text₀
  match splitlines text with
  | td :: br :: r₁ :: rs =>
    let fields := (r₁ :: rs).dropLast
    let nameLine := (r₁ :: rs).getLastD ""
    if pyStrip td = "typedef enum" ∧ br = "\x7b" ∧
        pyStartsWith "\x7d" nameLine = true ∧ pyEndsWith ";" nameLine = true then
      let name := pyStrip (dropEndsStr nameLine)
      if memS name DEPRECATED then some none
      else if skip_complex && has_complex name then some none
      else
        match runHandlerGo (handle_enum_field skip_complex) fields with
        | none => none
        | some new_fields =>
          if new_fields = [] then some none
          else
            let lines := stripLastChar
              ([pyStrip td, br] ++ new_fields.map (fun f => "  " ++ f ++ ",")) ++ [nameLine]
            some (some { orig_text := text, text := pyJoin "\n" lines })
    else none
  | _ => none

/-- One iteration of `handle_typedefs`. -/
def handle_typedefs_line (skip_complex : Bool) (line : String) : Option (Option Info) :=
  match pySplitChar ' ' line with
  | td :: r₁ :: rs =>
    let name₀ := (r₁ :: rs).getLastD ""
    if td = "typedef" ∧ pyEndsWith ";" name₀ = true then
      let name := dropLastStr name₀
      if memS name DEPRECATED then some none
      else if skip_complex && has_complex line then some none
      else some (some { text := line })
    else none
  | _ => none

/-- One iteration of `handle_typedef_funcs` (note: no `DEPRECATED` check). -/
def handle_typedef_funcs_line (skip_complex : Bool) (line : String) : Option (Option Info) :=
  if pyEndsWith ";" line && pyStartsWith "typedef" line then
    if skip_complex && has_complex line then some none
    else some (some { text := line })
  else none

/-- The group-name dictionary applied to `node.name.split("_", 2)[1]`
    in `handle_function_node`; a missing key is a `KeyError`. -/
def groupDict : String → Option String
  | "GrB_Matrix" => some "matrix"
  | "GrB_Vector" => some "vector"
  | "GxB_Scalar" => some "scalar"
  | "SelectOp" => some "selectop"
  | "BinaryOp" => some "binary"
  | "Desc" => some "descriptor"
  | "Descriptor" => some "descriptor"
  | "Monoid" => some "monoid"
  | "Semiring" => some "semiring"
  | "Type" => some "type"
  | "UnaryOp" => some "unary"
  | "getVersion" => some "core"
  | "Global" => some "core"
  | "cuda" => some "core"
  | "finalize" => some "core"
  | "init" => some "core"
  | "wait" => some "core"
  | _ => none

/-- `handle_function_node` of the script: `none` is a raise (`ValueError` on
    a non-`GrB_Info` return type, or `KeyError`/`IndexError` in the group
    lookup), `some none` a skipped (deprecated or complex) function. -/
def handle_function_node (skip_complex : Bool) (node : FuncNode) : Option (Option FuncInfo) :=
  if node.retType ≠ "GrB_Info" then none
  else if memS node.name DEPRECATED then some none
  else
    let text := node.body ++ ";"
    if skip_complex && has_complex text then some none
    else if pyIn "GrB_Matrix" text then some (some ⟨node.name, "matrix", text⟩)
    else if pyIn "GrB_Vector" text then some (some ⟨node.name, "vector", text⟩)
    else if pyIn "GxB_Scalar" text then some (some ⟨node.name, "scalar", text⟩)
    else
      match pySplitCharMax '_' 2 node.name with
      | _ :: g :: _ =>
        match groupDict g with
        | some grp => some (some ⟨node.name, grp, text⟩)
        | none => none
      | _ => none

/-- The curated groups returned by `get_group_info` (`rv` of the script;
    `notSeen` is the group passed through unchanged from `get_groups`). -/
structure GroupInfo where
  grbConst : List Info
  gxbConst : List Info
  grbObjects : List Info
  gxbObjects : List Info
  grbTypedefEnums : List EnumInfo
  gxbTypedefEnums : List EnumInfo
  grbTypedef : List Info
  gxbTypedef : List Info
  gxbTypedefFuncs : List Info
  grbMethods : List FuncInfo
  gxbMethods : List FuncInfo
  gbMethods : List FuncInfo
  notSeen : List String
deriving Repr, DecidableEq

/-- `get_group_info` of the script.  `funcNodes` is the list collected by
    `FuncDeclVisitor` over the AST (extern function declarations, in AST
    order). -/
def get_group_info (groups : Groups) (funcNodes : List FuncNode)
    (skip_complex : Bool) : Option GroupInfo := do
  let grbConst ← runHandlerGo (handle_constants_line skip_complex) groups.grbConst
  let gxbConst ← runHandlerGo (handle_constants_line skip_complex) groups.gxbConst
  let grbObjects ← runHandlerGo (handle_objects_line skip_complex) groups.grbObjects
  let gxbObjects ← runHandlerGo (handle_objects_line skip_complex) groups.gxbObjects
  let grbTypedefEnums ← runHandlerGo (handle_enums_text skip_complex) groups.grbTypedefEnums
  let gxbTypedefEnums ← runHandlerGo (handle_enums_text skip_complex) groups.gxbTypedefEnums
  let grbTypedef ← runHandlerGo (handle_typedefs_line skip_complex) groups.grbTypedef
  let gxbTypedef ← runHandlerGo (handle_typedefs_line skip_complex) groups.gxbTypedef
  let gxbTypedefFuncs ← runHandlerGo (handle_typedef_funcs_line skip_complex) groups.gxbTypedefFuncs
  let grbNodes := funcNodes.filter fun n => pyStartsWith "GrB_" n.name
  let gxbNodes := funcNodes.filter fun n => pyStartsWith "GxB_" n.name
  let gbNodes := funcNodes.filter fun n => pyStartsWith "GB_" n.name
  if grbNodes.length = groups.grbMethods.length ∧
      gxbNodes.length = groups.gxbMethods.length ∧
      gbNodes.length = groups.gbMethods.length then
    let grbFuncs ← runHandlerGo (handle_function_node skip_complex) grbNodes
    let gxbFuncs ← runHandlerGo (handle_function_node skip_complex) gxbNodes
    let gbFuncs ← runHandlerGo (handle_function_node skip_complex) gbNodes
    some
      { grbConst, gxbConst, grbObjects, gxbObjects, grbTypedefEnums, gxbTypedefEnums
        grbTypedef, gxbTypedef, gxbTypedefFuncs
        grbMethods := pySortedBy (fun x => sort_key x.text) grbFuncs
        gxbMethods := pySortedBy (fun x => sort_key x.text) gxbFuncs
        gbMethods := pySortedBy (fun x => sort_key x.text) gbFuncs
        notSeen := groups.notSeen }
  else none

/-- `parse_header` of the script, on the pycparser-derived data of the
    processed header: the generated translation-unit text, the collected
    typedef-enum texts, and the collected extern function declarations. -/
def parse_headerWith (e : List String → List String) (tuText : String)
    (enums : List String) (funcNodes : List FuncNode) (skip_complex : Bool) :
    Option GroupInfo :=
  (get_groupsWith e tuText enums).bind fun g => get_group_info g funcNodes skip_complex

/-- `parse_header` with the canonical set-enumeration order. -/
def parse_header (tuText : String) (enums : List String) (funcNodes : List FuncNode)
    (skip_complex : Bool) : Option GroupInfo :=
  parse_headerWith id tuText enums funcNodes skip_complex

/-! ### `create_header_text`, `create_source_text` -/

/-- The keys of `groupby("group", seq)` in dict insertion order
    (first occurrence of each group name). -/
def groupbyKeys (l : List FuncInfo) : List String := pySet (l.map (·.group))

/-- The entry of `groupby("group", seq)` at key `k` (items in order). -/
def groupbyGet (k : String) (l : List FuncInfo) : List FuncInfo :=
  l.filter fun i => i.group = k

/-- `handle_funcs` inside `create_header_text`: a comment banner per group
    name (dict-key order sorted by `sort_key`), then the member texts. -/
def handle_funcs (group : List FuncInfo) : List String :=
  (pySortedBy sort_key (groupbyKeys group)).flatMap fun name =>
    ["", "/* " ++ name ++ " */"] ++ (groupbyGet name group).map (·.text)

/-- `create_header_text` of the script; `e` is the set-enumeration order
    used when sorting the `defines`/`char_defines` sets. -/
def create_header_textWith (e : List String → List String) (groups : GroupInfo)
    (defines char_defines : List String) : List String :=
  [AUTO]
  ++ ["/* GrB typedefs */"] ++ groups.grbTypedef.map (·.text)
  ++ [""]
  ++ ["/* GxB typedefs */"] ++ groups.gxbTypedef.map (·.text)
  ++ [""]
  ++ ["/* GxB typedefs (functions) */"] ++ groups.gxbTypedefFuncs.map (·.text)
  ++ [""]
  ++ ["/* GrB enums */"] ++ groups.grbTypedefEnums.flatMap (fun g => [g.text, ""])
  ++ ["/* GxB enums */"] ++ groups.gxbTypedefEnums.flatMap (fun g => [g.text, ""])
  ++ ["/* GrB consts */"] ++ groups.grbConst.map (·.text)
  ++ [""]
  ++ ["/* GxB consts */"] ++ groups.gxbConst.map (·.text)
  ++ [""]
  ++ ["/* GrB objects */"]
  ++ ((groups.grbObjects.map (·.text)).filter fun t => !pyIn "GxB" t)
  ++ [""]
  ++ ["/* GrB objects (extended) */"]
  ++ ((groups.grbObjects.map (·.text)).filter fun t => pyIn "GxB" t)
  ++ [""]
  ++ ["/* GxB objects */"] ++ groups.gxbObjects.map (·.text)
  ++ [""]
  ++ ["/****************", "* GrB functions *", "****************/"]
  ++ handle_funcs groups.grbMethods
  ++ [""]
  ++ ["/***************", "* GB functions *", "***************/"]
  ++ handle_funcs groups.gbMethods
  ++ [""]
  ++ ["/****************", "* GxB functions *", "****************/"]
  ++ handle_funcs groups.gxbMethods
  ++ [""]
  ++ ["/* int DEFINES */"]
  ++ (pySortedBy sort_key (e (pySet defines))).map (fun item => "#define " ++ item ++ " ...")
  ++ [""]
  ++ ["/* char* DEFINES */"]
  ++ (pySortedBy sort_key (e (pySet char_defines))).map
      (fun item => "extern char *" ++ item ++ "_STR;")

/-- `create_header_text` with default arguments and canonical enumeration. -/
def create_header_text (groups : GroupInfo) : List String :=
  create_header_textWith id groups DEFINES CHAR_DEFINES

/-- `create_source_text` of the script. -/
def create_source_textWith (e : List String → List String)
    (char_defines : List String) : List String :=
  [AUTO, "#include \"GraphBLAS.h\""]
  ++ (pySortedBy sort_key (e (pySet char_defines))).map
      (fun item => "char *" ++ item ++ "_STR = " ++ item ++ ";")

/-- `create_source_text` with default arguments and canonical enumeration. -/
def create_source_text : List String :=
  create_source_textWith id CHAR_DEFINES

/-! ### `main` -/

/-- A file written by `main`, in order: the copy of the input header, the
    preprocessed header, and the three generated outputs with their text. -/
inductive FileWrite where
  | copyOrig
  | processedH
  | finalH (content : String)
  | finalNoComplexH (content : String)
  | sourceC (content : String)
deriving Repr, DecidableEq

/-- How a run of `main` aborts: `FileNotFoundError` on a missing input,
    `RuntimeError` on a failing preprocessor subprocess, any exception out
    of `parse_header`, or the `ValueError` for unknown `#define`s. -/
inductive MainError where
  | fileNotFound (path : String)
  | subprocessFailed
  | parseError
  | unknownDefinesError (msg : String)
deriving Repr, DecidableEq

/-- The environment a run of `main` observes: the input path and whether it
    exists, whether the preprocessor succeeds, the pycparser-derived data of
    the processed header, and the `#define` names the regex finds in the
    copied header. -/
structure MainEnv where
  graphblasPath : String
  graphblasExists : Bool
  preprocessOk : Bool
  tuText : String
  enums : List String
  funcNodes : List FuncNode
  definesFound : List String
deriving Repr

/-- The observable effects of a run of `main`: files written (in order),
    warnings printed, and `none` for success or the aborting error. -/
structure MainResult where
  writes : List FileWrite
  warnings : List String
  outcome : Option MainError
deriving Repr, DecidableEq

/-- `(DEFINES | CHAR_DEFINES) - defines` of step 6, sorted for the warning. -/
def extraDefines (found : List String) : List String :=
  pySortedBy id (sdiff (pySet (DEFINES ++ CHAR_DEFINES)) (pySet found))

/-- `defines - DEFINES - CHAR_DEFINES - IGNORE_DEFINES` of step 6. -/
def unknownDefines (found : List String) : List String :=
  sdiff (sdiff (sdiff (pySet found) DEFINES) CHAR_DEFINES) IGNORE_DEFINES

/-- `main` of the script (the file paths in messages are abbreviated to the
    basename `GraphBLAS-orig.h`; `--show-skipped` only prints and is not
    modelled). -/
def mainModel (env : MainEnv) : MainResult :=
  if env.graphblasExists = false then
    ⟨[], [], some (.fileNotFound ("File not found: " ++ env.graphblasPath))⟩
  else if env.preprocessOk = false then
    ⟨[.copyOrig], [], some .subprocessFailed⟩
  else
    match parse_header env.tuText env.enums env.funcNodes false with
    | none => ⟨[.copyOrig, .processedH], [], some .parseError⟩
    | some groups =>
      let w₁ := FileWrite.finalH (pyJoin "\n" (create_header_text groups))
      match parse_header env.tuText env.enums env.funcNodes true with
      | none => ⟨[.copyOrig, .processedH, w₁], [], some .parseError⟩
      | some groupsNC =>
        let w₂ := FileWrite.finalNoComplexH (pyJoin "\n" (create_header_text groupsNC))
        let w₃ := FileWrite.sourceC (pyJoin "\n" create_source_text)
        let writes := [.copyOrig, .processedH, w₁, w₂, w₃]
        let extra := extraDefines env.definesFound
        let warnings := if extra = [] then [] else
          ["WARNING: the following #define values weren\x27t found in GraphBLAS-orig.h: "
            ++ pyJoin ", " extra]
        let unknown := unknownDefines env.definesFound
        if unknown = [] then ⟨writes, warnings, none⟩
        else
          ⟨writes, warnings, some (.unknownDefinesError
            ("Unknown #define values found in GraphBLAS-orig.h: "
              ++ pyJoin ", " (pySortedBy id unknown)))⟩

/-! ### Basic lemmas about the string and set models -/

theorem memS_iff (x : String) (l : List String) : memS x l = true ↔ x ∈ l := by
  simp [memS]

theorem mem_sdiff {x : String} {a b : List String} :
    x ∈ sdiff a b ↔ x ∈ a ∧ x ∉ b := by
  simp only [sdiff, List.mem_filter, Bool.not_eq_true', ← Bool.not_eq_true, memS_iff]

theorem mem_dedupGo {x : String} {l : List String} :
    ∀ {seen : List String}, x ∈ dedupGo l seen ↔ x ∈ l ∧ x ∉ seen := by
  induction l with
  | nil => intro seen ; simp [dedupGo]
  | cons y ys ih =>
    intro seen
    rw [dedupGo]
    split <;> rename_i hy
    · rw [memS_iff] at hy
      rw [ih]
      simp only [List.mem_cons]
      constructor
      · rintro ⟨h₁, h₂⟩ ; exact ⟨Or.inr h₁, h₂⟩
      · rintro ⟨rfl | h₁, h₂⟩
        · exact absurd hy h₂
        · exact ⟨h₁, h₂⟩
    · rw [Bool.not_eq_true, ← Bool.not_eq_true] at hy
      rw [memS_iff] at hy
      simp only [List.mem_cons, ih, List.mem_cons]
      constructor
      · rintro (rfl | ⟨h₁, h₂⟩)
        · exact ⟨Or.inl rfl, hy⟩
        · exact ⟨Or.inr h₁, fun hc => h₂ (Or.inr hc)⟩
      · rintro ⟨rfl | h₁, h₂⟩
        · exact Or.inl rfl
        · by_cases hxy : x = y
          · exact Or.inl hxy
          · exact Or.inr ⟨h₁, fun hc => hc.elim hxy h₂⟩

theorem mem_pySet {x : String} {l : List String} : x ∈ pySet l ↔ x ∈ l := by
  simp [pySet, mem_dedupGo]

theorem mem_insertLe {α : Type} {le : α → α → Bool} {a x : α} {l : List α} :
    x ∈ insertLe le a l ↔ x = a ∨ x ∈ l := by
  induction l with
  | nil => simp [insertLe]
  | cons y ys ih =>
    rw [insertLe]
    split
    · simp
    · simp only [List.mem_cons, ih]
      tauto

theorem insertLe_perm {α : Type} (le : α → α → Bool) (a : α) (l : List α) :
    (insertLe le a l).Perm (a :: l) := by
  induction l with
  | nil => simp [insertLe]
  | cons y ys ih =>
    rw [insertLe]
    split
    · exact List.Perm.refl _
    · exact (ih.cons y).trans (List.Perm.swap a y ys)

theorem sortLe_perm {α : Type} (le : α → α → Bool) (l : List α) :
    (sortLe le l).Perm l := by
  induction l with
  | nil => exact List.Perm.refl _
  | cons x xs ih => exact (insertLe_perm le x (sortLe le xs)).trans (ih.cons x)

theorem mem_sortLe {α : Type} {le : α → α → Bool} {x : α} {l : List α} :
    x ∈ sortLe le l ↔ x ∈ l := (sortLe_perm le l).mem_iff

theorem pairwise_insertLe {α : Type} {le : α → α → Bool} {a : α} {l : List α}
    (total : ∀ x y, le x y = true ∨ le y x = true)
    (trans : ∀ x y z, le x y = true → le y z = true → le x z = true)
    (h : l.Pairwise (fun x y => le x y = true)) :
    (insertLe le a l).Pairwise (fun x y => le x y = true) := by
  induction l with
  | nil => simp [insertLe]
  | cons y ys ih =>
    rw [insertLe]
    rcases List.pairwise_cons.mp h with ⟨hy, hys⟩
    split
    · rename_i hle
      refine List.pairwise_cons.mpr ⟨?_, h⟩
      intro z hz
      rcases List.mem_cons.mp hz with rfl | hz
      · exact hle
      · exact trans a y z hle (hy z hz)
    · rename_i hnle
      have hya : le y a = true := by
        rcases total a y with h' | h'
        · exact absurd h' hnle
        · exact h'
      refine List.pairwise_cons.mpr ⟨?_, ih hys⟩
      intro z hz
      rcases mem_insertLe.mp hz with rfl | hz
      · exact hya
      · exact hy z hz

theorem pairwise_sortLe {α : Type} {le : α → α → Bool} (l : List α)
    (total : ∀ x y, le x y = true ∨ le y x = true)
    (trans : ∀ x y z, le x y = true → le y z = true → le x z = true) :
    (sortLe le l).Pairwise (fun x y => le x y = true) := by
  induction l with
  | nil => simp [sortLe]
  | cons x xs ih => exact pairwise_insertLe total trans ih

/-- Two sorted lists that are permutations of each other are equal, given
    antisymmetry of the order on the elements involved. -/
theorem sorted_perm_eq {α : Type} {le : α → α → Bool} :
    ∀ {l₁ l₂ : List α}, l₁.Perm l₂ →
    l₁.Pairwise (fun x y => le x y = true) →
    l₂.Pairwise (fun x y => le x y = true) →
    (∀ x ∈ l₁, ∀ y ∈ l₁, le x y = true → le y x = true → x = y) →
    l₁ = l₂ := by
  intro l₁
  induction l₁ with
  | nil => intro l₂ hp _ _ _ ; simpa using hp.nil_eq
  | cons a t₁ ih =>
    intro l₂ hp h₁ h₂ anti
    match l₂ with
    | [] => exact absurd hp.symm (by simp)
    | b :: t₂ =>
      have hab : a = b := by
        have hamem : a ∈ b :: t₂ := hp.mem_iff.mp (List.mem_cons_self a t₁)
        have hbmem : b ∈ a :: t₁ := hp.mem_iff.mpr (List.mem_cons_self b t₂)
        rcases List.mem_cons.mp hamem with rfl | ha
        · rfl
        · rcases List.mem_cons.mp hbmem with rfl | hb
          · rfl
          · have h₁' := (List.pairwise_cons.mp h₁).1 b hb
            have h₂' := (List.pairwise_cons.mp h₂).1 a ha
            exact anti a (List.mem_cons_self a t₁) b (List.mem_cons_of_mem _ hb) h₁' h₂'
      subst hab
      have hpt : t₁.Perm t₂ := hp.cons_inv
      have := ih hpt (List.pairwise_cons.mp h₁).2 (List.pairwise_cons.mp h₂).2
        (fun x hx y hy => anti x (List.mem_cons_of_mem _ hx) y (List.mem_cons_of_mem _ hy))
      rw [this]

theorem charListLe_cons_lt {a b : Char} (h : a < b) (as bs : List Char) :
    charListLe (a :: as) (b :: bs) = true := by
  rw [charListLe, if_pos h]

theorem charListLe_cons_gt {a b : Char} (h : b < a) (as bs : List Char) :
    charListLe (a :: as) (b :: bs) = false := by
  rw [charListLe, if_neg (lt_asymm h), if_pos h]

theorem charListLe_cons_eq (a : Char) (as bs : List Char) :
    charListLe (a :: as) (a :: bs) = charListLe as bs := by
  rw [charListLe, if_neg (lt_irrefl a), if_neg (lt_irrefl a)]

theorem charListLe_total : ∀ a b : List Char, charListLe a b = true ∨ charListLe b a = true
  | [], _ => Or.inl rfl
  | _ :: _, [] => Or.inr rfl
  | a :: as, b :: bs => by
    rcases lt_trichotomy a b with h | h | h
    · exact Or.inl (charListLe_cons_lt h as bs)
    · subst h
      rw [charListLe_cons_eq, charListLe_cons_eq]
      exact charListLe_total as bs
    · exact Or.inr (charListLe_cons_lt h bs as)

theorem charListLe_trans : ∀ a b c : List Char,
    charListLe a b = true → charListLe b c = true → charListLe a c = true
  | [], _, _ => by intro _ _ ; rfl
  | _ :: _, [], _ => by intro h _ ; exact absurd h (by simp [charListLe])
  | _ :: _, _ :: _, [] => by intro _ h ; exact absurd h (by simp [charListLe])
  | a :: as, b :: bs, c :: cs => by
    intro h₁ h₂
    rcases lt_trichotomy a b with hab | hab | hab
    · rcases lt_trichotomy b c with hbc | hbc | hbc
      · exact charListLe_cons_lt (lt_trans hab hbc) as cs
      · subst hbc ; exact charListLe_cons_lt hab as cs
      · rw [charListLe_cons_gt hbc bs cs] at h₂ ; exact absurd h₂ (by simp)
    · subst hab
      rcases lt_trichotomy a c with hbc | hbc | hbc
      · exact charListLe_cons_lt hbc as cs
      · subst hbc
        rw [charListLe_cons_eq] at h₁ h₂ ⊢
        exact charListLe_trans as bs cs h₁ h₂
      · rw [charListLe_cons_gt hbc bs cs] at h₂ ; exact absurd h₂ (by simp)
    · rw [charListLe_cons_gt hab as bs] at h₁ ; exact absurd h₁ (by simp)

theorem charListLe_antisymm : ∀ a b : List Char,
    charListLe a b = true → charListLe b a = true → a = b
  | [], [] => by intro _ _ ; rfl
  | [], _ :: _ => by intro _ h ; exact absurd h (by simp [charListLe])
  | _ :: _, [] => by intro h _ ; exact absurd h (by simp [charListLe])
  | a :: as, b :: bs => by
    intro h₁ h₂
    rcases lt_trichotomy a b with hab | hab | hab
    · rw [charListLe_cons_gt hab bs as] at h₂ ; exact absurd h₂ (by simp)
    · subst hab
      rw [charListLe_cons_eq] at h₁ h₂
      rw [charListLe_antisymm as bs h₁ h₂]
    · rw [charListLe_cons_gt hab as bs] at h₁ ; exact absurd h₁ (by simp)

theorem strLe_total (a b : String) : strLe a b = true ∨ strLe b a = true :=
  charListLe_total a.data b.data

theorem strLe_trans (a b c : String) :
    strLe a b = true → strLe b c = true → strLe a c = true :=
  charListLe_trans a.data b.data c.data

theorem strLe_antisymm (a b : String) :
    strLe a b = true → strLe b a = true → a = b := by
  intro h₁ h₂
  have h := charListLe_antisymm a.data b.data h₁ h₂
  cases a ; cases b
  exact congrArg String.mk h

/-! ### `sort_key`: expansion and injectivity -/

/-- The per-character expansion `sort_key` performs: `8` becomes `08`. -/
def expandEight (c : Char) : List Char := if c = '8' then ['0', '8'] else [c]

theorem expandEight_eight : expandEight '8' = ['0', '8'] := rfl

theorem expandEight_ne {c : Char} (h : ¬ c = '8') : expandEight c = [c] := by
  simp [expandEight, h]

theorem pyReplaceGo_eight : ∀ (fuel : Nat) (l : List Char), l.length ≤ fuel →
    pyReplaceGo ['8'] ['0', '8'] fuel l = l.flatMap expandEight
  | fuel, [], _ => by cases fuel <;> rfl
  | 0, c :: cs, h => by simp at h
  | fuel + 1, c :: cs, h => by
    rw [pyReplaceGo]
    by_cases hc : c = '8'
    · subst hc
      have hs : startsWithL ['8'] ('8' :: cs) = true := by
        simp [startsWithL]
      rw [if_pos hs]
      simp only [List.length_nil, List.drop_zero]
      rw [pyReplaceGo_eight fuel cs (Nat.le_of_succ_le_succ h)]
      simp [expandEight]
    · have hs : startsWithL ['8'] (c :: cs) = false := by
        simp [startsWithL]
        exact fun hq => hc hq.symm
      rw [if_neg (by simp [hs])]
      rw [pyReplaceGo_eight fuel cs (Nat.le_of_succ_le_succ h)]
      simp [expandEight, hc]

theorem sort_key_data (s : String) :
    (sort_key s).data = s.data.flatMap expandEight := by
  have h8 : ("8" : String).data = ['8'] := rfl
  have h08 : ("08" : String).data = ['0', '8'] := rfl
  show (pyReplace "8" "08" s).data = s.data.flatMap expandEight
  rw [pyReplace, h8, h08]
  exact pyReplaceGo_eight s.data.length s.data (le_refl _)

theorem flatMap_expandEight_head_ne_eight :
    ∀ (bs : List Char) (t : List Char), bs.flatMap expandEight = '8' :: t → False := by
  intro bs t h
  match bs with
  | [] => exact absurd h (by simp)
  | c :: r =>
    rw [List.flatMap_cons] at h
    by_cases hc : c = '8'
    · subst hc
      rw [expandEight_eight] at h
      simp at h
    · rw [expandEight_ne hc] at h
      simp only [List.cons_append, List.nil_append, List.cons.injEq] at h
      exact hc h.1

theorem flatMap_expandEight_inj : ∀ as bs : List Char,
    as.flatMap expandEight = bs.flatMap expandEight → as = bs
  | [], [] => fun _ => rfl
  | [], b :: bs => by
    intro h
    exfalso
    rw [List.flatMap_nil, List.flatMap_cons] at h
    by_cases hb : b = '8' <;> simp [expandEight, hb] at h
  | a :: as, [] => by
    intro h
    exfalso
    rw [List.flatMap_nil, List.flatMap_cons] at h
    by_cases ha : a = '8' <;> simp [expandEight, ha] at h
  | a :: as, b :: bs => by
    intro h
    rw [List.flatMap_cons, List.flatMap_cons] at h
    by_cases ha : a = '8' <;> by_cases hb : b = '8'
    · subst ha ; subst hb
      rw [expandEight_eight] at h
      simp only [List.cons_append, List.nil_append, List.cons.injEq, true_and] at h
      rw [flatMap_expandEight_inj as bs h]
    · subst ha
      rw [expandEight_eight, expandEight_ne hb] at h
      simp only [List.cons_append, List.nil_append, List.cons.injEq] at h
      exact absurd h.2.symm (fun hc => flatMap_expandEight_head_ne_eight bs _ hc)
    · subst hb
      rw [expandEight_eight, expandEight_ne ha] at h
      simp only [List.cons_append, List.nil_append, List.cons.injEq] at h
      exact absurd h.2 (fun hc => flatMap_expandEight_head_ne_eight as _ hc)
    · rw [expandEight_ne ha, expandEight_ne hb] at h
      simp only [List.cons_append, List.nil_append, List.cons.injEq] at h
      rw [h.1, flatMap_expandEight_inj as bs h.2]

theorem sort_key_inj {a b : String} (h : sort_key a = sort_key b) : a = b := by
  have hd : a.data.flatMap expandEight = b.data.flatMap expandEight := by
    rw [← sort_key_data, ← sort_key_data, h]
  have := flatMap_expandEight_inj a.data b.data hd
  cases a ; cases b
  exact congrArg String.mk this

/-- **C8**: `sort_key` maps a string to the same string with every `8`
    replaced by `08`, and under the key-sorted order used for every group,
    `INT8` sorts before `INT16`, whereas plain lexicographic (code-point)
    sorting leaves `INT16` before `INT8`. -/
theorem sort_key_orders_widths :
    (∀ s : String, (sort_key s).data = s.data.flatMap expandEight) ∧
    pySortedBy sort_key ["INT16", "INT8"] = ["INT8", "INT16"] ∧
    pySortedBy id ["INT16", "INT8"] = ["INT16", "INT8"] := by
  refine ⟨sort_key_data, by decide, by decide⟩

theorem head?_append_some {α : Type} {l : List α} {a : α} (h : l.head? = some a)
    (m : List α) : (l ++ m).head? = some a := by
  cases l with
  | nil => simp at h
  | cons x xs => simpa using h

/-- **C10**: the first element of the text produced by `create_header_text`
    and by `create_source_text` is always the `AUTO` marker line
    `/* This file is automatically generated */`, for every grouping, every
    define table and every set-enumeration order. -/
theorem generated_text_starts_with_auto (e : List String → List String)
    (groups : GroupInfo) (defines char_defines : List String) :
    (create_header_textWith e groups defines char_defines).head? = some AUTO ∧
    (create_source_textWith e char_defines).head? = some AUTO := by
  constructor
  · unfold create_header_textWith
    repeat apply head?_append_some
    exact rfl
  · exact rfl

/-! ### Substring lemmas -/

theorem startsWithL_refl : ∀ l : List Char, startsWithL l l = true
  | [] => rfl
  | a :: as => by
    show (a == a && startsWithL as as) = true
    simp [startsWithL_refl as]

theorem startsWithL_append (n : List Char) : ∀ (l b : List Char),
    startsWithL n l = true → startsWithL n (l ++ b) = true := by
  induction n with
  | nil => intro l b _ ; rfl
  | cons a as ih =>
    intro l b h
    cases l with
    | nil => exact absurd h (by simp [startsWithL])
    | cons x xs =>
      have h' : (a == x && startsWithL as xs) = true := h
      simp only [Bool.and_eq_true] at h'
      rcases h' with ⟨h₁, h₂⟩
      rw [List.cons_append]
      show (a == x && startsWithL as (xs ++ b)) = true
      rw [h₁, ih xs b h₂]
      rfl

theorem containsL_of_startsWithL {n l : List Char} (h : startsWithL n l = true) :
    containsL l n = true := by
  cases l with
  | nil =>
    cases n with
    | nil => rfl
    | cons a as => exact absurd h (by simp [startsWithL])
  | cons x xs =>
    rw [containsL, h]
    rfl

theorem containsL_append_right {b n : List Char} (a : List Char)
    (h : containsL b n = true) : containsL (a ++ b) n = true := by
  induction a with
  | nil => exact h
  | cons x xs ih =>
    rw [List.cons_append, containsL, ih]
    simp

theorem containsL_append_left {a n : List Char} (b : List Char)
    (h : containsL a n = true) : containsL (a ++ b) n = true := by
  induction a with
  | nil =>
    rw [containsL] at h
    cases n with
    | nil => exact containsL_of_startsWithL rfl
    | cons c cs => exact absurd h (by simp [List.isEmpty])
  | cons x xs ih =>
    rw [containsL] at h
    rw [List.cons_append, containsL]
    simp only [Bool.or_eq_true] at h
    rcases h with h₁ | h₁
    · have hsw := startsWithL_append n (x :: xs) b h₁
      rw [List.cons_append] at hsw
      rw [hsw]
      rfl
    · rw [ih h₁]
      simp

theorem pyIn_join_of_mem {d : String} {parts : List String} (hd : d ∈ parts)
    (sep : String) : pyIn d (pyJoin sep parts) = true := by
  induction parts with
  | nil => cases hd
  | cons p ps ih =>
    rcases List.mem_cons.mp hd with rfl | hd'
    · cases ps with
      | nil => exact containsL_of_startsWithL (startsWithL_refl _)
      | cons q qs =>
        show containsL (d.data ++ sep.data ++ joinSep sep.data ((q :: qs).map String.data))
          d.data = true
        rw [List.append_assoc]
        exact containsL_append_left _ (containsL_of_startsWithL (startsWithL_refl _))
    · cases ps with
      | nil => cases hd'
      | cons q qs =>
        have := ih hd'
        show containsL (p.data ++ sep.data ++ joinSep sep.data ((q :: qs).map String.data))
          d.data = true
        rw [List.append_assoc]
        exact containsL_append_right _ (containsL_append_right _ this)

theorem pyIn_append_right {d t : String} (s : String) (h : pyIn d t = true) :
    pyIn d (s ++ t) = true := by
  show containsL (s ++ t).data d.data = true
  have : (s ++ t).data = s.data ++ t.data := by
    cases s ; cases t ; rfl
  rw [this]
  exact containsL_append_right _ h

/-! ### Behaviour of `main` -/

theorem mainModel_success_shape (env : MainEnv)
    (h₁ : env.graphblasExists = true) (h₂ : env.preprocessOk = true)
    {g₁ g₂ : GroupInfo}
    (hp₁ : parse_header env.tuText env.enums env.funcNodes false = some g₁)
    (hp₂ : parse_header env.tuText env.enums env.funcNodes true = some g₂) :
    mainModel env =
      ⟨[.copyOrig, .processedH,
        .finalH (pyJoin "\n" (create_header_text g₁)),
        .finalNoComplexH (pyJoin "\n" (create_header_text g₂)),
        .sourceC (pyJoin "\n" create_source_text)],
       if extraDefines env.definesFound = [] then [] else
         ["WARNING: the following #define values weren\x27t found in GraphBLAS-orig.h: "
           ++ pyJoin ", " (extraDefines env.definesFound)],
       if unknownDefines env.definesFound = [] then none else
         some (.unknownDefinesError
           ("Unknown #define values found in GraphBLAS-orig.h: "
             ++ pyJoin ", " (pySortedBy id (unknownDefines env.definesFound))))⟩ := by
  rw [mainModel, if_neg (by rw [h₁] ; simp), if_neg (by rw [h₂] ; simp), hp₁, hp₂]
  simp only []
  split <;> rfl

theorem warnings_only_extra (env : MainEnv) (hw : (mainModel env).warnings ≠ []) :
    extraDefines env.definesFound ≠ [] := by
  rw [mainModel] at hw
  split at hw
  · simp at hw
  · split at hw
    · simp at hw
    · split at hw
      · simp at hw
      · split at hw
        · simp at hw
        · simp only [] at hw
          split at hw
          all_goals
            simp only [] at hw
            split at hw
            · simp at hw
            · rename_i he ; exact he

/-- **C7**: if the input header given by `--graphblas` does not exist, `main`
    raises `FileNotFoundError` before copying or generating anything, so no
    file at all is written. -/
theorem main_missing_input_writes_nothing (env : MainEnv)
    (h : env.graphblasExists = false) :
    mainModel env =
      ⟨[], [], some (.fileNotFound ("File not found: " ++ env.graphblasPath))⟩ := by
  rw [mainModel, if_pos h]

/-- Witness for `main_missing_input_writes_nothing` at a concrete run. -/
theorem main_missing_input_writes_nothing_witness :
    mainModel ⟨"GraphBLAS.h", false, true, "", [], [], []⟩ =
      ⟨[], [], some (.fileNotFound "File not found: GraphBLAS.h")⟩ :=
  main_missing_input_writes_nothing ⟨"GraphBLAS.h", false, true, "", [], [], []⟩ rfl

/-- **C3**: whenever the `#define` names found in the copied header, minus
    `DEFINES`, `CHAR_DEFINES` and `IGNORE_DEFINES`, are non-empty, the run of
    `main` never reports success; and if the run reaches step 6 (input
    exists, preprocessor succeeded, both parses succeeded) it aborts with
    the `ValueError` whose message names every unknown define. -/
theorem main_unknown_defines_abort (env : MainEnv)
    (h : unknownDefines env.definesFound ≠ []) :
    (mainModel env).outcome ≠ none ∧
    (∀ g₁ g₂ : GroupInfo,
      env.graphblasExists = true → env.preprocessOk = true →
      parse_header env.tuText env.enums env.funcNodes false = some g₁ →
      parse_header env.tuText env.enums env.funcNodes true = some g₂ →
      (mainModel env).outcome = some (.unknownDefinesError
        ("Unknown #define values found in GraphBLAS-orig.h: "
          ++ pyJoin ", " (pySortedBy id (unknownDefines env.definesFound)))) ∧
      ∀ d ∈ unknownDefines env.definesFound,
        pyIn d ("Unknown #define values found in GraphBLAS-orig.h: "
          ++ pyJoin ", " (pySortedBy id (unknownDefines env.definesFound))) = true) := by
  constructor
  · rw [mainModel]
    split
    · simp
    · split
      · simp
      · split
        · simp
        · split
          · simp
          · simp only []
            split
            · rename_i hu ; exact absurd hu h
            · simp
  · intro g₁ g₂ h₁ h₂ hp₁ hp₂
    rw [mainModel_success_shape env h₁ h₂ hp₁ hp₂]
    refine ⟨by simp [if_neg h], ?_⟩
    intro d hd
    exact pyIn_append_right _ (pyIn_join_of_mem (mem_sortLe.mpr hd) _)

/-- Witness for `main_unknown_defines_abort` at a concrete run with one
    unknown define `BOGUS`. -/
theorem main_unknown_defines_abort_witness :
    (mainModel ⟨"p", true, true, "", [], [], ["BOGUS"]⟩).outcome ≠ none ∧
    (mainModel ⟨"p", true, true, "", [], [], ["BOGUS"]⟩).outcome =
      some (.unknownDefinesError
        "Unknown #define values found in GraphBLAS-orig.h: BOGUS") ∧
    pyIn "BOGUS" "Unknown #define values found in GraphBLAS-orig.h: BOGUS" = true := by
  have h := main_unknown_defines_abort ⟨"p", true, true, "", [], [], ["BOGUS"]⟩ (by decide)
  have h₂ := h.2 _ _ rfl rfl rfl rfl
  exact ⟨h.1, h₂.1, h₂.2 "BOGUS" (by decide)⟩

/-- **C6**: an expected define missing from the input header only produces a
    printed warning: under the same circumstances the run still writes all
    three outputs and reports success, the warning appears exactly when such
    a define exists, and (for every run whatsoever) a warning is printed only
    for this reason. -/
theorem main_extra_defines_only_warn (env : MainEnv)
    (h₁ : env.graphblasExists = true) (h₂ : env.preprocessOk = true)
    {g₁ g₂ : GroupInfo}
    (hp₁ : parse_header env.tuText env.enums env.funcNodes false = some g₁)
    (hp₂ : parse_header env.tuText env.enums env.funcNodes true = some g₂)
    (hu : unknownDefines env.definesFound = []) :
    (mainModel env).outcome = none ∧
    (mainModel env).writes =
      [.copyOrig, .processedH,
        .finalH (pyJoin "\n" (create_header_text g₁)),
        .finalNoComplexH (pyJoin "\n" (create_header_text g₂)),
        .sourceC (pyJoin "\n" create_source_text)] ∧
    ((mainModel env).warnings ≠ [] ↔ extraDefines env.definesFound ≠ []) ∧
    (∀ env' : MainEnv, (mainModel env').warnings ≠ [] →
      extraDefines env'.definesFound ≠ []) := by
  rw [mainModel_success_shape env h₁ h₂ hp₁ hp₂]
  refine ⟨by simp [hu], by simp, ?_, warnings_only_extra⟩
  simp only []
  split
  · rename_i he ; simp [he]
  · rename_i he ; simp [he]

/-- Witness for `main_extra_defines_only_warn` at a concrete run (empty
    header: every expected define is missing, no unknown defines). -/
theorem main_extra_defines_only_warn_witness :
    (mainModel ⟨"p", true, true, "", [], [], []⟩).outcome = none ∧
    (mainModel ⟨"p", true, true, "", [], [], []⟩).warnings ≠ [] := by
  have h := @main_extra_defines_only_warn ⟨"p", true, true, "", [], [], []⟩
    rfl rfl ⟨[], [], [], [], [], [], [], [], [], [], [], [], []⟩
    ⟨[], [], [], [], [], [], [], [], [], [], [], [], []⟩ rfl rfl rfl
  exact ⟨h.1, h.2.2.1.mpr (by decide)⟩

/-! ### Characterization of the `get_group_info` handlers -/

theorem runHandlerGo_eq_filterMap {α β : Type} {h : α → Option (Option β)} :
    ∀ {g : List α} {l : List β}, runHandlerGo h g = some l →
      l = g.filterMap fun a => (h a).bind id := by
  intro g
  induction g with
  | nil =>
    intro l hl
    simp only [runHandlerGo, Option.some.injEq] at hl
    simp [← hl]
  | cons a rest ih =>
    intro l hl
    rw [runHandlerGo] at hl
    rw [List.filterMap_cons]
    cases ha : h a with
    | none => rw [ha] at hl ; exact absurd hl (by simp)
    | some r =>
      rw [ha] at hl
      cases r with
      | none => exact ih hl
      | some b =>
        cases hrest : runHandlerGo h rest with
        | none => rw [hrest] at hl ; exact absurd hl (by simp)
        | some l' =>
          rw [hrest] at hl
          have hl' : l = b :: l' :=
            (Option.some.inj (show some (b :: l') = some l from hl)).symm
          rw [hl', ih hrest]
          rfl

theorem runHandlerGo_no_raise {α β : Type} {h : α → Option (Option β)} :
    ∀ {g : List α} {l : List β}, runHandlerGo h g = some l →
      ∀ a ∈ g, h a ≠ none := by
  intro g
  induction g with
  | nil => intro l _ a ha ; cases ha
  | cons x rest ih =>
    intro l hl a ha
    rw [runHandlerGo] at hl
    cases hx : h x with
    | none => rw [hx] at hl ; exact absurd hl (by simp)
    | some r =>
      rw [hx] at hl
      rcases List.mem_cons.mp ha with rfl | ha'
      · simp [hx]
      · cases r with
        | none => exact ih hl a ha'
        | some b =>
          cases hrest : runHandlerGo h rest with
          | none => rw [hrest] at hl ; exact absurd hl (by simp)
          | some l' => exact ih hrest a ha'

theorem mem_runHandlerGo {α β : Type} {h : α → Option (Option β)}
    {g : List α} {l : List β} (hl : runHandlerGo h g = some l) (b : β) :
    b ∈ l ↔ ∃ a ∈ g, h a = some (some b) := by
  rw [runHandlerGo_eq_filterMap hl]
  rw [List.mem_filterMap]
  constructor
  · rintro ⟨a, ha, hb⟩
    refine ⟨a, ha, ?_⟩
    cases hha : h a with
    | none => rw [hha] at hb ; simp at hb
    | some r =>
      rw [hha] at hb
      cases r with
      | none => simp at hb
      | some b' =>
        have hbb : b' = b := by simpa using hb
        rw [hbb]
  · rintro ⟨a, ha, hb⟩
    exact ⟨a, ha, by rw [hb] ; rfl⟩

theorem handle_objects_line_eq {sc : Bool} {line : String} {r : Option Info}
    (h : handle_objects_line sc line = some r) :
    r = if memS (declNameLast line) DEPRECATED then none
        else if sc && has_complex line then none
        else some ⟨line⟩ := by
  rw [handle_objects_line] at h
  split at h
  · rename_i ext ctype name₀ hsp
    have hname : declNameLast line = dropLastStr name₀ := by
      unfold declNameLast
      rw [hsp]
      rfl
    rw [hname]
    split at h
    · simp only [] at h
      split at h
      · rename_i hdep
        rw [if_pos hdep]
        exact (Option.some.inj h).symm
      · rename_i hdep
        rw [if_neg hdep]
        split at h
        · rename_i hcx
          rw [if_pos hcx]
          exact (Option.some.inj h).symm
        · rename_i hcx
          rw [if_neg hcx]
          exact (Option.some.inj h).symm
    · exact absurd h (by simp)
  · exact absurd h (by simp)

theorem getLastD_default_irrel {α : Type} : ∀ (a : α) (l : List α) (d₁ d₂ : α),
    (a :: l).getLastD d₁ = (a :: l).getLastD d₂
  | _, [], _, _ => rfl
  | a, b :: l, d₁, d₂ => by
    rw [List.getLastD_cons d₁ a (b :: l), List.getLastD_cons d₂ a (b :: l)]

theorem handle_typedefs_line_eq {sc : Bool} {line : String} {r : Option Info}
    (h : handle_typedefs_line sc line = some r) :
    r = if memS (declNameLast line) DEPRECATED then none
        else if sc && has_complex line then none
        else some ⟨line⟩ := by
  rw [handle_typedefs_line] at h
  split at h
  · rename_i td r₁ rs hsp
    have hname : declNameLast line = dropLastStr ((r₁ :: rs).getLastD "") := by
      unfold declNameLast
      rw [hsp, List.getLastD_cons]
      rw [getLastD_default_irrel r₁ rs td ""]
    rw [hname]
    simp only [] at h
    split at h
    · split at h
      · rename_i hdep
        rw [if_pos hdep]
        exact (Option.some.inj h).symm
      · rename_i hdep
        rw [if_neg hdep]
        split at h
        · rename_i hcx
          rw [if_pos hcx]
          exact (Option.some.inj h).symm
        · rename_i hcx
          rw [if_neg hcx]
          exact (Option.some.inj h).symm
    · exact absurd h (by simp)
  · exact absurd h (by simp)

theorem handle_typedef_funcs_line_eq {sc : Bool} {line : String} {r : Option Info}
    (h : handle_typedef_funcs_line sc line = some r) :
    r = if sc && has_complex line then none else some ⟨line⟩ := by
  rw [handle_typedef_funcs_line] at h
  split at h
  · split at h
    · rename_i hcx
      rw [if_pos hcx]
      exact (Option.some.inj h).symm
    · rename_i hcx
      rw [if_neg hcx]
      exact (Option.some.inj h).symm
  · exact absurd h (by simp)

theorem handle_function_node_eq {sc : Bool} {node : FuncNode} {r : Option FuncInfo}
    (h : handle_function_node sc node = some r) :
    (r ≠ none ↔ (memS node.name DEPRECATED = false ∧
      (sc = true → has_complex (node.body ++ ";") = false))) ∧
    (∀ f, r = some f → f.name = node.name ∧ f.text = node.body ++ ";") := by
  rw [handle_function_node] at h
  split at h
  · exact absurd h (by simp)
  · split at h
    · rename_i hdep
      have hr : r = none := (Option.some.inj h).symm
      subst hr
      refine ⟨?_, by intro f hf ; cases hf⟩
      simp only [ne_eq, not_true_eq_false, false_iff, not_and]
      intro hd
      rw [hd] at hdep
      simp at hdep
    · rename_i hdep
      simp only [] at h
      split at h
      · rename_i hcx
        have hr : r = none := (Option.some.inj h).symm
        subst hr
        refine ⟨?_, by intro f hf ; cases hf⟩
        simp only [ne_eq, not_true_eq_false, false_iff, not_and]
        intro _ hc
        simp only [Bool.and_eq_true] at hcx
        rcases hcx with ⟨h₁, h₂⟩
        rw [hc h₁] at h₂
        simp at h₂
      · rename_i hcx
        have hconds : memS node.name DEPRECATED = false ∧
            (sc = true → has_complex (node.body ++ ";") = false) := by
          constructor
          · rw [Bool.not_eq_true] at hdep
            rw [← Bool.not_eq_true]
            simpa using hdep
          · intro hs
            by_contra hc
            rw [Bool.not_eq_false] at hc
            exact hcx (by rw [hs, hc] ; rfl)
        split at h
        · refine ⟨by simp [← Option.some.inj h] ; exact hconds, ?_⟩
          intro f hf
          rw [← Option.some.inj h] at hf
          rw [← Option.some.inj hf]
          exact ⟨rfl, rfl⟩
        · split at h
          · refine ⟨by simp [← Option.some.inj h] ; exact hconds, ?_⟩
            intro f hf
            rw [← Option.some.inj h] at hf
            rw [← Option.some.inj hf]
            exact ⟨rfl, rfl⟩
          · split at h
            · refine ⟨by simp [← Option.some.inj h] ; exact hconds, ?_⟩
              intro f hf
              rw [← Option.some.inj h] at hf
              rw [← Option.some.inj hf]
              exact ⟨rfl, rfl⟩
            · split at h
              · split at h
                · refine ⟨by simp [← Option.some.inj h] ; exact hconds, ?_⟩
                  intro f hf
                  rw [← Option.some.inj h] at hf
                  rw [← Option.some.inj hf]
                  exact ⟨rfl, rfl⟩
                · exact absurd h (by simp)
              · exact absurd h (by simp)

/-- The field name of a processed enum field `NAME = VAL`. -/
def enumFieldName (f : String) : String := (pySplitChar ' ' f).headD ""

theorem handle_enum_field_kept {sc : Bool} {f₀ f : String}
    (h : handle_enum_field sc f₀ = some (some f)) :
    memS (enumFieldName f) DEPRECATED = false ∧
    (sc = true → has_complex (enumFieldName f) = false) := by
  rw [handle_enum_field] at h
  split at h
  · rename_i cfieldname eqTok val hsp
    split at h
    · split at h
      · exact absurd h (by simp)
      · split at h
        · exact absurd h (by simp)
        · rename_i hdep hcx
          have hf : processEnumField f₀ = f :=
            Option.some.inj (Option.some.inj h)
          have hfn : enumFieldName f = cfieldname := by
            unfold enumFieldName
            rw [← hf, hsp]
            rfl
          rw [hfn]
          constructor
          · rw [← Bool.not_eq_true]
            exact hdep
          · intro hs
            by_contra hc
            rw [Bool.not_eq_false] at hc
            exact hcx (by rw [hs, hc] ; rfl)
    · exact absurd h (by simp)
  · exact absurd h (by simp)

theorem handle_enums_text_some {sc : Bool} {t : String} {r : EnumInfo}
    (h : handle_enums_text sc t = some (some r)) :
    r.orig_text = enumNormText t ∧
    memS (enumNameOf t) DEPRECATED = false ∧
    (sc = true → has_complex (enumNameOf t) = false) ∧
    survivingEnumFields sc t ≠ [] ∧
    r.text = pyJoin "\n" (stripLastChar
      ([pyStrip ((splitlines (enumNormText t)).headD ""), "\x7b"]
        ++ (survivingEnumFields sc t).map (fun f => "  " ++ f ++ ",")) ++
      [(splitlines (enumNormText t)).getLastD ""]) := by
  rw [handle_enums_text] at h
  split at h
  · rename_i td br r₁ rs hm
    have hlast : (splitlines (enumNormText t)).getLastD "" = (r₁ :: rs).getLastD "" := by
      rw [hm, List.getLastD_cons, List.getLastD_cons]
      rw [getLastD_default_irrel r₁ rs br ""]
    have hhead : (splitlines (enumNormText t)).headD "" = td := by
      rw [hm] ; rfl
    have hfields : enumFieldsOf t = (r₁ :: rs).dropLast := by
      unfold enumFieldsOf
      rw [hm]
      rfl
    have hname : enumNameOf t = pyStrip (dropEndsStr ((r₁ :: rs).getLastD "")) := by
      unfold enumNameOf
      rw [hlast]
    simp only [] at h
    split at h
    · rename_i hc
      rw [hname]
      split at h
      · exact absurd h (by simp)
      · rename_i hdep
        split at h
        · exact absurd h (by simp)
        · rename_i hcx
          split at h
          · exact absurd h (by simp)
          · rename_i new_fields hrun
            have hsurv : survivingEnumFields sc t = new_fields := by
              unfold survivingEnumFields
              rw [hfields]
              exact (runHandlerGo_eq_filterMap hrun).symm
            split at h
            · exact absurd h (by simp)
            · rename_i hne
              have hr := (Option.some.inj (Option.some.inj h)).symm
              refine ⟨?_, ?_, ?_, ?_, ?_⟩
              · rw [hr]
              · rw [← Bool.not_eq_true]
                exact hdep
              · intro hs
                by_contra hcc
                rw [Bool.not_eq_false] at hcc
                exact hcx (by rw [hs, hcc] ; rfl)
              · rw [hsurv] ; exact hne
              · rw [hr]
                rw [hsurv, hhead, hlast]
                rcases hc with ⟨hc₁, hc₂, hc₃, hc₄⟩
                rw [hc₂]
    · exact absurd h (by simp)
  · exact absurd h (by simp)

theorem handle_enums_text_skip {sc : Bool} {t : String}
    (h : handle_enums_text sc t = some none) :
    memS (enumNameOf t) DEPRECATED = true ∨
    (sc = true ∧ has_complex (enumNameOf t) = true) ∨
    survivingEnumFields sc t = [] := by
  rw [handle_enums_text] at h
  split at h
  · rename_i td br r₁ rs hm
    have hlast : (splitlines (enumNormText t)).getLastD "" = (r₁ :: rs).getLastD "" := by
      rw [hm, List.getLastD_cons, List.getLastD_cons]
      rw [getLastD_default_irrel r₁ rs br ""]
    have hfields : enumFieldsOf t = (r₁ :: rs).dropLast := by
      unfold enumFieldsOf
      rw [hm]
      rfl
    have hname : enumNameOf t = pyStrip (dropEndsStr ((r₁ :: rs).getLastD "")) := by
      unfold enumNameOf
      rw [hlast]
    simp only [] at h
    split at h
    · split at h
      · rename_i hdep
        left
        rw [hname]
        exact hdep
      · rename_i hdep
        split at h
        · rename_i hcx
          right ; left
          rw [hname]
          simpa [Bool.and_eq_true] using hcx
        · rename_i hcx
          split at h
          · exact absurd h (by simp)
          · rename_i new_fields hrun
            have hsurv : survivingEnumFields sc t = new_fields := by
              unfold survivingEnumFields
              rw [hfields]
              exact (runHandlerGo_eq_filterMap hrun).symm
            split at h
            · rename_i hnil
              right ; right
              rw [hsurv]
              exact hnil
            · exact absurd h (by simp)
    · exact absurd h (by simp)
  · exact absurd h (by simp)

theorem get_group_info_eq {groups : Groups} {nodes : List FuncNode} {sc : Bool} {gi : GroupInfo}
    (h : get_group_info groups nodes sc = some gi) :
    runHandlerGo (handle_constants_line sc) groups.grbConst = some gi.grbConst ∧
    runHandlerGo (handle_constants_line sc) groups.gxbConst = some gi.gxbConst ∧
    runHandlerGo (handle_objects_line sc) groups.grbObjects = some gi.grbObjects ∧
    runHandlerGo (handle_objects_line sc) groups.gxbObjects = some gi.gxbObjects ∧
    runHandlerGo (handle_enums_text sc) groups.grbTypedefEnums = some gi.grbTypedefEnums ∧
    runHandlerGo (handle_enums_text sc) groups.gxbTypedefEnums = some gi.gxbTypedefEnums ∧
    runHandlerGo (handle_typedefs_line sc) groups.grbTypedef = some gi.grbTypedef ∧
    runHandlerGo (handle_typedefs_line sc) groups.gxbTypedef = some gi.gxbTypedef ∧
    runHandlerGo (handle_typedef_funcs_line sc) groups.gxbTypedefFuncs = some gi.gxbTypedefFuncs ∧
    (∃ fl, runHandlerGo (handle_function_node sc)
        (nodes.filter fun n => pyStartsWith "GrB_" n.name) = some fl ∧
      gi.grbMethods = pySortedBy (fun x => sort_key x.text) fl) ∧
    (∃ fl, runHandlerGo (handle_function_node sc)
        (nodes.filter fun n => pyStartsWith "GxB_" n.name) = some fl ∧
      gi.gxbMethods = pySortedBy (fun x => sort_key x.text) fl) ∧
    (∃ fl, runHandlerGo (handle_function_node sc)
        (nodes.filter fun n => pyStartsWith "GB_" n.name) = some fl ∧
      gi.gbMethods = pySortedBy (fun x => sort_key x.text) fl) ∧
    gi.notSeen = groups.notSeen := by
  rw [get_group_info] at h
  simp only [bind, Option.bind_eq_some] at h
  obtain ⟨c₁, hc₁, h⟩ := h
  obtain ⟨c₂, hc₂, h⟩ := h
  obtain ⟨o₁, ho₁, h⟩ := h
  obtain ⟨o₂, ho₂, h⟩ := h
  obtain ⟨e₁, he₁, h⟩ := h
  obtain ⟨e₂, he₂, h⟩ := h
  obtain ⟨t₁, ht₁, h⟩ := h
  obtain ⟨t₂, ht₂, h⟩ := h
  obtain ⟨tf, htf, h⟩ := h
  split at h
  · simp only [bind, Option.bind_eq_some] at h
    obtain ⟨f₁, hf₁, h⟩ := h
    obtain ⟨f₂, hf₂, h⟩ := h
    obtain ⟨f₃, hf₃, h⟩ := h
    have hgi := (Option.some.inj h).symm
    subst hgi
    exact ⟨hc₁, hc₂, ho₁, ho₂, he₁, he₂, ht₁, ht₂, htf,
      ⟨f₁, hf₁, rfl⟩, ⟨f₂, hf₂, rfl⟩, ⟨f₃, hf₃, rfl⟩, rfl⟩
  · exact absurd h (by simp)

/-- C2 exactness for an object or plain-typedef group: a line of the input
    group is emitted iff its declared name is not in `DEPRECATED` and, in
    skip-complex mode, it does not reference a complex type; and everything
    emitted comes from the input group. -/
def objectsExact (sc : Bool) (inp : List String) (out : List Info) : Prop :=
  (∀ line ∈ inp, ((∃ i ∈ out, i.text = line) ↔
      (memS (declNameLast line) DEPRECATED = false ∧
       (sc = true → has_complex line = false)))) ∧
  (∀ i ∈ out, i.text ∈ inp)

/-- C2 exactness for the typedef'd-function-type group: only the complex
    filter applies (`DEPRECATED` is not consulted). -/
def typedefFuncsExact (sc : Bool) (inp : List String) (out : List Info) : Prop :=
  (∀ line ∈ inp, ((∃ i ∈ out, i.text = line) ↔
      (sc = true → has_complex line = false))) ∧
  (∀ i ∈ out, i.text ∈ inp)

/-- C2 exactness for an enum group: an enum is emitted iff its typedef name
    passes the deprecated/complex filter AND at least one field survives the
    per-field filter; everything emitted comes from the input group. -/
def enumsExact (sc : Bool) (inp : List String) (out : List EnumInfo) : Prop :=
  (∀ t ∈ inp, ((∃ r ∈ out, r.orig_text = enumNormText t) ↔
      (memS (enumNameOf t) DEPRECATED = false ∧
       (sc = true → has_complex (enumNameOf t) = false) ∧
       survivingEnumFields sc t ≠ []))) ∧
  (∀ r ∈ out, ∃ t ∈ inp, r.orig_text = enumNormText t)

/-- C2 exactness for a function group: a collected function declaration is
    emitted iff its name is not deprecated and, in skip-complex mode, its
    generated text does not reference a complex type. -/
def funcsExact (sc : Bool) (nodes : List FuncNode) (out : List FuncInfo) : Prop :=
  (∀ node ∈ nodes, ((∃ f ∈ out, f.name = node.name ∧ f.text = node.body ++ ";") ↔
      (memS node.name DEPRECATED = false ∧
       (sc = true → has_complex (node.body ++ ";") = false)))) ∧
  (∀ f ∈ out, ∃ node ∈ nodes, f.name = node.name ∧ f.text = node.body ++ ";")

theorem exact_of_handler {sc : Bool} {hnd : String → Option (Option Info)}
    {inp : List String} {out : List Info}
    (hspec : ∀ line r, hnd line = some r →
      r = if memS (declNameLast line) DEPRECATED then none
          else if sc && has_complex line then none
          else some ⟨line⟩)
    (hrun : runHandlerGo hnd inp = some out) :
    objectsExact sc inp out := by
  constructor
  · intro line hline
    constructor
    · rintro ⟨i, hi, hit⟩
      obtain ⟨line', hline', hhit⟩ := (mem_runHandlerGo hrun i).mp hi
      have := hspec line' _ hhit
      split at this
      · exact absurd this (by simp)
      · split at this
        · exact absurd this (by simp)
        · rename_i hdep hcx
          have hieq : i = ⟨line'⟩ := Option.some.inj this
          have hle : line' = line := by rw [← hit, hieq]
          subst hle
          refine ⟨by rw [← Bool.not_eq_true] ; exact hdep, ?_⟩
          intro hs
          by_contra hc
          rw [Bool.not_eq_false] at hc
          exact hcx (by rw [hs, hc] ; rfl)
    · rintro ⟨hdep, hcx⟩
      have hnr := runHandlerGo_no_raise hrun line hline
      obtain ⟨r, hr⟩ := Option.ne_none_iff_exists'.mp hnr
      have := hspec line r hr
      rw [if_neg (by rw [hdep] ; simp)] at this
      rw [if_neg (by
        intro hcc
        simp only [Bool.and_eq_true] at hcc
        rcases hcc with ⟨h₁, h₂⟩
        rw [hcx h₁] at h₂
        simp at h₂)] at this
      subst this
      exact ⟨⟨line⟩, (mem_runHandlerGo hrun _).mpr ⟨line, hline, hr⟩, rfl⟩
  · intro i hi
    obtain ⟨line', hline', hhit⟩ := (mem_runHandlerGo hrun i).mp hi
    have := hspec line' _ hhit
    split at this
    · exact absurd this (by simp)
    · split at this
      · exact absurd this (by simp)
      · have hieq : i = ⟨line'⟩ := Option.some.inj this
        rw [hieq]
        exact hline'

theorem typedefFuncsExact_of_run {sc : Bool} {inp : List String} {out : List Info}
    (hrun : runHandlerGo (handle_typedef_funcs_line sc) inp = some out) :
    typedefFuncsExact sc inp out := by
  constructor
  · intro line hline
    constructor
    · rintro ⟨i, hi, hit⟩
      obtain ⟨line', hline', hhit⟩ := (mem_runHandlerGo hrun i).mp hi
      have := handle_typedef_funcs_line_eq hhit
      split at this
      · exact absurd this (by simp)
      · rename_i hcx
        have hieq : i = ⟨line'⟩ := Option.some.inj this
        have hle : line' = line := by rw [← hit, hieq]
        subst hle
        intro hs
        by_contra hc
        rw [Bool.not_eq_false] at hc
        exact hcx (by rw [hs, hc] ; rfl)
    · intro hcx
      have hnr := runHandlerGo_no_raise hrun line hline
      obtain ⟨r, hr⟩ := Option.ne_none_iff_exists'.mp hnr
      have := handle_typedef_funcs_line_eq hr
      rw [if_neg (by
        intro hcc
        simp only [Bool.and_eq_true] at hcc
        rcases hcc with ⟨h₁, h₂⟩
        rw [hcx h₁] at h₂
        simp at h₂)] at this
      subst this
      exact ⟨⟨line⟩, (mem_runHandlerGo hrun _).mpr ⟨line, hline, hr⟩, rfl⟩
  · intro i hi
    obtain ⟨line', hline', hhit⟩ := (mem_runHandlerGo hrun i).mp hi
    have := handle_typedef_funcs_line_eq hhit
    split at this
    · exact absurd this (by simp)
    · have hieq : i = ⟨line'⟩ := Option.some.inj this
      rw [hieq]
      exact hline'

theorem enumsExact_of_run {sc : Bool} {inp : List String} {out : List EnumInfo}
    (hrun : runHandlerGo (handle_enums_text sc) inp = some out) :
    enumsExact sc inp out := by
  constructor
  · intro t ht
    constructor
    · rintro ⟨r, hr, hrt⟩
      obtain ⟨t', ht', hht⟩ := (mem_runHandlerGo hrun r).mp hr
      obtain ⟨ho, hdep, hcx, hne, _⟩ := handle_enums_text_some hht
      have heqn : enumNormText t' = enumNormText t := by rw [← ho, hrt]
      have h₁ : enumNameOf t' = enumNameOf t := by
        unfold enumNameOf ; rw [heqn]
      have h₂ : survivingEnumFields sc t' = survivingEnumFields sc t := by
        unfold survivingEnumFields enumFieldsOf ; rw [heqn]
      rw [h₁] at hdep hcx
      rw [h₂] at hne
      exact ⟨hdep, hcx, hne⟩
    · rintro ⟨hdep, hcx, hne⟩
      have hnr := runHandlerGo_no_raise hrun t ht
      obtain ⟨r, hr⟩ := Option.ne_none_iff_exists'.mp hnr
      cases r with
      | none =>
        rcases handle_enums_text_skip hr with hd | ⟨hs, hc⟩ | hs
        · rw [hdep] at hd ; exact absurd hd (by simp)
        · rw [hcx hs] at hc ; exact absurd hc (by simp)
        · exact absurd hs hne
      | some er =>
        obtain ⟨ho, _, _, _, _⟩ := handle_enums_text_some hr
        exact ⟨er, (mem_runHandlerGo hrun _).mpr ⟨t, ht, hr⟩, ho⟩
  · intro r hr
    obtain ⟨t', ht', hht⟩ := (mem_runHandlerGo hrun r).mp hr
    obtain ⟨ho, _, _, _, _⟩ := handle_enums_text_some hht
    exact ⟨t', ht', ho⟩

theorem funcsExact_of_run {sc : Bool} {ns : List FuncNode} {fl : List FuncInfo}
    {out : List FuncInfo}
    (hrun : runHandlerGo (handle_function_node sc) ns = some fl)
    (hout : out = pySortedBy (fun x => sort_key x.text) fl) :
    funcsExact sc ns out := by
  have hmem : ∀ f : FuncInfo, f ∈ out ↔ f ∈ fl := by
    intro f
    rw [hout]
    exact mem_sortLe
  constructor
  · intro node hnode
    constructor
    · rintro ⟨f, hf, hfn, hft⟩
      obtain ⟨node', hnode', hh⟩ := (mem_runHandlerGo hrun f).mp ((hmem f).mp hf)
      obtain ⟨hiff, hval⟩ := handle_function_node_eq hh
      obtain ⟨hn', ht'⟩ := hval f rfl
      have hnn : node'.name = node.name := by rw [← hn', hfn]
      have htt : node'.body ++ ";" = node.body ++ ";" := by rw [← ht', hft]
      have hconds := hiff.mp (by simp)
      rw [hnn, htt] at hconds
      exact hconds
    · rintro ⟨hdep, hcx⟩
      have hnr := runHandlerGo_no_raise hrun node hnode
      obtain ⟨r, hr⟩ := Option.ne_none_iff_exists'.mp hnr
      obtain ⟨hiff, hval⟩ := handle_function_node_eq hr
      have : r ≠ none := hiff.mpr ⟨hdep, hcx⟩
      obtain ⟨f, hf⟩ := Option.ne_none_iff_exists'.mp this
      obtain ⟨hn', ht'⟩ := hval f hf
      refine ⟨f, (hmem f).mpr ((mem_runHandlerGo hrun f).mpr ⟨node, hnode, by rw [hr, hf]⟩),
        hn', ht'⟩
  · intro f hf
    obtain ⟨node', hnode', hh⟩ := (mem_runHandlerGo hrun f).mp ((hmem f).mp hf)
    obtain ⟨_, hval⟩ := handle_function_node_eq hh
    obtain ⟨hn', ht'⟩ := hval f rfl
    exact ⟨node', hnode', hn', ht'⟩

/-- **C2** (amended): on every classified input accepted by
    `get_group_info`, the emitted object and plain-typedef declarations are
    exactly the input ones minus those whose declared name is in
    `DEPRECATED` and (in skip-complex mode) minus those referencing complex
    types; the same holds for function declarations by node name and
    generated text; typedef'd function types are filtered by the complex
    rule only, never by `DEPRECATED`; and an enum typedef is emitted iff its
    own name passes the deprecated/complex filter *and* at least one of its
    fields survives the per-field filter. -/
theorem get_group_info_exact (groups : Groups) (nodes : List FuncNode) (sc : Bool)
    (gi : GroupInfo) (hg : get_group_info groups nodes sc = some gi) :
    objectsExact sc groups.grbObjects gi.grbObjects ∧
    objectsExact sc groups.gxbObjects gi.gxbObjects ∧
    objectsExact sc groups.grbTypedef gi.grbTypedef ∧
    objectsExact sc groups.gxbTypedef gi.gxbTypedef ∧
    typedefFuncsExact sc groups.gxbTypedefFuncs gi.gxbTypedefFuncs ∧
    enumsExact sc groups.grbTypedefEnums gi.grbTypedefEnums ∧
    enumsExact sc groups.gxbTypedefEnums gi.gxbTypedefEnums ∧
    funcsExact sc (nodes.filter fun n => pyStartsWith "GrB_" n.name) gi.grbMethods ∧
    funcsExact sc (nodes.filter fun n => pyStartsWith "GxB_" n.name) gi.gxbMethods ∧
    funcsExact sc (nodes.filter fun n => pyStartsWith "GB_" n.name) gi.gbMethods := by
  obtain ⟨_, _, ho₁, ho₂, he₁, he₂, ht₁, ht₂, htf,
    ⟨f₁, hf₁, hm₁⟩, ⟨f₂, hf₂, hm₂⟩, ⟨f₃, hf₃, hm₃⟩, _⟩ := get_group_info_eq hg
  exact ⟨exact_of_handler (fun l r h => handle_objects_line_eq h) ho₁,
    exact_of_handler (fun l r h => handle_objects_line_eq h) ho₂,
    exact_of_handler (fun l r h => handle_typedefs_line_eq h) ht₁,
    exact_of_handler (fun l r h => handle_typedefs_line_eq h) ht₂,
    typedefFuncsExact_of_run htf,
    enumsExact_of_run he₁, enumsExact_of_run he₂,
    funcsExact_of_run hf₁ hm₁, funcsExact_of_run hf₂ hm₂, funcsExact_of_run hf₃ hm₃⟩

/-- Witness for `get_group_info_exact` at a concrete input: a deprecated-
    named typedef'd function type (`GxB_kron`) is nevertheless emitted. -/
theorem get_group_info_exact_witness :
    get_group_info
      ⟨[], [], [], [], [], [], [], [], [], [], [],
        ["typedef GrB_Info (*GxB_kron)(GrB_Matrix);"], []⟩ [] false =
      some ⟨[], [], [], [], [], [], [], [],
        [⟨"typedef GrB_Info (*GxB_kron)(GrB_Matrix);"⟩], [], [], [], []⟩ ∧
    typedefFuncsExact false ["typedef GrB_Info (*GxB_kron)(GrB_Matrix);"]
      [⟨"typedef GrB_Info (*GxB_kron)(GrB_Matrix);"⟩] := by
  refine ⟨by decide, ?_⟩
  have h := get_group_info_exact
    ⟨[], [], [], [], [], [], [], [], [], [], [],
      ["typedef GrB_Info (*GxB_kron)(GrB_Matrix);"], []⟩ [] false
    ⟨[], [], [], [], [], [], [], [],
      [⟨"typedef GrB_Info (*GxB_kron)(GrB_Matrix);"⟩], [], [], [], []⟩ (by decide)
  exact h.2.2.2.2.1

theorem handle_constants_line_kept {sc : Bool} {line : String} {i : Info}
    (h : handle_constants_line sc line = some (some i)) :
    i.text = line ∧ (sc = true → has_complex line = false) := by
  rw [handle_constants_line] at h
  split at h
  · split at h
    · simp only [] at h
      split at h
      · exact absurd h (by simp)
      · split at h
        · exact absurd h (by simp)
        · rename_i hcx
          refine ⟨(Option.some.inj (Option.some.inj h)).symm ▸ rfl, ?_⟩
          intro hs
          by_contra hc
          rw [Bool.not_eq_false] at hc
          exact hcx (by rw [hs, hc] ; rfl)
    · exact absurd h (by simp)
  · exact absurd h (by simp)

theorem out_not_complex {α β : Type} (textOf : β → String)
    {hnd : α → Option (Option β)} {inp : List α} {out : List β}
    (hrun : runHandlerGo hnd inp = some out)
    (hkept : ∀ a b, hnd a = some (some b) → has_complex (textOf b) = false) :
    ∀ b ∈ out, has_complex (textOf b) = false := by
  intro b hb
  obtain ⟨a, ha, hh⟩ := (mem_runHandlerGo hrun b).mp hb
  exact hkept a b hh

theorem survivingEnumFields_not_complex (t : String) :
    ∀ f ∈ survivingEnumFields true t, has_complex (enumFieldName f) = false := by
  intro f hf
  rw [survivingEnumFields, List.mem_filterMap] at hf
  obtain ⟨f₀, _, hb⟩ := hf
  cases hh : handle_enum_field true f₀ with
  | none => rw [hh] at hb ; simp at hb
  | some r =>
    rw [hh] at hb
    cases r with
    | none => simp at hb
    | some f' =>
      have hff : f' = f := by simpa using hb
      subst hff
      exact (handle_enum_field_kept hh).2 rfl

theorem handle_objects_line_kept {sc : Bool} {line : String} {i : Info}
    (h : handle_objects_line sc line = some (some i)) :
    i.text = line ∧ (sc = true → has_complex line = false) := by
  have heq := handle_objects_line_eq h
  split at heq
  · exact absurd heq (by simp)
  · split at heq
    · exact absurd heq (by simp)
    · rename_i hdep hcx
      refine ⟨by rw [Option.some.inj heq], ?_⟩
      intro hs
      by_contra hc
      rw [Bool.not_eq_false] at hc
      exact hcx (by rw [hs, hc] ; rfl)

theorem handle_typedefs_line_kept {sc : Bool} {line : String} {i : Info}
    (h : handle_typedefs_line sc line = some (some i)) :
    i.text = line ∧ (sc = true → has_complex line = false) := by
  have heq := handle_typedefs_line_eq h
  split at heq
  · exact absurd heq (by simp)
  · split at heq
    · exact absurd heq (by simp)
    · rename_i hdep hcx
      refine ⟨by rw [Option.some.inj heq], ?_⟩
      intro hs
      by_contra hc
      rw [Bool.not_eq_false] at hc
      exact hcx (by rw [hs, hc] ; rfl)

theorem handle_typedef_funcs_line_kept {sc : Bool} {line : String} {i : Info}
    (h : handle_typedef_funcs_line sc line = some (some i)) :
    i.text = line ∧ (sc = true → has_complex line = false) := by
  have heq := handle_typedef_funcs_line_eq h
  split at heq
  · exact absurd heq (by simp)
  · rename_i hcx
    refine ⟨by rw [Option.some.inj heq], ?_⟩
    intro hs
    by_contra hc
    rw [Bool.not_eq_false] at hc
    exact hcx (by rw [hs, hc] ; rfl)

theorem handle_function_node_kept {node : FuncNode} {f : FuncInfo}
    (h : handle_function_node true node = some (some f)) :
    has_complex f.text = false := by
  obtain ⟨hiff, hval⟩ := handle_function_node_eq h
  obtain ⟨_, ht⟩ := hval f rfl
  have hc := (hiff.mp (by simp)).2 rfl
  rw [ht]
  exact hc

/-- **C4** (amended): for every input parsed with `skip_complex=True`, no
    emitted constant, object, typedef, typedef-function or function record
    has a text containing `FC32`/`FC64`; and every emitted enum record comes
    from an enum text whose typedef name and surviving field names are all
    `FC32`/`FC64`-free (its field values need not be), its text being
    rebuilt from exactly those surviving fields. -/
theorem skip_complex_omits_complex (tu : String) (enums : List String)
    (nodes : List FuncNode) (gi : GroupInfo)
    (hp : parse_header tu enums nodes true = some gi) :
    (∀ i ∈ gi.grbConst ++ gi.gxbConst ++ gi.grbObjects ++ gi.gxbObjects
        ++ gi.grbTypedef ++ gi.gxbTypedef ++ gi.gxbTypedefFuncs,
      has_complex i.text = false) ∧
    (∀ f ∈ gi.grbMethods ++ gi.gxbMethods ++ gi.gbMethods, has_complex f.text = false) ∧
    (∀ r ∈ gi.grbTypedefEnums ++ gi.gxbTypedefEnums, ∃ t,
      r.orig_text = enumNormText t ∧
      has_complex (enumNameOf t) = false ∧
      (∀ f ∈ survivingEnumFields true t, has_complex (enumFieldName f) = false) ∧
      r.text = pyJoin "\n" (stripLastChar
        ([pyStrip ((splitlines (enumNormText t)).headD ""), "\x7b"]
          ++ (survivingEnumFields true t).map (fun f => "  " ++ f ++ ",")) ++
        [(splitlines (enumNormText t)).getLastD ""])) := by
  rw [parse_header, parse_headerWith] at hp
  obtain ⟨g, hgg, hgi⟩ := Option.bind_eq_some.mp hp
  obtain ⟨hc₁, hc₂, ho₁, ho₂, he₁, he₂, ht₁, ht₂, htf,
    ⟨f₁, hf₁, hm₁⟩, ⟨f₂, hf₂, hm₂⟩, ⟨f₃, hf₃, hm₃⟩, _⟩ := get_group_info_eq hgi
  refine ⟨?_, ?_, ?_⟩
  · intro i hi
    simp only [List.mem_append] at hi
    rcases hi with ((((((hi | hi) | hi) | hi) | hi) | hi) | hi)
    · exact out_not_complex Info.text hc₁
        (fun l b hb => (handle_constants_line_kept hb).1 ▸ (handle_constants_line_kept hb).2 rfl)
        i hi
    · exact out_not_complex Info.text hc₂
        (fun l b hb => (handle_constants_line_kept hb).1 ▸ (handle_constants_line_kept hb).2 rfl)
        i hi
    · exact out_not_complex Info.text ho₁
        (fun l b hb => (handle_objects_line_kept hb).1 ▸ (handle_objects_line_kept hb).2 rfl)
        i hi
    · exact out_not_complex Info.text ho₂
        (fun l b hb => (handle_objects_line_kept hb).1 ▸ (handle_objects_line_kept hb).2 rfl)
        i hi
    · exact out_not_complex Info.text ht₁
        (fun l b hb => (handle_typedefs_line_kept hb).1 ▸ (handle_typedefs_line_kept hb).2 rfl)
        i hi
    · exact out_not_complex Info.text ht₂
        (fun l b hb => (handle_typedefs_line_kept hb).1 ▸ (handle_typedefs_line_kept hb).2 rfl)
        i hi
    · exact out_not_complex Info.text htf
        (fun l b hb =>
          (handle_typedef_funcs_line_kept hb).1 ▸ (handle_typedef_funcs_line_kept hb).2 rfl)
        i hi
  · intro f hf
    simp only [List.mem_append] at hf
    rcases hf with ((hf | hf) | hf)
    · rw [hm₁] at hf
      exact out_not_complex FuncInfo.text hf₁
        (fun n b hb => handle_function_node_kept hb) f (mem_sortLe.mp hf)
    · rw [hm₂] at hf
      exact out_not_complex FuncInfo.text hf₂
        (fun n b hb => handle_function_node_kept hb) f (mem_sortLe.mp hf)
    · rw [hm₃] at hf
      exact out_not_complex FuncInfo.text hf₃
        (fun n b hb => handle_function_node_kept hb) f (mem_sortLe.mp hf)
  · intro r hr
    simp only [List.mem_append] at hr
    rcases hr with hr | hr
    · obtain ⟨t, ht, hh⟩ := (mem_runHandlerGo he₁ r).mp hr
      obtain ⟨ho, _, hcx, _, htext⟩ := handle_enums_text_some hh
      exact ⟨t, ho, hcx rfl, survivingEnumFields_not_complex t, htext⟩
    · obtain ⟨t, ht, hh⟩ := (mem_runHandlerGo he₂ r).mp hr
      obtain ⟨ho, _, hcx, _, htext⟩ := handle_enums_text_some hh
      exact ⟨t, ho, hcx rfl, survivingEnumFields_not_complex t, htext⟩

theorem strData_append (s t : String) : (s ++ t).data = s.data ++ t.data := by
  cases s ; cases t ; rfl

theorem strMk_data (s : String) : String.mk s.data = s := by
  cases s ; rfl

/-- Field lines as the spec words them: every surviving field indented, with
    a trailing comma on all but the last. -/
def commaSeparatedFieldLines (fields : List String) : List String :=
  match fields.getLast? with
  | none => []
  | some lastf => (fields.dropLast.map fun f => "  " ++ f ++ ",") ++ ["  " ++ lastf]

theorem dropLastStr_append_comma (f : String) :
    dropLastStr ("  " ++ f ++ ",") = "  " ++ f := by
  unfold dropLastStr
  rw [strData_append ("  " ++ f) ","]
  have h : ("," : String).data = [','] := rfl
  rw [h, List.dropLast_concat]

theorem stripLastChar_comma (a b : String) :
    ∀ (fields : List String), fields ≠ [] →
    stripLastChar ([a, b] ++ fields.map (fun f => "  " ++ f ++ ",")) =
      [a, b] ++ commaSeparatedFieldLines fields := by
  intro fields hne
  rcases List.eq_nil_or_concat fields with rfl | ⟨ys, y, rfl⟩
  · exact absurd rfl hne
  · rw [List.concat_eq_append]
    rw [List.map_append, List.map_singleton]
    rw [stripLastChar]
    rw [← List.append_assoc]
    rw [List.getLast?_concat, List.dropLast_concat]
    rw [commaSeparatedFieldLines]
    rw [List.getLast?_concat, List.dropLast_concat]
    show [a, b] ++ List.map (fun f => "  " ++ f ++ ",") ys ++ [dropLastStr ("  " ++ y ++ ",")] =
      [a, b] ++ (List.map (fun f => "  " ++ f ++ ",") ys ++ ["  " ++ y])
    rw [dropLastStr_append_comma, List.append_assoc]

theorem handle_enum_field_kept_val {sc : Bool} {f₀ f : String}
    (h : handle_enum_field sc f₀ = some (some f)) : f = processEnumField f₀ := by
  rw [handle_enum_field] at h
  split at h
  · split at h
    · split at h
      · exact absurd h (by simp)
      · split at h
        · exact absurd h (by simp)
        · exact (Option.some.inj (Option.some.inj h)).symm
    · exact absurd h (by simp)
  · exact absurd h (by simp)

theorem survivingEnumFields_sublist (sc : Bool) (t : String) :
    (survivingEnumFields sc t).Sublist ((enumFieldsOf t).map processEnumField) := by
  unfold survivingEnumFields
  induction enumFieldsOf t with
  | nil => simp
  | cons f₀ rest ih =>
    rw [List.filterMap_cons, List.map_cons]
    cases hh : (handle_enum_field sc f₀).bind id with
    | none => exact ih.cons _
    | some f =>
      have hf : f = processEnumField f₀ := by
        cases hfe : handle_enum_field sc f₀ with
        | none => rw [hfe] at hh ; simp at hh
        | some r =>
          rw [hfe] at hh
          cases r with
          | none => simp at hh
          | some f' =>
            have : f' = f := by simpa using hh
            subst this
            exact handle_enum_field_kept_val hfe
      rw [hf]
      exact ih.cons₂ _

/-- **C9**: an enum typedef all of whose fields are removed by the
    deprecated/complex field filter is omitted from the output entirely —
    with no condition on the enum's own name — and an emitted enum record's
    text keeps the surviving fields in their original order (a subsequence
    of the processed input fields), indented, comma-separated, with the
    trailing comma removed from the last field. -/
theorem handle_enums_empty_and_rebuild (sc : Bool) (t : String) :
    (survivingEnumFields sc t = [] → ∀ r, handle_enums_text sc t ≠ some (some r)) ∧
    (∀ r, handle_enums_text sc t = some (some r) →
      r.text = pyJoin "\n" ([pyStrip ((splitlines (enumNormText t)).headD ""), "\x7b"]
        ++ commaSeparatedFieldLines (survivingEnumFields sc t)
        ++ [(splitlines (enumNormText t)).getLastD ""]) ∧
      (survivingEnumFields sc t).Sublist ((enumFieldsOf t).map processEnumField)) := by
  constructor
  · intro hnil r hr
    obtain ⟨_, _, _, hne, _⟩ := handle_enums_text_some hr
    exact hne hnil
  · intro r hr
    obtain ⟨_, _, _, hne, htext⟩ := handle_enums_text_some hr
    refine ⟨?_, survivingEnumFields_sublist sc t⟩
    rw [htext, stripLastChar_comma _ _ _ hne]


/-- Counterexample to **C2** as stated: `parse_header` accepts a header with
    a single enum typedef `GrB_Test` whose name is not deprecated and not
    complex, yet emits no enum record, because every *field* of the enum is
    deprecated — the emitted set is not the input set minus deprecated-named
    minus complex declarations. -/
theorem get_group_info_deprecated_counterexample :
    (parse_header "typedef enum\n\x7b\n  GxB_IS_HYPER = 0\n\x7d GrB_Test;"
        ["typedef enum\n\x7b\n  GxB_IS_HYPER = 0\n\x7d GrB_Test;"] [] false).map
      (fun gi => gi.grbTypedefEnums) = some [] ∧
    memS (enumNameOf "typedef enum\n\x7b\n  GxB_IS_HYPER = 0\n\x7d GrB_Test;") DEPRECATED
      = false ∧
    has_complex "typedef enum\n\x7b\n  GxB_IS_HYPER = 0\n\x7d GrB_Test;" = false := by
  exact ⟨by decide, by decide, by decide⟩

/-- Counterexample to **C4** as stated: in skip-complex mode `parse_header`
    emits an enum record whose text contains `FC64`, because only the enum
    typedef name and the field *names* are checked with `has_complex`; a
    field *value* referencing a complex constant survives. -/
theorem skip_complex_leak_counterexample :
    (parse_header "typedef enum\n\x7b\n  GrB_A = GxB_FC64_X\n\x7d GrB_T;"
        ["typedef enum\n\x7b\n  GrB_A = GxB_FC64_X\n\x7d GrB_T;"] [] true).map
      (fun gi => gi.grbTypedefEnums.map (fun r => r.text)) =
      some ["typedef enum\n\x7b\n  GrB_A = GxB_FC64_X\n\x7d GrB_T;"] ∧
    has_complex "typedef enum\n\x7b\n  GrB_A = GxB_FC64_X\n\x7d GrB_T;" = true := by
  exact ⟨by decide, by decide⟩

/-- Witness for `skip_complex_omits_complex` at a concrete skip-complex run.
    -/
theorem skip_complex_omits_complex_witness :
    parse_header "typedef GrB_Info (*GxB_kron)(GrB_Matrix);" [] [] true =
      some ⟨[], [], [], [], [], [], [], [],
        [⟨"typedef GrB_Info (*GxB_kron)(GrB_Matrix);"⟩], [], [], [], []⟩ ∧
    has_complex (Info.text ⟨"typedef GrB_Info (*GxB_kron)(GrB_Matrix);"⟩) = false := by
  refine ⟨by decide, ?_⟩
  have h := skip_complex_omits_complex "typedef GrB_Info (*GxB_kron)(GrB_Matrix);" [] []
    ⟨[], [], [], [], [], [], [], [],
      [⟨"typedef GrB_Info (*GxB_kron)(GrB_Matrix);"⟩], [], [], [], []⟩ (by decide)
  exact h.1 ⟨"typedef GrB_Info (*GxB_kron)(GrB_Matrix);"⟩ (by simp)

/-- Witness for `handle_enums_empty_and_rebuild` at a concrete enum with one
    deprecated field removed. -/
theorem handle_enums_empty_and_rebuild_witness :
    handle_enums_text false
        "typedef enum\n\x7b\n  GxB_IS_HYPER = 0,\n  GrB_B = 1\n\x7d GrB_T;" =
      some (some ⟨"typedef enum\n\x7b\n  GxB_IS_HYPER = 0,\n  GrB_B = 1\n\x7d GrB_T;",
        "typedef enum\n\x7b\n  GrB_B = 1\n\x7d GrB_T;"⟩) ∧
    ((EnumInfo.mk "typedef enum\n\x7b\n  GxB_IS_HYPER = 0,\n  GrB_B = 1\n\x7d GrB_T;"
        "typedef enum\n\x7b\n  GrB_B = 1\n\x7d GrB_T;").text = pyJoin "\n"
      ([pyStrip ((splitlines (enumNormText
          "typedef enum\n\x7b\n  GxB_IS_HYPER = 0,\n  GrB_B = 1\n\x7d GrB_T;")).headD ""),
        "\x7b"]
        ++ commaSeparatedFieldLines (survivingEnumFields false
          "typedef enum\n\x7b\n  GxB_IS_HYPER = 0,\n  GrB_B = 1\n\x7d GrB_T;")
        ++ [(splitlines (enumNormText
          "typedef enum\n\x7b\n  GxB_IS_HYPER = 0,\n  GrB_B = 1\n\x7d GrB_T;")).getLastD ""]) ∧
      (survivingEnumFields false
        "typedef enum\n\x7b\n  GxB_IS_HYPER = 0,\n  GrB_B = 1\n\x7d GrB_T;").Sublist
        ((enumFieldsOf
          "typedef enum\n\x7b\n  GxB_IS_HYPER = 0,\n  GrB_B = 1\n\x7d GrB_T;").map
          processEnumField)) := by
  refine ⟨by decide, ?_⟩
  exact (handle_enums_empty_and_rebuild false
    "typedef enum\n\x7b\n  GxB_IS_HYPER = 0,\n  GrB_B = 1\n\x7d GrB_T;").2
    ⟨"typedef enum\n\x7b\n  GxB_IS_HYPER = 0,\n  GrB_B = 1\n\x7d GrB_T;",
      "typedef enum\n\x7b\n  GrB_B = 1\n\x7d GrB_T;"⟩ (by decide)

theorem mem_pySortedBy {α : Type} {key : α → String} {x : α} {l : List α} :
    x ∈ pySortedBy key l ↔ x ∈ l := mem_sortLe

theorem get_groupsWith_eq {e : List String → List String} {t : String}
    {enums : List String} {g : Groups} (h : get_groupsWith e t enums = some g) :
    g = { gxbMethods := pySortedBy sort_key (e (ggV₁ (splitlines t)))
          grbMethods := pySortedBy sort_key (e (ggV₂ (splitlines t)))
          gbMethods := pySortedBy sort_key (e (ggV₃ (splitlines t)))
          grbObjects := pySortedBy sort_key (e (ggV₄ (splitlines t)))
          gxbObjects := pySortedBy sort_key (e (ggV₅ (splitlines t)))
          gxbConst := pySortedBy sort_key (e (ggV₆ (splitlines t)))
          grbConst := pySortedBy sort_key (e (ggV₇ (splitlines t)))
          gxbTypedef := pySortedBy sort_key (e (ggV₈ (splitlines t)))
          grbTypedef := pySortedBy sort_key (e (ggV₉ (splitlines t)))
          grbTypedefEnums := pySortedBy (fun x => sort_key (afterLastBrace x)) (e (ggVE₁ enums))
          gxbTypedefEnums := pySortedBy (fun x => sort_key (afterLastBrace x)) (e (ggVE₂ enums))
          gxbTypedefFuncs := pySortedBy sort_key (e (ggV₁₀ (splitlines t) enums))
          notSeen := pySortedBy sort_key (e (ggNotSeen (splitlines t) enums)) } := by
  rw [get_groupsWith] at h
  split at h
  · exact (Option.some.inj h).symm
  · exact absurd h (by simp)

theorem mem_of_sdiff_filter {p : String → Bool} {s lines : List String} {x : String}
    (h : x ∈ sdiff (pySet (lines.filter p)) s) : x ∈ lines :=
  (List.mem_filter.mp (mem_pySet.mp (mem_sdiff.mp h).1)).1

theorem splitlinesGo_no_newline :
    ∀ (cs acc : List Char), '\n' ∉ acc →
      ∀ x ∈ splitlinesGo cs acc, '\n' ∉ x.data := by
  intro cs
  induction cs with
  | nil =>
    intro acc hacc x hx
    rw [splitlinesGo] at hx
    split at hx
    · cases hx
    · rcases List.mem_singleton.mp hx with rfl
      simp only []
      intro hc
      exact hacc (List.mem_reverse.mp hc)
  | cons c cs ih =>
    intro acc hacc x hx
    rw [splitlinesGo] at hx
    split at hx
    · rename_i hc
      rcases List.mem_cons.mp hx with rfl | hx'
      · simp only []
        intro hmem
        exact hacc (List.mem_reverse.mp hmem)
      · exact ih [] (by simp) x hx'
    · rename_i hc
      refine ih (c :: acc) ?_ x hx
      intro hmem
      rcases List.mem_cons.mp hmem with rfl | hmem'
      · exact hc rfl
      · exact hacc hmem'

theorem splitlines_no_newline {t : String} {x : String} (h : x ∈ splitlines t) :
    '\n' ∉ x.data :=
  splitlinesGo_no_newline t.data [] (by simp) x h

theorem mem_ggVE₁ {enums : List String} {x : String} (h : x ∈ ggVE₁ enums) :
    x ∈ enums ∧ pyIn "\x7d GrB" x = true :=
  List.mem_filter.mp (mem_pySet.mp h)

theorem mem_ggVE₂ {enums : List String} {x : String} (h : x ∈ ggVE₂ enums) :
    x ∈ enums ∧ pyIn "\x7d GxB" x = true :=
  List.mem_filter.mp (mem_pySet.mp h)


/-- The ten proper line groups of `get_groups`, in classification order. -/
def properLineGroups (g : Groups) : List (List String) :=
  [g.gxbMethods, g.grbMethods, g.gbMethods, g.grbObjects, g.gxbObjects,
   g.gxbConst, g.grbConst, g.gxbTypedef, g.grbTypedef, g.gxbTypedefFuncs]

/-- The line groups of `get_groups` including `not seen`. -/
def lineGroups (g : Groups) : List (List String) :=
  properLineGroups g ++ [g.notSeen]

/-- The two enum groups of `get_groups`. -/
def enumGroups (g : Groups) : List (List String) :=
  [g.grbTypedefEnums, g.gxbTypedefEnums]

/-- **C1**: for every processed header and enum-text list accepted by
    `get_groups` without an assertion failure, the returned groups classify
    every line into exactly one group: the thirteen groups are pairwise
    disjoint, every line of the translation-unit text lies in one of the
    line groups or inside one of the grouped enum texts, and a line matching
    no classification bucket lands in `not seen`.  The two hypotheses on
    `enums` state what `c_generator` guarantees for typedef-enum renderings:
    each is multi-line, and none closes with both `} GrB` and `} GxB`. -/
theorem get_groups_classifies (t : String) (enums : List String) (g : Groups)
    (hg : get_groups t enums = some g)
    (hnl : ∀ v ∈ enums, '\n' ∈ v.data)
    (hbr : ∀ v ∈ enums, ¬(pyIn "\x7d GrB" v = true ∧ pyIn "\x7d GxB" v = true)) :
    ((lineGroups g ++ enumGroups g).Pairwise fun A B => ∀ x, x ∈ A → x ∉ B) ∧
    (∀ x ∈ splitlines t,
      (∃ A ∈ lineGroups g, x ∈ A) ∨
      (∃ v, (v ∈ g.grbTypedefEnums ∨ v ∈ g.gxbTypedefEnums) ∧ x ∈ splitlines v)) ∧
    (∀ x ∈ splitlines t,
      (∀ A ∈ properLineGroups g, x ∉ A) →
      (∀ v, v ∈ g.grbTypedefEnums ∨ v ∈ g.gxbTypedefEnums → x ∉ splitlines v) →
      x ∈ g.notSeen) := by
  obtain rfl := get_groupsWith_eq (show get_groupsWith id t enums = some g from hg)
  -- single-step inclusions of the `seen` chain
  have sInc₁ : ∀ x : String, x ∈ ggS₁ (splitlines t) → x ∈ ggS₂ (splitlines t) :=
    fun x h => List.mem_append.mpr (Or.inl h)
  have sInc₂ : ∀ x : String, x ∈ ggS₂ (splitlines t) → x ∈ ggS₃ (splitlines t) :=
    fun x h => List.mem_append.mpr (Or.inl h)
  have sInc₃ : ∀ x : String, x ∈ ggS₃ (splitlines t) → x ∈ ggS₄ (splitlines t) :=
    fun x h => List.mem_append.mpr (Or.inl h)
  have sInc₄ : ∀ x : String, x ∈ ggS₄ (splitlines t) → x ∈ ggS₅ (splitlines t) :=
    fun x h => List.mem_append.mpr (Or.inl h)
  have sInc₅ : ∀ x : String, x ∈ ggS₅ (splitlines t) → x ∈ ggS₆ (splitlines t) :=
    fun x h => List.mem_append.mpr (Or.inl h)
  have sInc₆ : ∀ x : String, x ∈ ggS₆ (splitlines t) → x ∈ ggS₇ (splitlines t) :=
    fun x h => List.mem_append.mpr (Or.inl h)
  have sInc₇ : ∀ x : String, x ∈ ggS₇ (splitlines t) → x ∈ ggS₈ (splitlines t) :=
    fun x h => List.mem_append.mpr (Or.inl h)
  have sInc₈ : ∀ x : String, x ∈ ggS₈ (splitlines t) → x ∈ ggS₉ (splitlines t) :=
    fun x h => List.mem_append.mpr (Or.inl h)
  have sInc₉ : ∀ x : String, x ∈ ggS₉ (splitlines t) → x ∈ ggS₁₀ (splitlines t) enums :=
    fun x h => List.mem_append.mpr (Or.inl h)
  have sInc₁₀ : ∀ x : String, x ∈ ggS₁₀ (splitlines t) enums → x ∈ ggS₁₁ (splitlines t) enums :=
    fun x h => List.mem_append.mpr (Or.inl h)
  have sInc₁₁ : ∀ x : String, x ∈ ggS₁₁ (splitlines t) enums → x ∈ ggS₁₂ (splitlines t) enums :=
    fun x h => List.mem_append.mpr (Or.inl h)
  have vIn₁ : ∀ x : String, x ∈ ggV₁ (splitlines t) → x ∈ ggS₁ (splitlines t) := fun x h => h
  have vIn₂ : ∀ x : String, x ∈ ggV₂ (splitlines t) → x ∈ ggS₂ (splitlines t) :=
    fun x h => List.mem_append.mpr (Or.inr h)
  have vIn₃ : ∀ x : String, x ∈ ggV₃ (splitlines t) → x ∈ ggS₃ (splitlines t) :=
    fun x h => List.mem_append.mpr (Or.inr h)
  have vIn₄ : ∀ x : String, x ∈ ggV₄ (splitlines t) → x ∈ ggS₄ (splitlines t) :=
    fun x h => List.mem_append.mpr (Or.inr h)
  have vIn₅ : ∀ x : String, x ∈ ggV₅ (splitlines t) → x ∈ ggS₅ (splitlines t) :=
    fun x h => List.mem_append.mpr (Or.inr h)
  have vIn₆ : ∀ x : String, x ∈ ggV₆ (splitlines t) → x ∈ ggS₆ (splitlines t) :=
    fun x h => List.mem_append.mpr (Or.inr h)
  have vIn₇ : ∀ x : String, x ∈ ggV₇ (splitlines t) → x ∈ ggS₇ (splitlines t) :=
    fun x h => List.mem_append.mpr (Or.inr h)
  have vIn₈ : ∀ x : String, x ∈ ggV₈ (splitlines t) → x ∈ ggS₈ (splitlines t) :=
    fun x h => List.mem_append.mpr (Or.inr h)
  have vIn₉ : ∀ x : String, x ∈ ggV₉ (splitlines t) → x ∈ ggS₉ (splitlines t) :=
    fun x h => List.mem_append.mpr (Or.inr h)
  have vIn₁₀ : ∀ x : String, x ∈ ggV₁₀ (splitlines t) enums → x ∈ ggS₁₂ (splitlines t) enums :=
    fun x h => List.mem_append.mpr (Or.inr h)
  -- V into every later stage of the chain
  have vS₁_₁ : ∀ x : String, x ∈ ggV₁ (splitlines t) → x ∈ ggS₁ (splitlines t) := vIn₁
  have vS₁_₂ : ∀ x : String, x ∈ ggV₁ (splitlines t) → x ∈ ggS₂ (splitlines t) :=
    fun x h => sInc₁ x (vS₁_₁ x h)
  have vS₁_₃ : ∀ x : String, x ∈ ggV₁ (splitlines t) → x ∈ ggS₃ (splitlines t) :=
    fun x h => sInc₂ x (vS₁_₂ x h)
  have vS₁_₄ : ∀ x : String, x ∈ ggV₁ (splitlines t) → x ∈ ggS₄ (splitlines t) :=
    fun x h => sInc₃ x (vS₁_₃ x h)
  have vS₁_₅ : ∀ x : String, x ∈ ggV₁ (splitlines t) → x ∈ ggS₅ (splitlines t) :=
    fun x h => sInc₄ x (vS₁_₄ x h)
  have vS₁_₆ : ∀ x : String, x ∈ ggV₁ (splitlines t) → x ∈ ggS₆ (splitlines t) :=
    fun x h => sInc₅ x (vS₁_₅ x h)
  have vS₁_₇ : ∀ x : String, x ∈ ggV₁ (splitlines t) → x ∈ ggS₇ (splitlines t) :=
    fun x h => sInc₆ x (vS₁_₆ x h)
  have vS₁_₈ : ∀ x : String, x ∈ ggV₁ (splitlines t) → x ∈ ggS₈ (splitlines t) :=
    fun x h => sInc₇ x (vS₁_₇ x h)
  have vS₁_₉ : ∀ x : String, x ∈ ggV₁ (splitlines t) → x ∈ ggS₉ (splitlines t) :=
    fun x h => sInc₈ x (vS₁_₈ x h)
  have vS₁_₁₀ : ∀ x : String, x ∈ ggV₁ (splitlines t) → x ∈ ggS₁₀ (splitlines t) enums :=
    fun x h => sInc₉ x (vS₁_₉ x h)
  have vS₁_₁₁ : ∀ x : String, x ∈ ggV₁ (splitlines t) → x ∈ ggS₁₁ (splitlines t) enums :=
    fun x h => sInc₁₀ x (vS₁_₁₀ x h)
  have vS₂_₂ : ∀ x : String, x ∈ ggV₂ (splitlines t) → x ∈ ggS₂ (splitlines t) := vIn₂
  have vS₂_₃ : ∀ x : String, x ∈ ggV₂ (splitlines t) → x ∈ ggS₃ (splitlines t) :=
    fun x h => sInc₂ x (vS₂_₂ x h)
  have vS₂_₄ : ∀ x : String, x ∈ ggV₂ (splitlines t) → x ∈ ggS₄ (splitlines t) :=
    fun x h => sInc₃ x (vS₂_₃ x h)
  have vS₂_₅ : ∀ x : String, x ∈ ggV₂ (splitlines t) → x ∈ ggS₅ (splitlines t) :=
    fun x h => sInc₄ x (vS₂_₄ x h)
  have vS₂_₆ : ∀ x : String, x ∈ ggV₂ (splitlines t) → x ∈ ggS₆ (splitlines t) :=
    fun x h => sInc₅ x (vS₂_₅ x h)
  have vS₂_₇ : ∀ x : String, x ∈ ggV₂ (splitlines t) → x ∈ ggS₇ (splitlines t) :=
    fun x h => sInc₆ x (vS₂_₆ x h)
  have vS₂_₈ : ∀ x : String, x ∈ ggV₂ (splitlines t) → x ∈ ggS₈ (splitlines t) :=
    fun x h => sInc₇ x (vS₂_₇ x h)
  have vS₂_₉ : ∀ x : String, x ∈ ggV₂ (splitlines t) → x ∈ ggS₉ (splitlines t) :=
    fun x h => sInc₈ x (vS₂_₈ x h)
  have vS₂_₁₀ : ∀ x : String, x ∈ ggV₂ (splitlines t) → x ∈ ggS₁₀ (splitlines t) enums :=
    fun x h => sInc₉ x (vS₂_₉ x h)
  have vS₂_₁₁ : ∀ x : String, x ∈ ggV₂ (splitlines t) → x ∈ ggS₁₁ (splitlines t) enums :=
    fun x h => sInc₁₀ x (vS₂_₁₀ x h)
  have vS₃_₃ : ∀ x : String, x ∈ ggV₃ (splitlines t) → x ∈ ggS₃ (splitlines t) := vIn₃
  have vS₃_₄ : ∀ x : String, x ∈ ggV₃ (splitlines t) → x ∈ ggS₄ (splitlines t) :=
    fun x h => sInc₃ x (vS₃_₃ x h)
  have vS₃_₅ : ∀ x : String, x ∈ ggV₃ (splitlines t) → x ∈ ggS₅ (splitlines t) :=
    fun x h => sInc₄ x (vS₃_₄ x h)
  have vS₃_₆ : ∀ x : String, x ∈ ggV₃ (splitlines t) → x ∈ ggS₆ (splitlines t) :=
    fun x h => sInc₅ x (vS₃_₅ x h)
  have vS₃_₇ : ∀ x : String, x ∈ ggV₃ (splitlines t) → x ∈ ggS₇ (splitlines t) :=
    fun x h => sInc₆ x (vS₃_₆ x h)
  have vS₃_₈ : ∀ x : String, x ∈ ggV₃ (splitlines t) → x ∈ ggS₈ (splitlines t) :=
    fun x h => sInc₇ x (vS₃_₇ x h)
  have vS₃_₉ : ∀ x : String, x ∈ ggV₃ (splitlines t) → x ∈ ggS₉ (splitlines t) :=
    fun x h => sInc₈ x (vS₃_₈ x h)
  have vS₃_₁₀ : ∀ x : String, x ∈ ggV₃ (splitlines t) → x ∈ ggS₁₀ (splitlines t) enums :=
    fun x h => sInc₉ x (vS₃_₉ x h)
  have vS₃_₁₁ : ∀ x : String, x ∈ ggV₃ (splitlines t) → x ∈ ggS₁₁ (splitlines t) enums :=
    fun x h => sInc₁₀ x (vS₃_₁₀ x h)
  have vS₄_₄ : ∀ x : String, x ∈ ggV₄ (splitlines t) → x ∈ ggS₄ (splitlines t) := vIn₄
  have vS₄_₅ : ∀ x : String, x ∈ ggV₄ (splitlines t) → x ∈ ggS₅ (splitlines t) :=
    fun x h => sInc₄ x (vS₄_₄ x h)
  have vS₄_₆ : ∀ x : String, x ∈ ggV₄ (splitlines t) → x ∈ ggS₆ (splitlines t) :=
    fun x h => sInc₅ x (vS₄_₅ x h)
  have vS₄_₇ : ∀ x : String, x ∈ ggV₄ (splitlines t) → x ∈ ggS₇ (splitlines t) :=
    fun x h => sInc₆ x (vS₄_₆ x h)
  have vS₄_₈ : ∀ x : String, x ∈ ggV₄ (splitlines t) → x ∈ ggS₈ (splitlines t) :=
    fun x h => sInc₇ x (vS₄_₇ x h)
  have vS₄_₉ : ∀ x : String, x ∈ ggV₄ (splitlines t) → x ∈ ggS₉ (splitlines t) :=
    fun x h => sInc₈ x (vS₄_₈ x h)
  have vS₄_₁₀ : ∀ x : String, x ∈ ggV₄ (splitlines t) → x ∈ ggS₁₀ (splitlines t) enums :=
    fun x h => sInc₉ x (vS₄_₉ x h)
  have vS₄_₁₁ : ∀ x : String, x ∈ ggV₄ (splitlines t) → x ∈ ggS₁₁ (splitlines t) enums :=
    fun x h => sInc₁₀ x (vS₄_₁₀ x h)
  have vS₅_₅ : ∀ x : String, x ∈ ggV₅ (splitlines t) → x ∈ ggS₅ (splitlines t) := vIn₅
  have vS₅_₆ : ∀ x : String, x ∈ ggV₅ (splitlines t) → x ∈ ggS₆ (splitlines t) :=
    fun x h => sInc₅ x (vS₅_₅ x h)
  have vS₅_₇ : ∀ x : String, x ∈ ggV₅ (splitlines t) → x ∈ ggS₇ (splitlines t) :=
    fun x h => sInc₆ x (vS₅_₆ x h)
  have vS₅_₈ : ∀ x : String, x ∈ ggV₅ (splitlines t) → x ∈ ggS₈ (splitlines t) :=
    fun x h => sInc₇ x (vS₅_₇ x h)
  have vS₅_₉ : ∀ x : String, x ∈ ggV₅ (splitlines t) → x ∈ ggS₉ (splitlines t) :=
    fun x h => sInc₈ x (vS₅_₈ x h)
  have vS₅_₁₀ : ∀ x : String, x ∈ ggV₅ (splitlines t) → x ∈ ggS₁₀ (splitlines t) enums :=
    fun x h => sInc₉ x (vS₅_₉ x h)
  have vS₅_₁₁ : ∀ x : String, x ∈ ggV₅ (splitlines t) → x ∈ ggS₁₁ (splitlines t) enums :=
    fun x h => sInc₁₀ x (vS₅_₁₀ x h)
  have vS₆_₆ : ∀ x : String, x ∈ ggV₆ (splitlines t) → x ∈ ggS₆ (splitlines t) := vIn₆
  have vS₆_₇ : ∀ x : String, x ∈ ggV₆ (splitlines t) → x ∈ ggS₇ (splitlines t) :=
    fun x h => sInc₆ x (vS₆_₆ x h)
  have vS₆_₈ : ∀ x : String, x ∈ ggV₆ (splitlines t) → x ∈ ggS₈ (splitlines t) :=
    fun x h => sInc₇ x (vS₆_₇ x h)
  have vS₆_₉ : ∀ x : String, x ∈ ggV₆ (splitlines t) → x ∈ ggS₉ (splitlines t) :=
    fun x h => sInc₈ x (vS₆_₈ x h)
  have vS₆_₁₀ : ∀ x : String, x ∈ ggV₆ (splitlines t) → x ∈ ggS₁₀ (splitlines t) enums :=
    fun x h => sInc₉ x (vS₆_₉ x h)
  have vS₆_₁₁ : ∀ x : String, x ∈ ggV₆ (splitlines t) → x ∈ ggS₁₁ (splitlines t) enums :=
    fun x h => sInc₁₀ x (vS₆_₁₀ x h)
  have vS₇_₇ : ∀ x : String, x ∈ ggV₇ (splitlines t) → x ∈ ggS₇ (splitlines t) := vIn₇
  have vS₇_₈ : ∀ x : String, x ∈ ggV₇ (splitlines t) → x ∈ ggS₈ (splitlines t) :=
    fun x h => sInc₇ x (vS₇_₇ x h)
  have vS₇_₉ : ∀ x : String, x ∈ ggV₇ (splitlines t) → x ∈ ggS₉ (splitlines t) :=
    fun x h => sInc₈ x (vS₇_₈ x h)
  have vS₇_₁₀ : ∀ x : String, x ∈ ggV₇ (splitlines t) → x ∈ ggS₁₀ (splitlines t) enums :=
    fun x h => sInc₉ x (vS₇_₉ x h)
  have vS₇_₁₁ : ∀ x : String, x ∈ ggV₇ (splitlines t) → x ∈ ggS₁₁ (splitlines t) enums :=
    fun x h => sInc₁₀ x (vS₇_₁₀ x h)
  have vS₈_₈ : ∀ x : String, x ∈ ggV₈ (splitlines t) → x ∈ ggS₈ (splitlines t) := vIn₈
  have vS₈_₉ : ∀ x : String, x ∈ ggV₈ (splitlines t) → x ∈ ggS₉ (splitlines t) :=
    fun x h => sInc₈ x (vS₈_₈ x h)
  have vS₈_₁₀ : ∀ x : String, x ∈ ggV₈ (splitlines t) → x ∈ ggS₁₀ (splitlines t) enums :=
    fun x h => sInc₉ x (vS₈_₉ x h)
  have vS₈_₁₁ : ∀ x : String, x ∈ ggV₈ (splitlines t) → x ∈ ggS₁₁ (splitlines t) enums :=
    fun x h => sInc₁₀ x (vS₈_₁₀ x h)
  have vS₉_₉ : ∀ x : String, x ∈ ggV₉ (splitlines t) → x ∈ ggS₉ (splitlines t) := vIn₉
  have vS₉_₁₀ : ∀ x : String, x ∈ ggV₉ (splitlines t) → x ∈ ggS₁₀ (splitlines t) enums :=
    fun x h => sInc₉ x (vS₉_₉ x h)
  have vS₉_₁₁ : ∀ x : String, x ∈ ggV₉ (splitlines t) → x ∈ ggS₁₁ (splitlines t) enums :=
    fun x h => sInc₁₀ x (vS₉_₁₀ x h)
  -- each stage excludes everything already seen
  have vNot₂ : ∀ x : String, x ∈ ggV₂ (splitlines t) → x ∉ ggS₁ (splitlines t) :=
    fun x h => (mem_sdiff.mp h).2
  have vNot₃ : ∀ x : String, x ∈ ggV₃ (splitlines t) → x ∉ ggS₂ (splitlines t) :=
    fun x h => (mem_sdiff.mp h).2
  have vNot₄ : ∀ x : String, x ∈ ggV₄ (splitlines t) → x ∉ ggS₃ (splitlines t) :=
    fun x h => (mem_sdiff.mp h).2
  have vNot₅ : ∀ x : String, x ∈ ggV₅ (splitlines t) → x ∉ ggS₄ (splitlines t) :=
    fun x h => (mem_sdiff.mp h).2
  have vNot₆ : ∀ x : String, x ∈ ggV₆ (splitlines t) → x ∉ ggS₅ (splitlines t) :=
    fun x h => (mem_sdiff.mp h).2
  have vNot₇ : ∀ x : String, x ∈ ggV₇ (splitlines t) → x ∉ ggS₆ (splitlines t) :=
    fun x h => (mem_sdiff.mp h).2
  have vNot₈ : ∀ x : String, x ∈ ggV₈ (splitlines t) → x ∉ ggS₇ (splitlines t) :=
    fun x h => (mem_sdiff.mp h).2
  have vNot₉ : ∀ x : String, x ∈ ggV₉ (splitlines t) → x ∉ ggS₈ (splitlines t) :=
    fun x h => (mem_sdiff.mp h).2
  have vNot₁₀ : ∀ x : String, x ∈ ggV₁₀ (splitlines t) enums → x ∉ ggS₁₁ (splitlines t) enums :=
    fun x h => (mem_sdiff.mp h).2
  have vNot₁₁ : ∀ x : String, x ∈ ggNotSeen (splitlines t) enums → x ∉ ggS₁₂ (splitlines t) enums :=
    fun x h => (mem_sdiff.mp h).2
  -- every line group consists of lines of the translation unit
  have vLines₁ : ∀ x : String, x ∈ ggV₁ (splitlines t) → x ∈ splitlines t :=
    fun x h => (List.mem_filter.mp (mem_pySet.mp h)).1
  have vLines₂ : ∀ x : String, x ∈ ggV₂ (splitlines t) → x ∈ splitlines t :=
    fun x h => mem_of_sdiff_filter h
  have vLines₃ : ∀ x : String, x ∈ ggV₃ (splitlines t) → x ∈ splitlines t :=
    fun x h => mem_of_sdiff_filter h
  have vLines₄ : ∀ x : String, x ∈ ggV₄ (splitlines t) → x ∈ splitlines t :=
    fun x h => mem_of_sdiff_filter h
  have vLines₅ : ∀ x : String, x ∈ ggV₅ (splitlines t) → x ∈ splitlines t :=
    fun x h => mem_of_sdiff_filter h
  have vLines₆ : ∀ x : String, x ∈ ggV₆ (splitlines t) → x ∈ splitlines t :=
    fun x h => mem_of_sdiff_filter h
  have vLines₇ : ∀ x : String, x ∈ ggV₇ (splitlines t) → x ∈ splitlines t :=
    fun x h => mem_of_sdiff_filter h
  have vLines₈ : ∀ x : String, x ∈ ggV₈ (splitlines t) → x ∈ splitlines t :=
    fun x h => mem_of_sdiff_filter h
  have vLines₉ : ∀ x : String, x ∈ ggV₉ (splitlines t) → x ∈ splitlines t :=
    fun x h => mem_of_sdiff_filter h
  have vLines₁₀ : ∀ x : String, x ∈ ggV₁₀ (splitlines t) enums → x ∈ splitlines t :=
    fun x h => mem_of_sdiff_filter h
  have vLines₁₁ : ∀ x : String, x ∈ ggNotSeen (splitlines t) enums → x ∈ splitlines t :=
    fun x h => mem_pySet.mp (mem_sdiff.mp h).1
  -- pairwise disjointness of the eleven line groups, via the seen chain
  have d₁_₂ : ∀ x : String, x ∈ ggV₁ (splitlines t) → x ∉ ggV₂ (splitlines t) :=
    fun x hi hj => vNot₂ x hj (vS₁_₁ x hi)
  have d₁_₃ : ∀ x : String, x ∈ ggV₁ (splitlines t) → x ∉ ggV₃ (splitlines t) :=
    fun x hi hj => vNot₃ x hj (vS₁_₂ x hi)
  have d₁_₄ : ∀ x : String, x ∈ ggV₁ (splitlines t) → x ∉ ggV₄ (splitlines t) :=
    fun x hi hj => vNot₄ x hj (vS₁_₃ x hi)
  have d₁_₅ : ∀ x : String, x ∈ ggV₁ (splitlines t) → x ∉ ggV₅ (splitlines t) :=
    fun x hi hj => vNot₅ x hj (vS₁_₄ x hi)
  have d₁_₆ : ∀ x : String, x ∈ ggV₁ (splitlines t) → x ∉ ggV₆ (splitlines t) :=
    fun x hi hj => vNot₆ x hj (vS₁_₅ x hi)
  have d₁_₇ : ∀ x : String, x ∈ ggV₁ (splitlines t) → x ∉ ggV₇ (splitlines t) :=
    fun x hi hj => vNot₇ x hj (vS₁_₆ x hi)
  have d₁_₈ : ∀ x : String, x ∈ ggV₁ (splitlines t) → x ∉ ggV₈ (splitlines t) :=
    fun x hi hj => vNot₈ x hj (vS₁_₇ x hi)
  have d₁_₉ : ∀ x : String, x ∈ ggV₁ (splitlines t) → x ∉ ggV₉ (splitlines t) :=
    fun x hi hj => vNot₉ x hj (vS₁_₈ x hi)
  have d₁_₁₀ : ∀ x : String, x ∈ ggV₁ (splitlines t) → x ∉ ggV₁₀ (splitlines t) enums :=
    fun x hi hj => vNot₁₀ x hj (vS₁_₁₁ x hi)
  have d₁_₁₁ : ∀ x : String, x ∈ ggV₁ (splitlines t) → x ∉ ggNotSeen (splitlines t) enums :=
    fun x hi hj => vNot₁₁ x hj (sInc₁₁ x (vS₁_₁₁ x hi))
  have d₂_₃ : ∀ x : String, x ∈ ggV₂ (splitlines t) → x ∉ ggV₃ (splitlines t) :=
    fun x hi hj => vNot₃ x hj (vS₂_₂ x hi)
  have d₂_₄ : ∀ x : String, x ∈ ggV₂ (splitlines t) → x ∉ ggV₄ (splitlines t) :=
    fun x hi hj => vNot₄ x hj (vS₂_₃ x hi)
  have d₂_₅ : ∀ x : String, x ∈ ggV₂ (splitlines t) → x ∉ ggV₅ (splitlines t) :=
    fun x hi hj => vNot₅ x hj (vS₂_₄ x hi)
  have d₂_₆ : ∀ x : String, x ∈ ggV₂ (splitlines t) → x ∉ ggV₆ (splitlines t) :=
    fun x hi hj => vNot₆ x hj (vS₂_₅ x hi)
  have d₂_₇ : ∀ x : String, x ∈ ggV₂ (splitlines t) → x ∉ ggV₇ (splitlines t) :=
    fun x hi hj => vNot₇ x hj (vS₂_₆ x hi)
  have d₂_₈ : ∀ x : String, x ∈ ggV₂ (splitlines t) → x ∉ ggV₈ (splitlines t) :=
    fun x hi hj => vNot₈ x hj (vS₂_₇ x hi)
  have d₂_₉ : ∀ x : String, x ∈ ggV₂ (splitlines t) → x ∉ ggV₉ (splitlines t) :=
    fun x hi hj => vNot₉ x hj (vS₂_₈ x hi)
  have d₂_₁₀ : ∀ x : String, x ∈ ggV₂ (splitlines t) → x ∉ ggV₁₀ (splitlines t) enums :=
    fun x hi hj => vNot₁₀ x hj (vS₂_₁₁ x hi)
  have d₂_₁₁ : ∀ x : String, x ∈ ggV₂ (splitlines t) → x ∉ ggNotSeen (splitlines t) enums :=
    fun x hi hj => vNot₁₁ x hj (sInc₁₁ x (vS₂_₁₁ x hi))
  have d₃_₄ : ∀ x : String, x ∈ ggV₃ (splitlines t) → x ∉ ggV₄ (splitlines t) :=
    fun x hi hj => vNot₄ x hj (vS₃_₃ x hi)
  have d₃_₅ : ∀ x : String, x ∈ ggV₃ (splitlines t) → x ∉ ggV₅ (splitlines t) :=
    fun x hi hj => vNot₅ x hj (vS₃_₄ x hi)
  have d₃_₆ : ∀ x : String, x ∈ ggV₃ (splitlines t) → x ∉ ggV₆ (splitlines t) :=
    fun x hi hj => vNot₆ x hj (vS₃_₅ x hi)
  have d₃_₇ : ∀ x : String, x ∈ ggV₃ (splitlines t) → x ∉ ggV₇ (splitlines t) :=
    fun x hi hj => vNot₇ x hj (vS₃_₆ x hi)
  have d₃_₈ : ∀ x : String, x ∈ ggV₃ (splitlines t) → x ∉ ggV₈ (splitlines t) :=
    fun x hi hj => vNot₈ x hj (vS₃_₇ x hi)
  have d₃_₉ : ∀ x : String, x ∈ ggV₃ (splitlines t) → x ∉ ggV₉ (splitlines t) :=
    fun x hi hj => vNot₉ x hj (vS₃_₈ x hi)
  have d₃_₁₀ : ∀ x : String, x ∈ ggV₃ (splitlines t) → x ∉ ggV₁₀ (splitlines t) enums :=
    fun x hi hj => vNot₁₀ x hj (vS₃_₁₁ x hi)
  have d₃_₁₁ : ∀ x : String, x ∈ ggV₃ (splitlines t) → x ∉ ggNotSeen (splitlines t) enums :=
    fun x hi hj => vNot₁₁ x hj (sInc₁₁ x (vS₃_₁₁ x hi))
  have d₄_₅ : ∀ x : String, x ∈ ggV₄ (splitlines t) → x ∉ ggV₅ (splitlines t) :=
    fun x hi hj => vNot₅ x hj (vS₄_₄ x hi)
  have d₄_₆ : ∀ x : String, x ∈ ggV₄ (splitlines t) → x ∉ ggV₆ (splitlines t) :=
    fun x hi hj => vNot₆ x hj (vS₄_₅ x hi)
  have d₄_₇ : ∀ x : String, x ∈ ggV₄ (splitlines t) → x ∉ ggV₇ (splitlines t) :=
    fun x hi hj => vNot₇ x hj (vS₄_₆ x hi)
  have d₄_₈ : ∀ x : String, x ∈ ggV₄ (splitlines t) → x ∉ ggV₈ (splitlines t) :=
    fun x hi hj => vNot₈ x hj (vS₄_₇ x hi)
  have d₄_₉ : ∀ x : String, x ∈ ggV₄ (splitlines t) → x ∉ ggV₉ (splitlines t) :=
    fun x hi hj => vNot₉ x hj (vS₄_₈ x hi)
  have d₄_₁₀ : ∀ x : String, x ∈ ggV₄ (splitlines t) → x ∉ ggV₁₀ (splitlines t) enums :=
    fun x hi hj => vNot₁₀ x hj (vS₄_₁₁ x hi)
  have d₄_₁₁ : ∀ x : String, x ∈ ggV₄ (splitlines t) → x ∉ ggNotSeen (splitlines t) enums :=
    fun x hi hj => vNot₁₁ x hj (sInc₁₁ x (vS₄_₁₁ x hi))
  have d₅_₆ : ∀ x : String, x ∈ ggV₅ (splitlines t) → x ∉ ggV₆ (splitlines t) :=
    fun x hi hj => vNot₆ x hj (vS₅_₅ x hi)
  have d₅_₇ : ∀ x : String, x ∈ ggV₅ (splitlines t) → x ∉ ggV₇ (splitlines t) :=
    fun x hi hj => vNot₇ x hj (vS₅_₆ x hi)
  have d₅_₈ : ∀ x : String, x ∈ ggV₅ (splitlines t) → x ∉ ggV₈ (splitlines t) :=
    fun x hi hj => vNot₈ x hj (vS₅_₇ x hi)
  have d₅_₉ : ∀ x : String, x ∈ ggV₅ (splitlines t) → x ∉ ggV₉ (splitlines t) :=
    fun x hi hj => vNot₉ x hj (vS₅_₈ x hi)
  have d₅_₁₀ : ∀ x : String, x ∈ ggV₅ (splitlines t) → x ∉ ggV₁₀ (splitlines t) enums :=
    fun x hi hj => vNot₁₀ x hj (vS₅_₁₁ x hi)
  have d₅_₁₁ : ∀ x : String, x ∈ ggV₅ (splitlines t) → x ∉ ggNotSeen (splitlines t) enums :=
    fun x hi hj => vNot₁₁ x hj (sInc₁₁ x (vS₅_₁₁ x hi))
  have d₆_₇ : ∀ x : String, x ∈ ggV₆ (splitlines t) → x ∉ ggV₇ (splitlines t) :=
    fun x hi hj => vNot₇ x hj (vS₆_₆ x hi)
  have d₆_₈ : ∀ x : String, x ∈ ggV₆ (splitlines t) → x ∉ ggV₈ (splitlines t) :=
    fun x hi hj => vNot₈ x hj (vS₆_₇ x hi)
  have d₆_₉ : ∀ x : String, x ∈ ggV₆ (splitlines t) → x ∉ ggV₉ (splitlines t) :=
    fun x hi hj => vNot₉ x hj (vS₆_₈ x hi)
  have d₆_₁₀ : ∀ x : String, x ∈ ggV₆ (splitlines t) → x ∉ ggV₁₀ (splitlines t) enums :=
    fun x hi hj => vNot₁₀ x hj (vS₆_₁₁ x hi)
  have d₆_₁₁ : ∀ x : String, x ∈ ggV₆ (splitlines t) → x ∉ ggNotSeen (splitlines t) enums :=
    fun x hi hj => vNot₁₁ x hj (sInc₁₁ x (vS₆_₁₁ x hi))
  have d₇_₈ : ∀ x : String, x ∈ ggV₇ (splitlines t) → x ∉ ggV₈ (splitlines t) :=
    fun x hi hj => vNot₈ x hj (vS₇_₇ x hi)
  have d₇_₉ : ∀ x : String, x ∈ ggV₇ (splitlines t) → x ∉ ggV₉ (splitlines t) :=
    fun x hi hj => vNot₉ x hj (vS₇_₈ x hi)
  have d₇_₁₀ : ∀ x : String, x ∈ ggV₇ (splitlines t) → x ∉ ggV₁₀ (splitlines t) enums :=
    fun x hi hj => vNot₁₀ x hj (vS₇_₁₁ x hi)
  have d₇_₁₁ : ∀ x : String, x ∈ ggV₇ (splitlines t) → x ∉ ggNotSeen (splitlines t) enums :=
    fun x hi hj => vNot₁₁ x hj (sInc₁₁ x (vS₇_₁₁ x hi))
  have d₈_₉ : ∀ x : String, x ∈ ggV₈ (splitlines t) → x ∉ ggV₉ (splitlines t) :=
    fun x hi hj => vNot₉ x hj (vS₈_₈ x hi)
  have d₈_₁₀ : ∀ x : String, x ∈ ggV₈ (splitlines t) → x ∉ ggV₁₀ (splitlines t) enums :=
    fun x hi hj => vNot₁₀ x hj (vS₈_₁₁ x hi)
  have d₈_₁₁ : ∀ x : String, x ∈ ggV₈ (splitlines t) → x ∉ ggNotSeen (splitlines t) enums :=
    fun x hi hj => vNot₁₁ x hj (sInc₁₁ x (vS₈_₁₁ x hi))
  have d₉_₁₀ : ∀ x : String, x ∈ ggV₉ (splitlines t) → x ∉ ggV₁₀ (splitlines t) enums :=
    fun x hi hj => vNot₁₀ x hj (vS₉_₁₁ x hi)
  have d₉_₁₁ : ∀ x : String, x ∈ ggV₉ (splitlines t) → x ∉ ggNotSeen (splitlines t) enums :=
    fun x hi hj => vNot₁₁ x hj (sInc₁₁ x (vS₉_₁₁ x hi))
  have d₁₀_₁₁ : ∀ x : String, x ∈ ggV₁₀ (splitlines t) enums → x ∉ ggNotSeen (splitlines t) enums :=
    fun x hi hj => vNot₁₁ x hj (vIn₁₀ x hi)
  -- same facts lifted through the key-sort
  have D₁_₂ : ∀ x : String, x ∈ pySortedBy sort_key (id (ggV₁ (splitlines t))) → x ∉ pySortedBy sort_key (id (ggV₂ (splitlines t))) :=
    fun x hx hy => d₁_₂ x (mem_pySortedBy.mp hx) (mem_pySortedBy.mp hy)
  have D₁_₃ : ∀ x : String, x ∈ pySortedBy sort_key (id (ggV₁ (splitlines t))) → x ∉ pySortedBy sort_key (id (ggV₃ (splitlines t))) :=
    fun x hx hy => d₁_₃ x (mem_pySortedBy.mp hx) (mem_pySortedBy.mp hy)
  have D₁_₄ : ∀ x : String, x ∈ pySortedBy sort_key (id (ggV₁ (splitlines t))) → x ∉ pySortedBy sort_key (id (ggV₄ (splitlines t))) :=
    fun x hx hy => d₁_₄ x (mem_pySortedBy.mp hx) (mem_pySortedBy.mp hy)
  have D₁_₅ : ∀ x : String, x ∈ pySortedBy sort_key (id (ggV₁ (splitlines t))) → x ∉ pySortedBy sort_key (id (ggV₅ (splitlines t))) :=
    fun x hx hy => d₁_₅ x (mem_pySortedBy.mp hx) (mem_pySortedBy.mp hy)
  have D₁_₆ : ∀ x : String, x ∈ pySortedBy sort_key (id (ggV₁ (splitlines t))) → x ∉ pySortedBy sort_key (id (ggV₆ (splitlines t))) :=
    fun x hx hy => d₁_₆ x (mem_pySortedBy.mp hx) (mem_pySortedBy.mp hy)
  have D₁_₇ : ∀ x : String, x ∈ pySortedBy sort_key (id (ggV₁ (splitlines t))) → x ∉ pySortedBy sort_key (id (ggV₇ (splitlines t))) :=
    fun x hx hy => d₁_₇ x (mem_pySortedBy.mp hx) (mem_pySortedBy.mp hy)
  have D₁_₈ : ∀ x : String, x ∈ pySortedBy sort_key (id (ggV₁ (splitlines t))) → x ∉ pySortedBy sort_key (id (ggV₈ (splitlines t))) :=
    fun x hx hy => d₁_₈ x (mem_pySortedBy.mp hx) (mem_pySortedBy.mp hy)
  have D₁_₉ : ∀ x : String, x ∈ pySortedBy sort_key (id (ggV₁ (splitlines t))) → x ∉ pySortedBy sort_key (id (ggV₉ (splitlines t))) :=
    fun x hx hy => d₁_₉ x (mem_pySortedBy.mp hx) (mem_pySortedBy.mp hy)
  have D₁_₁₀ : ∀ x : String, x ∈ pySortedBy sort_key (id (ggV₁ (splitlines t))) → x ∉ pySortedBy sort_key (id (ggV₁₀ (splitlines t) enums)) :=
    fun x hx hy => d₁_₁₀ x (mem_pySortedBy.mp hx) (mem_pySortedBy.mp hy)
  have D₁_₁₁ : ∀ x : String, x ∈ pySortedBy sort_key (id (ggV₁ (splitlines t))) → x ∉ pySortedBy sort_key (id (ggNotSeen (splitlines t) enums)) :=
    fun x hx hy => d₁_₁₁ x (mem_pySortedBy.mp hx) (mem_pySortedBy.mp hy)
  have D₂_₃ : ∀ x : String, x ∈ pySortedBy sort_key (id (ggV₂ (splitlines t))) → x ∉ pySortedBy sort_key (id (ggV₃ (splitlines t))) :=
    fun x hx hy => d₂_₃ x (mem_pySortedBy.mp hx) (mem_pySortedBy.mp hy)
  have D₂_₄ : ∀ x : String, x ∈ pySortedBy sort_key (id (ggV₂ (splitlines t))) → x ∉ pySortedBy sort_key (id (ggV₄ (splitlines t))) :=
    fun x hx hy => d₂_₄ x (mem_pySortedBy.mp hx) (mem_pySortedBy.mp hy)
  have D₂_₅ : ∀ x : String, x ∈ pySortedBy sort_key (id (ggV₂ (splitlines t))) → x ∉ pySortedBy sort_key (id (ggV₅ (splitlines t))) :=
    fun x hx hy => d₂_₅ x (mem_pySortedBy.mp hx) (mem_pySortedBy.mp hy)
  have D₂_₆ : ∀ x : String, x ∈ pySortedBy sort_key (id (ggV₂ (splitlines t))) → x ∉ pySortedBy sort_key (id (ggV₆ (splitlines t))) :=
    fun x hx hy => d₂_₆ x (mem_pySortedBy.mp hx) (mem_pySortedBy.mp hy)
  have D₂_₇ : ∀ x : String, x ∈ pySortedBy sort_key (id (ggV₂ (splitlines t))) → x ∉ pySortedBy sort_key (id (ggV₇ (splitlines t))) :=
    fun x hx hy => d₂_₇ x (mem_pySortedBy.mp hx) (mem_pySortedBy.mp hy)
  have D₂_₈ : ∀ x : String, x ∈ pySortedBy sort_key (id (ggV₂ (splitlines t))) → x ∉ pySortedBy sort_key (id (ggV₈ (splitlines t))) :=
    fun x hx hy => d₂_₈ x (mem_pySortedBy.mp hx) (mem_pySortedBy.mp hy)
  have D₂_₉ : ∀ x : String, x ∈ pySortedBy sort_key (id (ggV₂ (splitlines t))) → x ∉ pySortedBy sort_key (id (ggV₉ (splitlines t))) :=
    fun x hx hy => d₂_₉ x (mem_pySortedBy.mp hx) (mem_pySortedBy.mp hy)
  have D₂_₁₀ : ∀ x : String, x ∈ pySortedBy sort_key (id (ggV₂ (splitlines t))) → x ∉ pySortedBy sort_key (id (ggV₁₀ (splitlines t) enums)) :=
    fun x hx hy => d₂_₁₀ x (mem_pySortedBy.mp hx) (mem_pySortedBy.mp hy)
  have D₂_₁₁ : ∀ x : String, x ∈ pySortedBy sort_key (id (ggV₂ (splitlines t))) → x ∉ pySortedBy sort_key (id (ggNotSeen (splitlines t) enums)) :=
    fun x hx hy => d₂_₁₁ x (mem_pySortedBy.mp hx) (mem_pySortedBy.mp hy)
  have D₃_₄ : ∀ x : String, x ∈ pySortedBy sort_key (id (ggV₃ (splitlines t))) → x ∉ pySortedBy sort_key (id (ggV₄ (splitlines t))) :=
    fun x hx hy => d₃_₄ x (mem_pySortedBy.mp hx) (mem_pySortedBy.mp hy)
  have D₃_₅ : ∀ x : String, x ∈ pySortedBy sort_key (id (ggV₃ (splitlines t))) → x ∉ pySortedBy sort_key (id (ggV₅ (splitlines t))) :=
    fun x hx hy => d₃_₅ x (mem_pySortedBy.mp hx) (mem_pySortedBy.mp hy)
  have D₃_₆ : ∀ x : String, x ∈ pySortedBy sort_key (id (ggV₃ (splitlines t))) → x ∉ pySortedBy sort_key (id (ggV₆ (splitlines t))) :=
    fun x hx hy => d₃_₆ x (mem_pySortedBy.mp hx) (mem_pySortedBy.mp hy)
  have D₃_₇ : ∀ x : String, x ∈ pySortedBy sort_key (id (ggV₃ (splitlines t))) → x ∉ pySortedBy sort_key (id (ggV₇ (splitlines t))) :=
    fun x hx hy => d₃_₇ x (mem_pySortedBy.mp hx) (mem_pySortedBy.mp hy)
  have D₃_₈ : ∀ x : String, x ∈ pySortedBy sort_key (id (ggV₃ (splitlines t))) → x ∉ pySortedBy sort_key (id (ggV₈ (splitlines t))) :=
    fun x hx hy => d₃_₈ x (mem_pySortedBy.mp hx) (mem_pySortedBy.mp hy)
  have D₃_₉ : ∀ x : String, x ∈ pySortedBy sort_key (id (ggV₃ (splitlines t))) → x ∉ pySortedBy sort_key (id (ggV₉ (splitlines t))) :=
    fun x hx hy => d₃_₉ x (mem_pySortedBy.mp hx) (mem_pySortedBy.mp hy)
  have D₃_₁₀ : ∀ x : String, x ∈ pySortedBy sort_key (id (ggV₃ (splitlines t))) → x ∉ pySortedBy sort_key (id (ggV₁₀ (splitlines t) enums)) :=
    fun x hx hy => d₃_₁₀ x (mem_pySortedBy.mp hx) (mem_pySortedBy.mp hy)
  have D₃_₁₁ : ∀ x : String, x ∈ pySortedBy sort_key (id (ggV₃ (splitlines t))) → x ∉ pySortedBy sort_key (id (ggNotSeen (splitlines t) enums)) :=
    fun x hx hy => d₃_₁₁ x (mem_pySortedBy.mp hx) (mem_pySortedBy.mp hy)
  have D₄_₅ : ∀ x : String, x ∈ pySortedBy sort_key (id (ggV₄ (splitlines t))) → x ∉ pySortedBy sort_key (id (ggV₅ (splitlines t))) :=
    fun x hx hy => d₄_₅ x (mem_pySortedBy.mp hx) (mem_pySortedBy.mp hy)
  have D₄_₆ : ∀ x : String, x ∈ pySortedBy sort_key (id (ggV₄ (splitlines t))) → x ∉ pySortedBy sort_key (id (ggV₆ (splitlines t))) :=
    fun x hx hy => d₄_₆ x (mem_pySortedBy.mp hx) (mem_pySortedBy.mp hy)
  have D₄_₇ : ∀ x : String, x ∈ pySortedBy sort_key (id (ggV₄ (splitlines t))) → x ∉ pySortedBy sort_key (id (ggV₇ (splitlines t))) :=
    fun x hx hy => d₄_₇ x (mem_pySortedBy.mp hx) (mem_pySortedBy.mp hy)
  have D₄_₈ : ∀ x : String, x ∈ pySortedBy sort_key (id (ggV₄ (splitlines t))) → x ∉ pySortedBy sort_key (id (ggV₈ (splitlines t))) :=
    fun x hx hy => d₄_₈ x (mem_pySortedBy.mp hx) (mem_pySortedBy.mp hy)
  have D₄_₉ : ∀ x : String, x ∈ pySortedBy sort_key (id (ggV₄ (splitlines t))) → x ∉ pySortedBy sort_key (id (ggV₉ (splitlines t))) :=
    fun x hx hy => d₄_₉ x (mem_pySortedBy.mp hx) (mem_pySortedBy.mp hy)
  have D₄_₁₀ : ∀ x : String, x ∈ pySortedBy sort_key (id (ggV₄ (splitlines t))) → x ∉ pySortedBy sort_key (id (ggV₁₀ (splitlines t) enums)) :=
    fun x hx hy => d₄_₁₀ x (mem_pySortedBy.mp hx) (mem_pySortedBy.mp hy)
  have D₄_₁₁ : ∀ x : String, x ∈ pySortedBy sort_key (id (ggV₄ (splitlines t))) → x ∉ pySortedBy sort_key (id (ggNotSeen (splitlines t) enums)) :=
    fun x hx hy => d₄_₁₁ x (mem_pySortedBy.mp hx) (mem_pySortedBy.mp hy)
  have D₅_₆ : ∀ x : String, x ∈ pySortedBy sort_key (id (ggV₅ (splitlines t))) → x ∉ pySortedBy sort_key (id (ggV₆ (splitlines t))) :=
    fun x hx hy => d₅_₆ x (mem_pySortedBy.mp hx) (mem_pySortedBy.mp hy)
  have D₅_₇ : ∀ x : String, x ∈ pySortedBy sort_key (id (ggV₅ (splitlines t))) → x ∉ pySortedBy sort_key (id (ggV₇ (splitlines t))) :=
    fun x hx hy => d₅_₇ x (mem_pySortedBy.mp hx) (mem_pySortedBy.mp hy)
  have D₅_₈ : ∀ x : String, x ∈ pySortedBy sort_key (id (ggV₅ (splitlines t))) → x ∉ pySortedBy sort_key (id (ggV₈ (splitlines t))) :=
    fun x hx hy => d₅_₈ x (mem_pySortedBy.mp hx) (mem_pySortedBy.mp hy)
  have D₅_₉ : ∀ x : String, x ∈ pySortedBy sort_key (id (ggV₅ (splitlines t))) → x ∉ pySortedBy sort_key (id (ggV₉ (splitlines t))) :=
    fun x hx hy => d₅_₉ x (mem_pySortedBy.mp hx) (mem_pySortedBy.mp hy)
  have D₅_₁₀ : ∀ x : String, x ∈ pySortedBy sort_key (id (ggV₅ (splitlines t))) → x ∉ pySortedBy sort_key (id (ggV₁₀ (splitlines t) enums)) :=
    fun x hx hy => d₅_₁₀ x (mem_pySortedBy.mp hx) (mem_pySortedBy.mp hy)
  have D₅_₁₁ : ∀ x : String, x ∈ pySortedBy sort_key (id (ggV₅ (splitlines t))) → x ∉ pySortedBy sort_key (id (ggNotSeen (splitlines t) enums)) :=
    fun x hx hy => d₅_₁₁ x (mem_pySortedBy.mp hx) (mem_pySortedBy.mp hy)
  have D₆_₇ : ∀ x : String, x ∈ pySortedBy sort_key (id (ggV₆ (splitlines t))) → x ∉ pySortedBy sort_key (id (ggV₇ (splitlines t))) :=
    fun x hx hy => d₆_₇ x (mem_pySortedBy.mp hx) (mem_pySortedBy.mp hy)
  have D₆_₈ : ∀ x : String, x ∈ pySortedBy sort_key (id (ggV₆ (splitlines t))) → x ∉ pySortedBy sort_key (id (ggV₈ (splitlines t))) :=
    fun x hx hy => d₆_₈ x (mem_pySortedBy.mp hx) (mem_pySortedBy.mp hy)
  have D₆_₉ : ∀ x : String, x ∈ pySortedBy sort_key (id (ggV₆ (splitlines t))) → x ∉ pySortedBy sort_key (id (ggV₉ (splitlines t))) :=
    fun x hx hy => d₆_₉ x (mem_pySortedBy.mp hx) (mem_pySortedBy.mp hy)
  have D₆_₁₀ : ∀ x : String, x ∈ pySortedBy sort_key (id (ggV₆ (splitlines t))) → x ∉ pySortedBy sort_key (id (ggV₁₀ (splitlines t) enums)) :=
    fun x hx hy => d₆_₁₀ x (mem_pySortedBy.mp hx) (mem_pySortedBy.mp hy)
  have D₆_₁₁ : ∀ x : String, x ∈ pySortedBy sort_key (id (ggV₆ (splitlines t))) → x ∉ pySortedBy sort_key (id (ggNotSeen (splitlines t) enums)) :=
    fun x hx hy => d₆_₁₁ x (mem_pySortedBy.mp hx) (mem_pySortedBy.mp hy)
  have D₇_₈ : ∀ x : String, x ∈ pySortedBy sort_key (id (ggV₇ (splitlines t))) → x ∉ pySortedBy sort_key (id (ggV₈ (splitlines t))) :=
    fun x hx hy => d₇_₈ x (mem_pySortedBy.mp hx) (mem_pySortedBy.mp hy)
  have D₇_₉ : ∀ x : String, x ∈ pySortedBy sort_key (id (ggV₇ (splitlines t))) → x ∉ pySortedBy sort_key (id (ggV₉ (splitlines t))) :=
    fun x hx hy => d₇_₉ x (mem_pySortedBy.mp hx) (mem_pySortedBy.mp hy)
  have D₇_₁₀ : ∀ x : String, x ∈ pySortedBy sort_key (id (ggV₇ (splitlines t))) → x ∉ pySortedBy sort_key (id (ggV₁₀ (splitlines t) enums)) :=
    fun x hx hy => d₇_₁₀ x (mem_pySortedBy.mp hx) (mem_pySortedBy.mp hy)
  have D₇_₁₁ : ∀ x : String, x ∈ pySortedBy sort_key (id (ggV₇ (splitlines t))) → x ∉ pySortedBy sort_key (id (ggNotSeen (splitlines t) enums)) :=
    fun x hx hy => d₇_₁₁ x (mem_pySortedBy.mp hx) (mem_pySortedBy.mp hy)
  have D₈_₉ : ∀ x : String, x ∈ pySortedBy sort_key (id (ggV₈ (splitlines t))) → x ∉ pySortedBy sort_key (id (ggV₉ (splitlines t))) :=
    fun x hx hy => d₈_₉ x (mem_pySortedBy.mp hx) (mem_pySortedBy.mp hy)
  have D₈_₁₀ : ∀ x : String, x ∈ pySortedBy sort_key (id (ggV₈ (splitlines t))) → x ∉ pySortedBy sort_key (id (ggV₁₀ (splitlines t) enums)) :=
    fun x hx hy => d₈_₁₀ x (mem_pySortedBy.mp hx) (mem_pySortedBy.mp hy)
  have D₈_₁₁ : ∀ x : String, x ∈ pySortedBy sort_key (id (ggV₈ (splitlines t))) → x ∉ pySortedBy sort_key (id (ggNotSeen (splitlines t) enums)) :=
    fun x hx hy => d₈_₁₁ x (mem_pySortedBy.mp hx) (mem_pySortedBy.mp hy)
  have D₉_₁₀ : ∀ x : String, x ∈ pySortedBy sort_key (id (ggV₉ (splitlines t))) → x ∉ pySortedBy sort_key (id (ggV₁₀ (splitlines t) enums)) :=
    fun x hx hy => d₉_₁₀ x (mem_pySortedBy.mp hx) (mem_pySortedBy.mp hy)
  have D₉_₁₁ : ∀ x : String, x ∈ pySortedBy sort_key (id (ggV₉ (splitlines t))) → x ∉ pySortedBy sort_key (id (ggNotSeen (splitlines t) enums)) :=
    fun x hx hy => d₉_₁₁ x (mem_pySortedBy.mp hx) (mem_pySortedBy.mp hy)
  have D₁₀_₁₁ : ∀ x : String, x ∈ pySortedBy sort_key (id (ggV₁₀ (splitlines t) enums)) → x ∉ pySortedBy sort_key (id (ggNotSeen (splitlines t) enums)) :=
    fun x hx hy => d₁₀_₁₁ x (mem_pySortedBy.mp hx) (mem_pySortedBy.mp hy)
  -- line groups and enum groups are disjoint: lines have no newline
  have D₁_₁₂ : ∀ x : String, x ∈ pySortedBy sort_key (id (ggV₁ (splitlines t))) → x ∉ pySortedBy (fun x => sort_key (afterLastBrace x)) (id (ggVE₁ enums)) :=
    fun x hx hy => splitlines_no_newline (vLines₁ x (mem_pySortedBy.mp hx))
      (hnl x (mem_ggVE₁ (mem_pySortedBy.mp hy)).1)
  have D₁_₁₃ : ∀ x : String, x ∈ pySortedBy sort_key (id (ggV₁ (splitlines t))) → x ∉ pySortedBy (fun x => sort_key (afterLastBrace x)) (id (ggVE₂ enums)) :=
    fun x hx hy => splitlines_no_newline (vLines₁ x (mem_pySortedBy.mp hx))
      (hnl x (mem_ggVE₂ (mem_pySortedBy.mp hy)).1)
  have D₂_₁₂ : ∀ x : String, x ∈ pySortedBy sort_key (id (ggV₂ (splitlines t))) → x ∉ pySortedBy (fun x => sort_key (afterLastBrace x)) (id (ggVE₁ enums)) :=
    fun x hx hy => splitlines_no_newline (vLines₂ x (mem_pySortedBy.mp hx))
      (hnl x (mem_ggVE₁ (mem_pySortedBy.mp hy)).1)
  have D₂_₁₃ : ∀ x : String, x ∈ pySortedBy sort_key (id (ggV₂ (splitlines t))) → x ∉ pySortedBy (fun x => sort_key (afterLastBrace x)) (id (ggVE₂ enums)) :=
    fun x hx hy => splitlines_no_newline (vLines₂ x (mem_pySortedBy.mp hx))
      (hnl x (mem_ggVE₂ (mem_pySortedBy.mp hy)).1)
  have D₃_₁₂ : ∀ x : String, x ∈ pySortedBy sort_key (id (ggV₃ (splitlines t))) → x ∉ pySortedBy (fun x => sort_key (afterLastBrace x)) (id (ggVE₁ enums)) :=
    fun x hx hy => splitlines_no_newline (vLines₃ x (mem_pySortedBy.mp hx))
      (hnl x (mem_ggVE₁ (mem_pySortedBy.mp hy)).1)
  have D₃_₁₃ : ∀ x : String, x ∈ pySortedBy sort_key (id (ggV₃ (splitlines t))) → x ∉ pySortedBy (fun x => sort_key (afterLastBrace x)) (id (ggVE₂ enums)) :=
    fun x hx hy => splitlines_no_newline (vLines₃ x (mem_pySortedBy.mp hx))
      (hnl x (mem_ggVE₂ (mem_pySortedBy.mp hy)).1)
  have D₄_₁₂ : ∀ x : String, x ∈ pySortedBy sort_key (id (ggV₄ (splitlines t))) → x ∉ pySortedBy (fun x => sort_key (afterLastBrace x)) (id (ggVE₁ enums)) :=
    fun x hx hy => splitlines_no_newline (vLines₄ x (mem_pySortedBy.mp hx))
      (hnl x (mem_ggVE₁ (mem_pySortedBy.mp hy)).1)
  have D₄_₁₃ : ∀ x : String, x ∈ pySortedBy sort_key (id (ggV₄ (splitlines t))) → x ∉ pySortedBy (fun x => sort_key (afterLastBrace x)) (id (ggVE₂ enums)) :=
    fun x hx hy => splitlines_no_newline (vLines₄ x (mem_pySortedBy.mp hx))
      (hnl x (mem_ggVE₂ (mem_pySortedBy.mp hy)).1)
  have D₅_₁₂ : ∀ x : String, x ∈ pySortedBy sort_key (id (ggV₅ (splitlines t))) → x ∉ pySortedBy (fun x => sort_key (afterLastBrace x)) (id (ggVE₁ enums)) :=
    fun x hx hy => splitlines_no_newline (vLines₅ x (mem_pySortedBy.mp hx))
      (hnl x (mem_ggVE₁ (mem_pySortedBy.mp hy)).1)
  have D₅_₁₃ : ∀ x : String, x ∈ pySortedBy sort_key (id (ggV₅ (splitlines t))) → x ∉ pySortedBy (fun x => sort_key (afterLastBrace x)) (id (ggVE₂ enums)) :=
    fun x hx hy => splitlines_no_newline (vLines₅ x (mem_pySortedBy.mp hx))
      (hnl x (mem_ggVE₂ (mem_pySortedBy.mp hy)).1)
  have D₆_₁₂ : ∀ x : String, x ∈ pySortedBy sort_key (id (ggV₆ (splitlines t))) → x ∉ pySortedBy (fun x => sort_key (afterLastBrace x)) (id (ggVE₁ enums)) :=
    fun x hx hy => splitlines_no_newline (vLines₆ x (mem_pySortedBy.mp hx))
      (hnl x (mem_ggVE₁ (mem_pySortedBy.mp hy)).1)
  have D₆_₁₃ : ∀ x : String, x ∈ pySortedBy sort_key (id (ggV₆ (splitlines t))) → x ∉ pySortedBy (fun x => sort_key (afterLastBrace x)) (id (ggVE₂ enums)) :=
    fun x hx hy => splitlines_no_newline (vLines₆ x (mem_pySortedBy.mp hx))
      (hnl x (mem_ggVE₂ (mem_pySortedBy.mp hy)).1)
  have D₇_₁₂ : ∀ x : String, x ∈ pySortedBy sort_key (id (ggV₇ (splitlines t))) → x ∉ pySortedBy (fun x => sort_key (afterLastBrace x)) (id (ggVE₁ enums)) :=
    fun x hx hy => splitlines_no_newline (vLines₇ x (mem_pySortedBy.mp hx))
      (hnl x (mem_ggVE₁ (mem_pySortedBy.mp hy)).1)
  have D₇_₁₃ : ∀ x : String, x ∈ pySortedBy sort_key (id (ggV₇ (splitlines t))) → x ∉ pySortedBy (fun x => sort_key (afterLastBrace x)) (id (ggVE₂ enums)) :=
    fun x hx hy => splitlines_no_newline (vLines₇ x (mem_pySortedBy.mp hx))
      (hnl x (mem_ggVE₂ (mem_pySortedBy.mp hy)).1)
  have D₈_₁₂ : ∀ x : String, x ∈ pySortedBy sort_key (id (ggV₈ (splitlines t))) → x ∉ pySortedBy (fun x => sort_key (afterLastBrace x)) (id (ggVE₁ enums)) :=
    fun x hx hy => splitlines_no_newline (vLines₈ x (mem_pySortedBy.mp hx))
      (hnl x (mem_ggVE₁ (mem_pySortedBy.mp hy)).1)
  have D₈_₁₃ : ∀ x : String, x ∈ pySortedBy sort_key (id (ggV₈ (splitlines t))) → x ∉ pySortedBy (fun x => sort_key (afterLastBrace x)) (id (ggVE₂ enums)) :=
    fun x hx hy => splitlines_no_newline (vLines₈ x (mem_pySortedBy.mp hx))
      (hnl x (mem_ggVE₂ (mem_pySortedBy.mp hy)).1)
  have D₉_₁₂ : ∀ x : String, x ∈ pySortedBy sort_key (id (ggV₉ (splitlines t))) → x ∉ pySortedBy (fun x => sort_key (afterLastBrace x)) (id (ggVE₁ enums)) :=
    fun x hx hy => splitlines_no_newline (vLines₉ x (mem_pySortedBy.mp hx))
      (hnl x (mem_ggVE₁ (mem_pySortedBy.mp hy)).1)
  have D₉_₁₃ : ∀ x : String, x ∈ pySortedBy sort_key (id (ggV₉ (splitlines t))) → x ∉ pySortedBy (fun x => sort_key (afterLastBrace x)) (id (ggVE₂ enums)) :=
    fun x hx hy => splitlines_no_newline (vLines₉ x (mem_pySortedBy.mp hx))
      (hnl x (mem_ggVE₂ (mem_pySortedBy.mp hy)).1)
  have D₁₀_₁₂ : ∀ x : String, x ∈ pySortedBy sort_key (id (ggV₁₀ (splitlines t) enums)) → x ∉ pySortedBy (fun x => sort_key (afterLastBrace x)) (id (ggVE₁ enums)) :=
    fun x hx hy => splitlines_no_newline (vLines₁₀ x (mem_pySortedBy.mp hx))
      (hnl x (mem_ggVE₁ (mem_pySortedBy.mp hy)).1)
  have D₁₀_₁₃ : ∀ x : String, x ∈ pySortedBy sort_key (id (ggV₁₀ (splitlines t) enums)) → x ∉ pySortedBy (fun x => sort_key (afterLastBrace x)) (id (ggVE₂ enums)) :=
    fun x hx hy => splitlines_no_newline (vLines₁₀ x (mem_pySortedBy.mp hx))
      (hnl x (mem_ggVE₂ (mem_pySortedBy.mp hy)).1)
  have D₁₁_₁₂ : ∀ x : String, x ∈ pySortedBy sort_key (id (ggNotSeen (splitlines t) enums)) → x ∉ pySortedBy (fun x => sort_key (afterLastBrace x)) (id (ggVE₁ enums)) :=
    fun x hx hy => splitlines_no_newline (vLines₁₁ x (mem_pySortedBy.mp hx))
      (hnl x (mem_ggVE₁ (mem_pySortedBy.mp hy)).1)
  have D₁₁_₁₃ : ∀ x : String, x ∈ pySortedBy sort_key (id (ggNotSeen (splitlines t) enums)) → x ∉ pySortedBy (fun x => sort_key (afterLastBrace x)) (id (ggVE₂ enums)) :=
    fun x hx hy => splitlines_no_newline (vLines₁₁ x (mem_pySortedBy.mp hx))
      (hnl x (mem_ggVE₂ (mem_pySortedBy.mp hy)).1)
  have D₁₂_₁₃ : ∀ x : String, x ∈ pySortedBy (fun x => sort_key (afterLastBrace x)) (id (ggVE₁ enums)) → x ∉ pySortedBy (fun x => sort_key (afterLastBrace x)) (id (ggVE₂ enums)) :=
    fun x hx hy => hbr x (mem_ggVE₁ (mem_pySortedBy.mp hx)).1
      ⟨(mem_ggVE₁ (mem_pySortedBy.mp hx)).2, (mem_ggVE₂ (mem_pySortedBy.mp hy)).2⟩
  refine ⟨?_, ?_, ?_⟩
  · simp only [lineGroups, properLineGroups, enumGroups, List.cons_append, List.nil_append]
    refine List.Pairwise.cons ?_ (List.Pairwise.cons ?_ (List.Pairwise.cons ?_ (List.Pairwise.cons ?_ (List.Pairwise.cons ?_ (List.Pairwise.cons ?_ (List.Pairwise.cons ?_ (List.Pairwise.cons ?_ (List.Pairwise.cons ?_ (List.Pairwise.cons ?_ (List.Pairwise.cons ?_ (List.Pairwise.cons ?_ (List.Pairwise.cons ?_ (List.Pairwise.nil)))))))))))))
    · intro B hB
      fin_cases hB
      exacts [D₁_₂, D₁_₃, D₁_₄, D₁_₅, D₁_₆, D₁_₇, D₁_₈, D₁_₉, D₁_₁₀, D₁_₁₁, D₁_₁₂, D₁_₁₃]
    · intro B hB
      fin_cases hB
      exacts [D₂_₃, D₂_₄, D₂_₅, D₂_₆, D₂_₇, D₂_₈, D₂_₉, D₂_₁₀, D₂_₁₁, D₂_₁₂, D₂_₁₃]
    · intro B hB
      fin_cases hB
      exacts [D₃_₄, D₃_₅, D₃_₆, D₃_₇, D₃_₈, D₃_₉, D₃_₁₀, D₃_₁₁, D₃_₁₂, D₃_₁₃]
    · intro B hB
      fin_cases hB
      exacts [D₄_₅, D₄_₆, D₄_₇, D₄_₈, D₄_₉, D₄_₁₀, D₄_₁₁, D₄_₁₂, D₄_₁₃]
    · intro B hB
      fin_cases hB
      exacts [D₅_₆, D₅_₇, D₅_₈, D₅_₉, D₅_₁₀, D₅_₁₁, D₅_₁₂, D₅_₁₃]
    · intro B hB
      fin_cases hB
      exacts [D₆_₇, D₆_₈, D₆_₉, D₆_₁₀, D₆_₁₁, D₆_₁₂, D₆_₁₃]
    · intro B hB
      fin_cases hB
      exacts [D₇_₈, D₇_₉, D₇_₁₀, D₇_₁₁, D₇_₁₂, D₇_₁₃]
    · intro B hB
      fin_cases hB
      exacts [D₈_₉, D₈_₁₀, D₈_₁₁, D₈_₁₂, D₈_₁₃]
    · intro B hB
      fin_cases hB
      exacts [D₉_₁₀, D₉_₁₁, D₉_₁₂, D₉_₁₃]
    · intro B hB
      fin_cases hB
      exacts [D₁₀_₁₁, D₁₀_₁₂, D₁₀_₁₃]
    · intro B hB
      fin_cases hB
      exacts [D₁₁_₁₂, D₁₁_₁₃]
    · intro B hB
      fin_cases hB
      exacts [D₁₂_₁₃]
    · intro B hB
      cases hB
  · intro x hx
    by_cases hseen : x ∈ ggS₁₂ (splitlines t) enums
    · simp only [ggS₁₂, ggS₁₁, ggS₁₀, ggS₉, ggS₈, ggS₇, ggS₆, ggS₅, ggS₄, ggS₃,
        ggS₂, ggS₁, List.mem_append] at hseen
      rcases hseen with ((((((((((h | h) | h) | h) | h) | h) | h) | h) | h) | hf) | hf) | h
      · exact Or.inl ⟨pySortedBy sort_key (id (ggV₁ (splitlines t))),
          by simp [lineGroups, properLineGroups],
          mem_pySortedBy.mpr (id h : x ∈ ggV₁ (splitlines t))⟩
      · exact Or.inl ⟨pySortedBy sort_key (id (ggV₂ (splitlines t))),
          by simp [lineGroups, properLineGroups],
          mem_pySortedBy.mpr (id h : x ∈ ggV₂ (splitlines t))⟩
      · exact Or.inl ⟨pySortedBy sort_key (id (ggV₃ (splitlines t))),
          by simp [lineGroups, properLineGroups],
          mem_pySortedBy.mpr (id h : x ∈ ggV₃ (splitlines t))⟩
      · exact Or.inl ⟨pySortedBy sort_key (id (ggV₄ (splitlines t))),
          by simp [lineGroups, properLineGroups],
          mem_pySortedBy.mpr (id h : x ∈ ggV₄ (splitlines t))⟩
      · exact Or.inl ⟨pySortedBy sort_key (id (ggV₅ (splitlines t))),
          by simp [lineGroups, properLineGroups],
          mem_pySortedBy.mpr (id h : x ∈ ggV₅ (splitlines t))⟩
      · exact Or.inl ⟨pySortedBy sort_key (id (ggV₆ (splitlines t))),
          by simp [lineGroups, properLineGroups],
          mem_pySortedBy.mpr (id h : x ∈ ggV₆ (splitlines t))⟩
      · exact Or.inl ⟨pySortedBy sort_key (id (ggV₇ (splitlines t))),
          by simp [lineGroups, properLineGroups],
          mem_pySortedBy.mpr (id h : x ∈ ggV₇ (splitlines t))⟩
      · exact Or.inl ⟨pySortedBy sort_key (id (ggV₈ (splitlines t))),
          by simp [lineGroups, properLineGroups],
          mem_pySortedBy.mpr (id h : x ∈ ggV₈ (splitlines t))⟩
      · exact Or.inl ⟨pySortedBy sort_key (id (ggV₉ (splitlines t))),
          by simp [lineGroups, properLineGroups],
          mem_pySortedBy.mpr (id h : x ∈ ggV₉ (splitlines t))⟩
      · obtain ⟨v, hv, hxv⟩ := List.mem_flatMap.mp hf
        exact Or.inr ⟨v, Or.inl (mem_pySortedBy.mpr hv), hxv⟩
      · obtain ⟨v, hv, hxv⟩ := List.mem_flatMap.mp hf
        exact Or.inr ⟨v, Or.inr (mem_pySortedBy.mpr hv), hxv⟩
      · exact Or.inl ⟨pySortedBy sort_key (id (ggV₁₀ (splitlines t) enums)),
          by simp [lineGroups, properLineGroups],
          mem_pySortedBy.mpr (id h : x ∈ ggV₁₀ (splitlines t) enums)⟩
    · refine Or.inl ⟨pySortedBy sort_key (id (ggNotSeen (splitlines t) enums)), ?_,
        mem_pySortedBy.mpr (mem_sdiff.mpr ⟨mem_pySet.mpr hx, hseen⟩)⟩
      simp [lineGroups, properLineGroups]
  · intro x hx hnotline hnotenum
    by_cases hseen : x ∈ ggS₁₂ (splitlines t) enums
    · exfalso
      simp only [ggS₁₂, ggS₁₁, ggS₁₀, ggS₉, ggS₈, ggS₇, ggS₆, ggS₅, ggS₄, ggS₃,
        ggS₂, ggS₁, List.mem_append] at hseen
      rcases hseen with ((((((((((h | h) | h) | h) | h) | h) | h) | h) | h) | hf) | hf) | h
      · exact hnotline (pySortedBy sort_key (id (ggV₁ (splitlines t))))
          (by simp [properLineGroups]) (mem_pySortedBy.mpr (id h : x ∈ ggV₁ (splitlines t)))
      · exact hnotline (pySortedBy sort_key (id (ggV₂ (splitlines t))))
          (by simp [properLineGroups]) (mem_pySortedBy.mpr (id h : x ∈ ggV₂ (splitlines t)))
      · exact hnotline (pySortedBy sort_key (id (ggV₃ (splitlines t))))
          (by simp [properLineGroups]) (mem_pySortedBy.mpr (id h : x ∈ ggV₃ (splitlines t)))
      · exact hnotline (pySortedBy sort_key (id (ggV₄ (splitlines t))))
          (by simp [properLineGroups]) (mem_pySortedBy.mpr (id h : x ∈ ggV₄ (splitlines t)))
      · exact hnotline (pySortedBy sort_key (id (ggV₅ (splitlines t))))
          (by simp [properLineGroups]) (mem_pySortedBy.mpr (id h : x ∈ ggV₅ (splitlines t)))
      · exact hnotline (pySortedBy sort_key (id (ggV₆ (splitlines t))))
          (by simp [properLineGroups]) (mem_pySortedBy.mpr (id h : x ∈ ggV₆ (splitlines t)))
      · exact hnotline (pySortedBy sort_key (id (ggV₇ (splitlines t))))
          (by simp [properLineGroups]) (mem_pySortedBy.mpr (id h : x ∈ ggV₇ (splitlines t)))
      · exact hnotline (pySortedBy sort_key (id (ggV₈ (splitlines t))))
          (by simp [properLineGroups]) (mem_pySortedBy.mpr (id h : x ∈ ggV₈ (splitlines t)))
      · exact hnotline (pySortedBy sort_key (id (ggV₉ (splitlines t))))
          (by simp [properLineGroups]) (mem_pySortedBy.mpr (id h : x ∈ ggV₉ (splitlines t)))
      · obtain ⟨v, hv, hxv⟩ := List.mem_flatMap.mp hf
        exact hnotenum v (Or.inl (mem_pySortedBy.mpr hv)) hxv
      · obtain ⟨v, hv, hxv⟩ := List.mem_flatMap.mp hf
        exact hnotenum v (Or.inr (mem_pySortedBy.mpr hv)) hxv
      · exact hnotline (pySortedBy sort_key (id (ggV₁₀ (splitlines t) enums)))
          (by simp [properLineGroups]) (mem_pySortedBy.mpr (id h : x ∈ ggV₁₀ (splitlines t) enums))
    · exact mem_pySortedBy.mpr (mem_sdiff.mpr ⟨mem_pySet.mpr hx, hseen⟩)

/-- Witness for `get_groups_classifies` at a concrete accepted header whose
    single declaration is a two-field enum typedef. -/
theorem get_groups_classifies_witness :
    ((lineGroups ⟨[], [], [], [], [], [], [], [], [], ["typedef enum\n\x7b\n  GxB_IS_HYPER = 0,\n  GrB_B = 1\n\x7d GrB_T;"], [], [], []⟩ ++ enumGroups ⟨[], [], [], [], [], [], [], [], [], ["typedef enum\n\x7b\n  GxB_IS_HYPER = 0,\n  GrB_B = 1\n\x7d GrB_T;"], [], [], []⟩).Pairwise fun A B => ∀ x, x ∈ A → x ∉ B) ∧
    (∀ x ∈ splitlines "typedef enum\n\x7b\n  GxB_IS_HYPER = 0,\n  GrB_B = 1\n\x7d GrB_T;",
      (∃ A ∈ lineGroups ⟨[], [], [], [], [], [], [], [], [], ["typedef enum\n\x7b\n  GxB_IS_HYPER = 0,\n  GrB_B = 1\n\x7d GrB_T;"], [], [], []⟩, x ∈ A) ∨
      (∃ v, (v ∈ (Groups.grbTypedefEnums ⟨[], [], [], [], [], [], [], [], [], ["typedef enum\n\x7b\n  GxB_IS_HYPER = 0,\n  GrB_B = 1\n\x7d GrB_T;"], [], [], []⟩) ∨ v ∈ (Groups.gxbTypedefEnums ⟨[], [], [], [], [], [], [], [], [], ["typedef enum\n\x7b\n  GxB_IS_HYPER = 0,\n  GrB_B = 1\n\x7d GrB_T;"], [], [], []⟩)) ∧
        x ∈ splitlines v)) ∧
    (∀ x ∈ splitlines "typedef enum\n\x7b\n  GxB_IS_HYPER = 0,\n  GrB_B = 1\n\x7d GrB_T;",
      (∀ A ∈ properLineGroups ⟨[], [], [], [], [], [], [], [], [], ["typedef enum\n\x7b\n  GxB_IS_HYPER = 0,\n  GrB_B = 1\n\x7d GrB_T;"], [], [], []⟩, x ∉ A) →
      (∀ v, v ∈ (Groups.grbTypedefEnums ⟨[], [], [], [], [], [], [], [], [], ["typedef enum\n\x7b\n  GxB_IS_HYPER = 0,\n  GrB_B = 1\n\x7d GrB_T;"], [], [], []⟩) ∨ v ∈ (Groups.gxbTypedefEnums ⟨[], [], [], [], [], [], [], [], [], ["typedef enum\n\x7b\n  GxB_IS_HYPER = 0,\n  GrB_B = 1\n\x7d GrB_T;"], [], [], []⟩) →
        x ∉ splitlines v) →
      x ∈ (Groups.notSeen ⟨[], [], [], [], [], [], [], [], [], ["typedef enum\n\x7b\n  GxB_IS_HYPER = 0,\n  GrB_B = 1\n\x7d GrB_T;"], [], [], []⟩)) :=
  get_groups_classifies "typedef enum\n\x7b\n  GxB_IS_HYPER = 0,\n  GrB_B = 1\n\x7d GrB_T;" ["typedef enum\n\x7b\n  GxB_IS_HYPER = 0,\n  GrB_B = 1\n\x7d GrB_T;"] ⟨[], [], [], [], [], [], [], [], [], ["typedef enum\n\x7b\n  GxB_IS_HYPER = 0,\n  GrB_B = 1\n\x7d GrB_T;"], [], [], []⟩ (by decide) (by decide) (by decide)

theorem option_map_congr {α β : Type} {f₁ f₂ : α → β} (x : Option α)
    (h : ∀ a, f₁ a = f₂ a) : x.map f₁ = x.map f₂ := by
  cases x with
  | none => rfl
  | some a => show some (f₁ a) = some (f₂ a) ; rw [h a]

theorem pySortedBy_perm_eq {α : Type} {key : α → String} {l₁ l₂ : List α}
    (hperm : l₁.Perm l₂)
    (hinj : ∀ x ∈ l₁, ∀ y ∈ l₁, key x = key y → x = y) :
    pySortedBy key l₁ = pySortedBy key l₂ := by
  apply sorted_perm_eq
    ((sortLe_perm _ l₁).trans (hperm.trans (sortLe_perm _ l₂).symm))
    (pairwise_sortLe l₁ (fun a b => strLe_total (key a) (key b))
      (fun a b c => strLe_trans (key a) (key b) (key c)))
    (pairwise_sortLe l₂ (fun a b => strLe_total (key a) (key b))
      (fun a b c => strLe_trans (key a) (key b) (key c)))
  intro x hx y hy hxy hyx
  exact hinj x (mem_sortLe.mp hx) y (mem_sortLe.mp hy) (strLe_antisymm _ _ hxy hyx)

theorem get_groupsWith_det (e₁ e₂ : List String → List String)
    (h₁ : ∀ l, (e₁ l).Perm l) (h₂ : ∀ l, (e₂ l).Perm l)
    (t : String) (enums : List String)
    (hkey : ∀ x ∈ enums, ∀ y ∈ enums, afterLastBrace x = afterLastBrace y → x = y) :
    get_groupsWith e₁ t enums = get_groupsWith e₂ t enums := by
  have hp : ∀ l : List String, (e₁ l).Perm (e₂ l) :=
    fun l => (h₁ l).trans (h₂ l).symm
  have hlg : ∀ l : List String,
      pySortedBy sort_key (e₁ l) = pySortedBy sort_key (e₂ l) :=
    fun l => pySortedBy_perm_eq (hp l) (fun x _ y _ h => sort_key_inj h)
  have heg : ∀ l : List String, (∀ v ∈ l, v ∈ enums) →
      pySortedBy (fun x => sort_key (afterLastBrace x)) (e₁ l) =
        pySortedBy (fun x => sort_key (afterLastBrace x)) (e₂ l) := by
    intro l hsub
    apply pySortedBy_perm_eq (hp l)
    intro x hx y hy h
    exact hkey x (hsub x ((h₁ l).mem_iff.mp hx)) y (hsub y ((h₁ l).mem_iff.mp hy))
      (sort_key_inj h)
  rw [get_groupsWith, get_groupsWith]
  refine if_congr Iff.rfl ?_ rfl
  simp only [Option.some.injEq, Groups.mk.injEq]
  refine ⟨hlg _, hlg _, hlg _, hlg _, hlg _, hlg _, hlg _, hlg _, hlg _, ?_, ?_, hlg _, hlg _⟩
  · exact heg _ (fun v hv => (mem_ggVE₁ hv).1)
  · exact heg _ (fun v hv => (mem_ggVE₂ hv).1)

/-- **C5**: the generation pipeline is deterministic.  A run of Python
    enumerates each set in some arbitrary order before sorting it; modelling
    that order as a parameter `e`, any two runs of `parse_header` followed
    by `create_header_text` and `create_source_text` on identical input
    produce byte-identical output.  The hypothesis `hkey` records that the
    typedef-enum texts have pairwise distinct closing `} Name` tails, which
    holds for any valid C header since typedef names are unique. -/
theorem pipeline_deterministic (e₁ e₂ : List String → List String)
    (h₁ : ∀ l, (e₁ l).Perm l) (h₂ : ∀ l, (e₂ l).Perm l)
    (tuText : String) (enums : List String) (nodes : List FuncNode) (sc : Bool)
    (defines char_defines : List String)
    (hkey : ∀ x ∈ enums, ∀ y ∈ enums, afterLastBrace x = afterLastBrace y → x = y) :
    parse_headerWith e₁ tuText enums nodes sc = parse_headerWith e₂ tuText enums nodes sc ∧
    (parse_headerWith e₁ tuText enums nodes sc).map
        (fun gi => pyJoin "\n" (create_header_textWith e₁ gi defines char_defines)) =
      (parse_headerWith e₂ tuText enums nodes sc).map
        (fun gi => pyJoin "\n" (create_header_textWith e₂ gi defines char_defines)) ∧
    pyJoin "\n" (create_source_textWith e₁ char_defines) =
      pyJoin "\n" (create_source_textWith e₂ char_defines) := by
  have hp : ∀ l : List String, (e₁ l).Perm (e₂ l) :=
    fun l => (h₁ l).trans (h₂ l).symm
  have hlg : ∀ l : List String,
      pySortedBy sort_key (e₁ l) = pySortedBy sort_key (e₂ l) :=
    fun l => pySortedBy_perm_eq (hp l) (fun x _ y _ h => sort_key_inj h)
  have hgg := get_groupsWith_det e₁ e₂ h₁ h₂ tuText enums hkey
  have hph : parse_headerWith e₁ tuText enums nodes sc =
      parse_headerWith e₂ tuText enums nodes sc := by
    rw [parse_headerWith, parse_headerWith, hgg]
  have hct : ∀ gi : GroupInfo, create_header_textWith e₁ gi defines char_defines =
      create_header_textWith e₂ gi defines char_defines := by
    intro gi
    rw [create_header_textWith, create_header_textWith, hlg (pySet defines),
      hlg (pySet char_defines)]
  have hst : create_source_textWith e₁ char_defines =
      create_source_textWith e₂ char_defines := by
    rw [create_source_textWith, create_source_textWith, hlg (pySet char_defines)]
  refine ⟨hph, ?_, by rw [hst]⟩
  rw [hph]
  exact option_map_congr _ (fun gi => by rw [hct gi])

/-- Witness for `pipeline_deterministic`: the identity enumeration versus
    the reversing enumeration on a concrete (empty) input. -/
theorem pipeline_deterministic_witness :
    parse_headerWith id "" [] [] false = parse_headerWith List.reverse "" [] [] false ∧
    (parse_headerWith id "" [] [] false).map
        (fun gi => pyJoin "\n" (create_header_textWith id gi DEFINES CHAR_DEFINES)) =
      (parse_headerWith List.reverse "" [] [] false).map
        (fun gi => pyJoin "\n" (create_header_textWith List.reverse gi DEFINES CHAR_DEFINES)) ∧
    pyJoin "\n" (create_source_textWith id CHAR_DEFINES) =
      pyJoin "\n" (create_source_textWith List.reverse CHAR_DEFINES) :=
  pipeline_deterministic id List.reverse (fun l => List.Perm.refl l)
    (fun l => List.reverse_perm l) "" [] [] false DEFINES CHAR_DEFINES
    (fun x hx => absurd hx (List.not_mem_nil x))

end CreateHeaders
